import Mathlib

/-!
# RocksDB checkpoint utilities: a shallow embedding

The definitions below embed `fdbserver/RocksDBCheckpointUtils.actor.cpp`:
the `ReadRange` action of the checkpoint reader, the SST file writer, the
Open action, the iterators and `close()` of the reader, the file-mode reader,
the per-file and per-range checkpoint fetches, the top-level fetch, the
deletion of a checkpoint and the total of fetched bytes; and, from
`fdbclient/TenantManagement.actor.h`, `createTenantTransaction` and
`renameTenant`.  The embedded engine (RocksDB), the database, the file system
and the RPC transport are external; their behaviour is supplied as data
(iterator contents, statuses, replies) and every call the code makes to them
is carried out on that data.
-/

namespace RocksDBCheckpointUtils

/-! ## Basic types -/

/-- One byte of a key, of a value or of a file. -/
abbrev Byte := Fin 256

/-- Keys are byte strings; `<` on lists is the lexicographic (bytewise) order
used by `Slice::compare`. -/
abbrev Key := List Byte

/-- Values are byte strings. -/
abbrev Value := List Byte

/-- The pair `KeyValueRef(key, value)`. -/
structure KeyValueRef where
  key : Key
  value : Value
deriving DecidableEq, Repr

/-- Modelled from the spec: the size `KeyValueRef::expectedSize()` (declared in
a header that is not among the sources), key length plus value length. -/
def KeyValueRef.expectedSize (kv : KeyValueRef) : Nat :=
  kv.key.length + kv.value.length

/-- The batch type `RangeResult`: the key/value pairs pushed by the scan. -/
abbrev RangeResult := List KeyValueRef

/-- The half-open key range `[beginKey, endKey)` of `KeyRange`. -/
structure KeyRange where
  beginKey : Key
  endKey : Key
deriving DecidableEq, Repr

/-- The error kinds raised by the code under study. -/
inductive Error where
  | end_of_stream
  | io_error
  | transaction_too_old
  | unknown_error
  | not_implemented
  | checkpoint_not_found
  | failed_to_create_checkpoint_shard_metadata
  | internal_error
  | file_not_found
  | connection_failed
  | serialization_failed
  | invalid_tenant_name
  | tenants_disabled
  | client_invalid_operation
  | tenant_prefix_allocator_conflict
  | tenant_not_found
  | tenant_already_exists
  | not_committed
  | commit_unknown_result
deriving DecidableEq, Repr

/-- The status codes of `rocksdb::Status`. -/
inductive Status where
  | ok
  | notFound
  | corruption
  | notSupported
  | invalidArgument
  | ioError
  | mergeInProgress
  | incomplete
  | shutdownInProgress
  | timedOut
  | aborted
  | busy
  | expired
  | tryAgain
deriving DecidableEq, Repr

/-- The test `Status::ok()`. -/
def Status.isOk (s : Status) : Bool := s == Status.ok

/-- The test `Status::IsIOError()`. -/
def Status.IsIOError (s : Status) : Bool := s == Status.ioError

/-- The test `Status::IsTimedOut()`. -/
def Status.IsTimedOut (s : Status) : Bool := s == Status.timedOut

/-- The function `statusToError` (lines 136-144). -/
def statusToError (s : Status) : Error :=
  if s.IsIOError then Error.io_error
  else if s.IsTimedOut then Error.transaction_too_old
  else Error.unknown_error

/-- Conversion of an integer to the 32-bit two's complement `int`. -/
def wrapInt32 (x : Int) : Int := (x + 2147483648) % 4294967296 - 2147483648

/-! ## The engine iterator and the checkpoint iterator -/

/-- The state of a forward `rocksdb::Iterator`: the entries at and after
the current position (the head is the current entry) and the status that the
engine reports once these entries are exhausted. -/
structure RocksIterator where
  entries : List KeyValueRef
  finalStatus : Status
deriving DecidableEq, Repr

/-- The test `Iterator::Valid()`. -/
def RocksIterator.Valid (it : RocksIterator) : Bool := !it.entries.isEmpty

/-- The call `Iterator::status()`: ok while positioned on an entry, the final
status afterwards. -/
def RocksIterator.status (it : RocksIterator) : Status :=
  if it.entries.isEmpty then it.finalStatus else Status.ok

/-- The class `RocksDBCheckpointIterator`: the range and the engine iterator;
`endSlice` is `range.endKey`. -/
structure RocksDBCheckpointIterator where
  range : KeyRange
  iterator : RocksIterator
deriving DecidableEq, Repr

/-- The accessor `RocksDBCheckpointIterator::end()`. -/
def RocksDBCheckpointIterator.endSlice (it : RocksDBCheckpointIterator) : Key :=
  it.range.endKey

/-- The constructor of `RocksDBCheckpointIterator` (lines 151-168): a new engine
iterator over the column family contents `data` (in the engine's key order,
readable up to `finalStatus`) is sought to `range.beginKey`, that is to the
first entry whose key is not below it. -/
def RocksDBCheckpointIterator.create (data : List KeyValueRef) (finalStatus : Status)
    (range : KeyRange) : RocksDBCheckpointIterator :=
  { range := range
    iterator :=
      { entries := data.dropWhile (fun kv => decide (kv.key < range.beginKey))
        finalStatus := finalStatus } }

/-- The loop condition of line 369: the iterator is valid and its current key
is below the upper bound. -/
def RocksDBCheckpointIterator.inRange (it : RocksDBCheckpointIterator) : Bool :=
  match it.iterator.entries with
  | [] => false
  | kv :: _ => decide (kv.key < it.endSlice)

/-! ## The ReadRange action -/

/-- What an action does with its promise: `send`, `sendError`, or neither
because an `ASSERT` failed first. -/
inductive Reply (α : Type) where
  | send (a : α)
  | sendError (e : Error)
  | assertFailed
deriving DecidableEq, Repr

/-- The scan loop of lines 369-377, on the entries at and after the current
position: returns the batch and the entries left at and after the new
position.  `sizeofKeyValueRef` is the constant `sizeof(KeyValueRef)`. -/
def readRangeLoop (sizeofKeyValueRef : Nat) (endSlice : Key) (rowLimit byteLimit : Int) :
    List KeyValueRef → RangeResult → Int → RangeResult × List KeyValueRef
  | [], result, _ => (result, [])
  | kv :: rest, result, accumulatedBytes =>
    if kv.key < endSlice then
      let accumulatedBytes := wrapInt32 (accumulatedBytes + ((sizeofKeyValueRef + kv.expectedSize : Nat) : Int))
      let result := result ++ [kv]
      if (result.length : Int) ≥ rowLimit ∨ accumulatedBytes ≥ byteLimit then
        (result, rest)
      else
        readRangeLoop sizeofKeyValueRef endSlice rowLimit byteLimit rest result accumulatedBytes
    else
      (result, kv :: rest)

/-- The action `Reader::action(ReadRangeAction&)` (lines 353-392): the reply
sent on `a.result` and the iterator afterwards. -/
def actionReadRange (sizeofKeyValueRef : Nat) (rowLimit byteLimit : Int)
    (it : RocksDBCheckpointIterator) : Reply RangeResult × RocksDBCheckpointIterator :=
  if rowLimit = 0 ∨ byteLimit = 0 then
    (Reply.send [], it)
  else if ¬ (rowLimit > 0) then
    (Reply.assertFailed, it)
  else
    let scanned := readRangeLoop sizeofKeyValueRef it.endSlice rowLimit byteLimit
      it.iterator.entries [] 0
    let result := scanned.1
    let it' : RocksDBCheckpointIterator :=
      { it with iterator := { it.iterator with entries := scanned.2 } }
    let s := it'.iterator.status
    if ¬ s.isOk then
      (Reply.sendError (statusToError s), it')
    else if result.isEmpty then
      (Reply.sendError Error.end_of_stream, it')
    else
      (Reply.send result, it')

/-- Draining an iterator: `ReadRange` actions with the same limits are issued
until one replies `end_of_stream`, and the batches are concatenated.  The
result is `none` when an action fails otherwise or the fuel runs out. -/
def drain (sizeofKeyValueRef : Nat) (rowLimit byteLimit : Int) :
    Nat → RocksDBCheckpointIterator → Option (List KeyValueRef)
  | 0, _ => none
  | fuel + 1, it =>
    match actionReadRange sizeofKeyValueRef rowLimit byteLimit it with
    | (Reply.send batch, it') =>
      (drain sizeofKeyValueRef rowLimit byteLimit fuel it').map (fun l => batch ++ l)
    | (Reply.sendError Error.end_of_stream, _) => some []
    | _ => none

/-- The pairs an iterator still has to deliver: the entries from the current
position up to the first one whose key is not below the upper bound. -/
def RocksDBCheckpointIterator.remaining (it : RocksDBCheckpointIterator) : List KeyValueRef :=
  it.iterator.entries.takeWhile (fun kv => decide (kv.key < it.endSlice))

/-- A sequence of `ReadRange` actions with the given limits on one iterator:
the batches that were sent, in order. -/
def readRanges (sizeofKeyValueRef : Nat) :
    List (Int × Int) → RocksDBCheckpointIterator → List RangeResult
  | [], _ => []
  | (rowLimit, byteLimit) :: lims, it =>
    match actionReadRange sizeofKeyValueRef rowLimit byteLimit it with
    | (Reply.send batch, it') => batch :: readRanges sizeofKeyValueRef lims it'
    | (_, it') => readRanges sizeofKeyValueRef lims it'

/-- The value of the `int accumulatedBytes` counter after the pairs of `l`. -/
def accumulatedBytesOf (sizeofKeyValueRef : Nat) (l : List KeyValueRef) : Int :=
  l.foldl (fun acc kv => wrapInt32 (acc + ((sizeofKeyValueRef + kv.expectedSize : Nat) : Int))) 0

/-- The sum over the pairs of `l` of key length + value length + per-pair overhead. -/
def totalBytesOf (sizeofKeyValueRef : Nat) (l : List KeyValueRef) : Nat :=
  (l.map (fun kv => sizeofKeyValueRef + kv.expectedSize)).sum

/-! ## The SST file writer -/

/-- How a call returns: normally with a value, by throwing an error, or not at
all because an `ASSERT` failed or the behaviour is undefined. -/
inductive Outcome (α : Type) where
  | returned (a : α)
  | thrown (e : Error)
  | crashed
deriving DecidableEq, Repr

/-- A call made to the engine's `rocksdb::SstFileWriter`, with the status the
engine returned. -/
inductive SstCall where
  | Open (path : String) (status : Status)
  | Put (key : Key) (value : Value) (status : Status)
  | Finish (status : Status)
deriving DecidableEq, Repr

/-- The class `RocksDBSstFileWriter` (lines 548-563): its two fields, and the
calls it has made to the engine writer it owns. -/
structure RocksDBSstFileWriter where
  localFile : String
  hasData : Bool
  calls : List SstCall
deriving DecidableEq, Repr

/-- The constructor `RocksDBSstFileWriter()` (lines 550-551). -/
def RocksDBSstFileWriter.new : RocksDBSstFileWriter :=
  { localFile := "", hasData := false, calls := [] }

/-- The method `RocksDBSstFileWriter::open` (lines 565-578); `abspath` is the
platform function, `status` what the engine's `Open` returns. -/
def RocksDBSstFileWriter.openFile (w : RocksDBSstFileWriter) (abspath : String → String)
    (localFile : String) (status : Status) : Outcome Unit × RocksDBSstFileWriter :=
  let w := { w with localFile := abspath localFile }
  let w := { w with calls := w.calls ++ [SstCall.Open w.localFile status] }
  if ¬ status.isOk then
    (Outcome.thrown Error.failed_to_create_checkpoint_shard_metadata, w)
  else
    (Outcome.returned (), w)

/-- The method `RocksDBSstFileWriter::write` (lines 580-595); `status` is what
the engine's `Put` returns. -/
def RocksDBSstFileWriter.write (w : RocksDBSstFileWriter) (key : Key) (value : Value)
    (status : Status) : Outcome Unit × RocksDBSstFileWriter :=
  let w := { w with calls := w.calls ++ [SstCall.Put key value status] }
  if ¬ status.isOk then
    (Outcome.thrown Error.failed_to_create_checkpoint_shard_metadata, w)
  else
    (Outcome.returned (), { w with hasData := true })

/-- The method `RocksDBSstFileWriter::finish` (lines 597-615); `status` is what
the engine's `Finish` returns if it is called. -/
def RocksDBSstFileWriter.finish (w : RocksDBSstFileWriter) (status : Status) :
    Outcome Bool × RocksDBSstFileWriter :=
  if ¬ w.hasData then
    (Outcome.returned false, w)
  else
    let w := { w with calls := w.calls ++ [SstCall.Finish status] }
    if ¬ status.isOk then
      (Outcome.thrown Error.failed_to_create_checkpoint_shard_metadata, w)
    else
      (Outcome.returned true, w)

/-- A sequence of `write` calls, each with the status the engine returns for
it; a call that throws leaves the writer usable for the next one. -/
def RocksDBSstFileWriter.writeAll (w : RocksDBSstFileWriter) :
    List (KeyValueRef × Status) → RocksDBSstFileWriter
  | [] => w
  | (kv, status) :: rest => RocksDBSstFileWriter.writeAll (w.write kv.key kv.value status).2 rest

/-- The engine completes an SST file only in a `Finish` call that returns ok. -/
def RocksDBSstFileWriter.sstFileProduced (w : RocksDBSstFileWriter) : Bool :=
  w.calls.any (fun c => match c with
    | SstCall.Finish status => status.isOk
    | _ => false)

/-- The engine's `Finish` has been invoked. -/
def RocksDBSstFileWriter.finishInvoked (w : RocksDBSstFileWriter) : Bool :=
  w.calls.any (fun c => match c with
    | SstCall.Finish _ => true
    | _ => false)

/-- At least one key was written successfully. -/
def someKeyWritten (writes : List (KeyValueRef × Status)) : Bool :=
  writes.any (fun x => x.2.isOk)

/-- Apply a function to the value a call returned. -/
def Outcome.map {α β : Type} (g : α → β) : Outcome α → Outcome β
  | Outcome.returned a => Outcome.returned (g a)
  | Outcome.thrown e => Outcome.thrown e
  | Outcome.crashed => Outcome.crashed

/-! ## Checkpoint envelopes -/

/-- The identifier type `UID`: two 64-bit parts. -/
structure UID where
  first : Nat
  second : Nat
deriving DecidableEq, Repr

/-- The per-file descriptor `LiveFileMetaData`, with the fields copied by
`getMetaData` (lines 72-95) and the transport flag `fetched`. -/
structure LiveFileMetaData where
  size : Nat := 0
  name : String := ""
  file_number : Nat := 0
  db_path : String := ""
  smallest_seqno : Nat := 0
  largest_seqno : Nat := 0
  smallestkey : String := ""
  largestkey : String := ""
  num_reads_sampled : Nat := 0
  being_compacted : Bool := false
  num_entries : Nat := 0
  num_deletions : Nat := 0
  temperature : Nat := 0
  oldest_blob_file_number : Nat := 0
  oldest_ancester_time : Nat := 0
  file_creation_time : Nat := 0
  file_checksum : String := ""
  file_checksum_func_name : String := ""
  column_family_name : String := ""
  level : Int := 0
  fetched : Bool := false
deriving DecidableEq, Repr

/-- The descriptor `RocksDBColumnFamilyCheckpoint`. -/
structure RocksDBColumnFamilyCheckpoint where
  dbComparatorName : String := ""
  sstFiles : List LiveFileMetaData := []
deriving DecidableEq, Repr

/-- The record `CheckpointFile`: one locally written file of a key range. -/
structure CheckpointFile where
  path : String
  range : KeyRange
  size : Int
deriving DecidableEq, Repr

/-- The descriptor `RocksDBCheckpointKeyValues`. -/
structure RocksDBCheckpointKeyValues where
  fetchedFiles : List CheckpointFile := []
  ranges : List KeyRange := []
deriving DecidableEq, Repr

/-- The descriptor `RocksDBCheckpoint` of a whole-database checkpoint. -/
structure RocksDBCheckpoint where
  checkpointDir : String := ""
  sstFiles : List String := []
  fetchedFiles : List CheckpointFile := []
deriving DecidableEq, Repr

/-- The enumeration `CheckpointFormat`. -/
inductive CheckpointFormat where
  | InvalidFormat
  | DataMoveRocksCF
  | RocksDB
  | RocksDBKeyValues
deriving DecidableEq, Repr

/-- Modelled from the spec: the envelope codec (`ObjectWriter::toValue` and
`ObjectReader::deserialize` of the flow library, absent from the sources).
A serialized checkpoint is the descriptor it was written from, so that
decoding inverts encoding; decoding it as another descriptor kind fails. -/
inductive SerializedCheckpoint where
  | columnFamily (rocksCF : RocksDBColumnFamilyCheckpoint)
  | keyValues (rkv : RocksDBCheckpointKeyValues)
  | fullDB (rocks : RocksDBCheckpoint)
deriving DecidableEq, Repr

/-- The envelope `CheckpointMetaData`, with the fields the code reads. -/
structure CheckpointMetaData where
  checkpointID : UID
  format : CheckpointFormat
  ranges : List KeyRange
  src : List UID
  serializedCheckpoint : SerializedCheckpoint
deriving DecidableEq, Repr

/-- The accessor `CheckpointMetaData::getFormat`. -/
def CheckpointMetaData.getFormat (checkpoint : CheckpointMetaData) : CheckpointFormat :=
  checkpoint.format

/-- The function `getRocksCF` (lines 1118-1123); `none` when the bytes do not
decode as a column family descriptor. -/
def getRocksCF (checkpoint : CheckpointMetaData) : Option RocksDBColumnFamilyCheckpoint :=
  match checkpoint.serializedCheckpoint with
  | SerializedCheckpoint.columnFamily rocksCF => some rocksCF
  | _ => none

/-! ## The environment of a file fetch -/

/-- The interface `StorageServerInterface` decoded from the server list. -/
structure StorageServerInterface where
  id : UID
deriving DecidableEq, Repr

/-- One outcome of `tr.get(serverListKeyFor(ssID))`: a value, no value, or an
error. -/
inductive GetResult where
  | present (ssi : StorageServerInterface)
  | absent
  | failed (e : Error)
deriving DecidableEq, Repr

/-- The errors of file operations: any error but `end_of_stream`, which only
a stream raises. -/
abbrev FileError := { e : Error // e ≠ Error.end_of_stream }

/-- One `FetchCheckpointReply` as it arrives in an attempt: its payload, and
whether writing it or flushing after it fails. -/
structure ReplyStep where
  data : List Byte
  writeError : Option FileError := none
  flushError : Option FileError := none

/-- What the file system, the source server and the callback do in one
attempt: the failures of `deleteFile` and `open`, the replies of the stream,
the error that ends the stream (`end_of_stream` after a complete transfer),
the simulation coin, and the failures of `sync`, `size` and `cFun`. -/
structure AttemptEnv where
  deleteFileError : Option FileError := none
  openError : Option FileError := none
  replies : List ReplyStep := []
  streamError : Error := Error.end_of_stream
  coinflip : Bool := false
  syncError : Option Error := none
  sizeError : Option Error := none
  cFunError : Option Error := none

/-- The environment of one `fetchCheckpointFile` call: the successive outcomes
of the server list read, which errors `tr.onError` retries, whether the
network is simulated, whether a callback `cFun` was given, and the behaviour
of each attempt (numbered from 1). -/
structure FetchEnv where
  serverList : List GetResult := []
  onErrorRetries : Error → Bool := fun _ => false
  isSimulated : Bool := false
  cFunPresent : Bool := true
  attempts : Nat → AttemptEnv := fun _ => {}

/-- The calls a fetch makes to its collaborators (for a range fetch also the
calls to the engine's SST writer), and the trace events that open an attempt. -/
inductive Event where
  | getServerList (ssID : UID)
  | traceFetchCheckpointFileBegin (attempt : Nat)
  | deleteFile (path : String)
  | openFile (path : String)
  | getReplyStream (ssi : StorageServerInterface) (checkpointID : UID) (remoteFile : String)
  | write (path : String) (data : List Byte) (offset : Nat)
  | flush (path : String)
  | sync (path : String)
  | size (path : String)
  | cFun (metaData : CheckpointMetaData)
  | traceFetchCheckpointRangeBegin (attempt : Nat)
  | getReplyStreamKeyValues (ssi : StorageServerInterface) (checkpointID : UID) (range : KeyRange)
  | writerCall (call : SstCall)
deriving DecidableEq, Repr

/-- The state a fetch acts on: the shared envelope `*metaData`, the local
files, and the calls made so far. -/
structure FetchState where
  metaData : CheckpointMetaData
  files : String → Option (List Byte)
  trace : List Event

/-- The effect of `IAsyncFile::write(data, size, offset)` on a file's bytes. -/
def writeAt (content : List Byte) (offset : Nat) (data : List Byte) : List Byte :=
  content.take offset ++ List.replicate (offset - content.length) 0 ++ data
    ++ content.drop (offset + data.length)

/-- Replace the content of one file. -/
def setFile (files : String → Option (List Byte)) (path : String)
    (content : Option (List Byte)) : String → Option (List Byte) :=
  fun p => if p = path then content else files p

/-- The server list loop (lines 727-739 of `fetchCheckpointFile`): `none` when
the reads never settle. -/
def lookupServer (onErrorRetries : Error → Bool) (ssID : UID) :
    List GetResult → List Event → Option (Outcome StorageServerInterface × List Event)
  | [], _ => none
  | GetResult.present ssi :: _, trace =>
    some (Outcome.returned ssi, trace ++ [Event.getServerList ssID])
  | GetResult.absent :: rest, trace =>
    if onErrorRetries Error.checkpoint_not_found then
      lookupServer onErrorRetries ssID rest (trace ++ [Event.getServerList ssID])
    else
      some (Outcome.thrown Error.checkpoint_not_found, trace ++ [Event.getServerList ssID])
  | GetResult.failed e :: rest, trace =>
    if onErrorRetries e then
      lookupServer onErrorRetries ssID rest (trace ++ [Event.getServerList ssID])
    else
      some (Outcome.thrown e, trace ++ [Event.getServerList ssID])

/-- The receive loop (lines 769-774): each reply is written at the current
offset, the file is flushed and the offset advances; the loop ends with the
error it catches. -/
def receiveLoop (localFile : String) (streamError : Error) :
    List ReplyStep → Nat → List Byte → List Event → Error × List Byte × List Event
  | [], _, content, trace => (streamError, content, trace)
  | rep :: rest, offset, content, trace =>
    let trace := trace ++ [Event.write localFile rep.data offset]
    match rep.writeError with
    | some e => (e.val, content, trace)
    | none =>
      let content := writeAt content offset rep.data
      let trace := trace ++ [Event.flush localFile]
      match rep.flushError with
      | some e => (e.val, content, trace)
      | none => receiveLoop localFile streamError rest (offset + rep.data.length) content trace

/-- The `try` block of one attempt (lines 746-774) with `offset = 0` set
before it: the error caught and the state then. -/
def tryAttempt (a : AttemptEnv) (ssi : StorageServerInterface) (checkpointID : UID)
    (remoteFile localFile : String) (attempt : Nat) (st : FetchState) : Error × FetchState :=
  let trace := st.trace ++ [Event.traceFetchCheckpointFileBegin attempt,
    Event.deleteFile localFile]
  match a.deleteFileError with
  | some e => (e.val, { st with trace := trace })
  | none =>
    let files := setFile st.files localFile none
    let trace := trace ++ [Event.openFile localFile]
    match a.openError with
    | some e => (e.val, { st with files := files, trace := trace })
    | none =>
      let trace := trace ++ [Event.getReplyStream ssi checkpointID remoteFile]
      let received := receiveLoop localFile a.streamError a.replies 0 [] trace
      (received.1, { st with files := setFile files localFile (some received.2.1),
                             trace := received.2.2 })

/-- Set entry `idx` of a list. -/
def setEntry (l : List LiveFileMetaData) (idx : Nat) (f : LiveFileMetaData) :
    List LiveFileMetaData :=
  l.set idx f

/-- The retry loop of `fetchCheckpointFile` (lines 744-806).  `rocksCF` is the
descriptor decoded when the call started, `st` the shared state; `none` when
the fuel runs out. -/
def fetchFileLoop (env : FetchEnv) (rocksCF : RocksDBColumnFamilyCheckpoint) (idx : Nat)
    (f : LiveFileMetaData) (dir : String) (ssi : StorageServerInterface) (maxRetries : Int) :
    Nat → Nat → FetchState → Option (Outcome Unit × FetchState)
  | 0, _, _ => none
  | fuel + 1, attempt, st =>
    let remoteFile := f.name
    let localFile := dir ++ f.name
    let attempt := attempt + 1
    let a := env.attempts attempt
    let caught := tryAttempt a ssi st.metaData.checkpointID remoteFile localFile attempt st
    let e := caught.1
    let st := caught.2
    if e ≠ Error.end_of_stream ∨ (env.isSimulated ∧ attempt = 1 ∧ a.coinflip) then
      if (attempt : Int) ≥ maxRetries then
        some (Outcome.thrown e, st)
      else
        fetchFileLoop env rocksCF idx f dir ssi maxRetries fuel attempt st
    else
      let st := { st with trace := st.trace ++ [Event.sync localFile] }
      match a.syncError with
      | some e => some (Outcome.thrown e, st)
      | none =>
        let st := { st with trace := st.trace ++ [Event.size localFile] }
        match a.sizeError with
        | some e => some (Outcome.thrown e, st)
        | none =>
          let fetchedFile : LiveFileMetaData := { f with db_path := dir, fetched := true }
          let rocksCF : RocksDBColumnFamilyCheckpoint :=
            { rocksCF with sstFiles := setEntry rocksCF.sstFiles idx fetchedFile }
          let metaData : CheckpointMetaData :=
            { st.metaData with serializedCheckpoint := SerializedCheckpoint.columnFamily rocksCF }
          let st := { st with metaData := metaData }
          if env.cFunPresent then
            let st := { st with trace := st.trace ++ [Event.cFun st.metaData] }
            match a.cFunError with
            | some e => some (Outcome.thrown e, st)
            | none => some (Outcome.returned (), st)
          else
            some (Outcome.returned (), st)

/-- The actor `fetchCheckpointFile` (lines 705-807) started on the envelope
`snapshot` (the value of `*metaData` when the call is made) and acting on the
shared state `st`. -/
def fetchCheckpointFileFrom (env : FetchEnv) (snapshot : CheckpointMetaData) (st : FetchState)
    (idx : Nat) (dir : String) (maxRetries : Int) : Option (Outcome Unit × FetchState) :=
  match getRocksCF snapshot with
  | none => some (Outcome.thrown Error.serialization_failed, st)
  | some rocksCF =>
    match rocksCF.sstFiles[idx]? with
    | none => some (Outcome.crashed, st)
    | some f =>
      if f.fetched ∧ f.db_path = dir then
        some (Outcome.returned (), st)
      else
        match snapshot.src with
        | [] => some (Outcome.crashed, st)
        | ssID :: _ =>
          match lookupServer env.onErrorRetries ssID env.serverList st.trace with
          | none => none
          | some (Outcome.returned ssi, trace) =>
            fetchFileLoop env rocksCF idx f dir ssi maxRetries (maxRetries.toNat + 1) 0
              { st with trace := trace }
          | some (Outcome.thrown e, trace) => some (Outcome.thrown e, { st with trace := trace })
          | some (Outcome.crashed, trace) => some (Outcome.crashed, { st with trace := trace })

/-- The actor `fetchCheckpointFile` called on the shared state `st`. -/
def fetchCheckpointFile (env : FetchEnv) (st : FetchState) (idx : Nat) (dir : String)
    (maxRetries : Int) : Option (Outcome Unit × FetchState) :=
  fetchCheckpointFileFrom env st.metaData st idx dir maxRetries

/-! ## The top-level fetch -/

/-- The tasks created by the loop of lines 1015-1020 and awaited by
`waitForAll` (line 1021).  A task runs up to its first `wait` when it is
created, so every task decodes the envelope `snapshot` as it was before any
task completed; the tasks then complete in the order `order`, each acting on
the shared state at that time.  The first task that throws ends the wait. -/
def waitForAllFiles (envs : Nat → FetchEnv) (snapshot : CheckpointMetaData) (dir : String) :
    List Nat → FetchState → Option (Outcome Unit × FetchState)
  | [], st => some (Outcome.returned (), st)
  | i :: rest, st =>
    match fetchCheckpointFileFrom (envs i) snapshot st i dir 3 with
    | none => none
    | some (Outcome.returned _, st) => waitForAllFiles envs snapshot dir rest st
    | some (Outcome.thrown e, st) => some (Outcome.thrown e, st)
    | some (Outcome.crashed, st) => some (Outcome.crashed, st)

/-- A completion order of the tasks `0 .. n - 1`: each task occurs once. -/
def isCompletionOrder (n : Nat) (order : List Nat) : Bool :=
  order.length == n && (List.range n).all (fun i => order.contains i)

/-- The actor `fetchRocksDBCheckpoint` (lines 997-1029).  `order` is the order
in which the per-file tasks `0 .. sstFiles.size() - 1` complete (`none` when
it is not a completion order of these tasks), and `fetchCheckpointRanges` the
behaviour of the key-value branch. -/
def fetchRocksDBCheckpoint (envs : Nat → FetchEnv) (order : List Nat)
    (fetchCheckpointRanges : FetchState → String → Option (Outcome Unit × FetchState))
    (initialState : CheckpointMetaData) (dir : String) (files : String → Option (List Byte)) :
    Option (Outcome CheckpointMetaData × FetchState) :=
  let st : FetchState := { metaData := initialState, files := files, trace := [] }
  if initialState.ranges.isEmpty then
    some (Outcome.crashed, st)
  else
    let finish := fun (r : Option (Outcome Unit × FetchState)) =>
      match r with
      | none => none
      | some (Outcome.returned _, st) => some (Outcome.returned st.metaData, st)
      | some (Outcome.thrown e, st) => some (Outcome.thrown e, st)
      | some (Outcome.crashed, st) => some (Outcome.crashed, st)
    match initialState.getFormat with
    | CheckpointFormat.DataMoveRocksCF =>
      match getRocksCF initialState with
      | none => some (Outcome.thrown Error.serialization_failed, st)
      | some rocksCF =>
        if isCompletionOrder rocksCF.sstFiles.length order then
          finish (waitForAllFiles envs initialState dir order st)
        else
          none
    | CheckpointFormat.RocksDBKeyValues => finish (fetchCheckpointRanges st dir)
    | CheckpointFormat.RocksDB => some (Outcome.thrown Error.not_implemented, st)
    | CheckpointFormat.InvalidFormat => some (Outcome.returned st.metaData, st)

/-- The `fetched` flag and `db_path` of every file of a column family
envelope, as decoded by `getRocksCF`. -/
def fetchedMarks (checkpoint : CheckpointMetaData) : Option (List (Bool × String)) :=
  (getRocksCF checkpoint).map (fun rocksCF => rocksCF.sstFiles.map (fun f => (f.fetched, f.db_path)))

/-! ## Reading a trace -/

/-- The attempt numbers of the `FetchCheckpointFileBegin` events of a trace. -/
def attemptNumbers (trace : List Event) : List Nat :=
  trace.filterMap (fun ev => match ev with
    | Event.traceFetchCheckpointFileBegin n => some n
    | _ => none)

/-- The envelopes passed to `cFun` in a trace. -/
def cFunCalls (trace : List Event) : List CheckpointMetaData :=
  trace.filterMap (fun ev => match ev with
    | Event.cFun metaData => some metaData
    | _ => none)

/-- The error that ends the receive loop on the given replies: the first
write or flush failure, else the error that ends the stream. -/
def repliesError (streamError : Error) : List ReplyStep → Error
  | [] => streamError
  | rep :: rest =>
    match rep.writeError with
    | some e => e.val
    | none =>
      match rep.flushError with
      | some e => e.val
      | none => repliesError streamError rest

/-- The error an attempt ends with. -/
def AttemptEnv.caught (a : AttemptEnv) : Error :=
  match a.deleteFileError with
  | some e => e.val
  | none =>
    match a.openError with
    | some e => e.val
    | none => repliesError a.streamError a.replies

/-- The writes of an attempt as the payloads arrive: each payload at the
offset reached so far, followed by a flush. -/
def positionedWrites (localFile : String) : List (List Byte) → Nat → List Event
  | [], _ => []
  | data :: rest, offset =>
    Event.write localFile data offset :: Event.flush localFile ::
      positionedWrites localFile rest (offset + data.length)

/-! ## Sample data -/

/-- A column family descriptor with two files that are not fetched yet. -/
def sampleRocksCF : RocksDBColumnFamilyCheckpoint :=
  { sstFiles := [{ name := "/f1.sst", db_path := "/remote" },
                 { name := "/f2.sst", db_path := "/remote" }] }

/-- A column family envelope for `sampleRocksCF`. -/
def sampleCheckpoint : CheckpointMetaData :=
  { checkpointID := ⟨1, 2⟩
    format := CheckpointFormat.DataMoveRocksCF
    ranges := [⟨[97], [122]⟩]
    src := [⟨7, 7⟩]
    serializedCheckpoint := SerializedCheckpoint.columnFamily sampleRocksCF }

/-- The envelope of `sampleCheckpoint` after its first file was fetched to `/tmp/cp`. -/
def sampleCheckpointResumed : CheckpointMetaData :=
  { sampleCheckpoint with
    serializedCheckpoint := SerializedCheckpoint.columnFamily
      { sstFiles := [{ name := "/f1.sst", db_path := "/tmp/cp", fetched := true },
                     { name := "/f2.sst", db_path := "/remote" }] } }

/-- A state with the sample envelope, no local file and no call made. -/
def sampleState : FetchState :=
  { metaData := sampleCheckpoint, files := fun _ => none, trace := [] }

/-- A state with the resumed sample envelope. -/
def sampleStateResumed : FetchState :=
  { metaData := sampleCheckpointResumed, files := fun _ => none, trace := [] }

/-- An attempt in which the stream breaks after one reply. -/
def brokenAttempt : AttemptEnv :=
  { replies := [{ data := [1, 2] }], streamError := Error.connection_failed }

/-- An attempt in which two replies arrive and the stream ends. -/
def completeAttempt : AttemptEnv :=
  { replies := [{ data := [1, 2] }, { data := [3] }] }

/-- An environment in which the server is found and every attempt breaks. -/
def failingEnv : FetchEnv :=
  { serverList := [GetResult.present ⟨⟨7, 7⟩⟩], attempts := fun _ => brokenAttempt }

/-- An environment in which the first attempt breaks and the later ones complete. -/
def retryEnv : FetchEnv :=
  { serverList := [GetResult.present ⟨⟨7, 7⟩⟩]
    attempts := fun n => if n = 1 then brokenAttempt else completeAttempt }

/-- An environment in which every attempt completes. -/
def completeEnv : FetchEnv :=
  { serverList := [GetResult.present ⟨⟨7, 7⟩⟩], attempts := fun _ => completeAttempt }

/-- The state after the first sample file is fetched with one retry. -/
def sampleFetched : FetchState :=
  match fetchCheckpointFile retryEnv sampleState 0 "/tmp/cp" 3 with
  | some (_, st) => st
  | none => sampleState
/-! ## The checkpoint reader: Open, iterators and close -/

/-- The constant `checkpointReaderSubDir` (line 60). -/
def checkpointReaderSubDir : String := "/reader"

/-- The three helpers the Open action calls on the worker state `σ` (the
engine handles and the disk): the test `cf == nullptr`, `tryOpenForRead`,
`platform::eraseDirectoryRecursive` and `importCheckpoint`. -/
structure OpenHelpers (σ : Type) where
  cfIsNull : σ → Bool
  tryOpenForRead : String → σ → Status × σ
  eraseDirectoryRecursive : String → σ → σ
  importCheckpoint : String → CheckpointMetaData → σ → Status × σ

/-- The action `Reader::action(OpenAction&)` (lines 314-346): what is done with
`a.done` and the worker state afterwards. -/
def actionOpen {σ : Type} (h : OpenHelpers σ) (checkpoint : CheckpointMetaData) (s : σ) :
    Reply Unit × σ :=
  if ¬ h.cfIsNull s then
    (Reply.assertFailed, s)
  else if checkpoint.getFormat ≠ CheckpointFormat.DataMoveRocksCF then
    (Reply.sendError Error.not_implemented, s)
  else
    match getRocksCF checkpoint with
    | none => (Reply.assertFailed, s)
    | some rocksCF =>
      match rocksCF.sstFiles with
      | [] => (Reply.assertFailed, s)
      | front :: _ =>
        let path := front.db_path ++ checkpointReaderSubDir
        let opened := h.tryOpenForRead path s
        let reopened :=
          if ¬ opened.1.isOk then
            let erased := h.eraseDirectoryRecursive path opened.2
            let imported := h.importCheckpoint path checkpoint erased
            if imported.1.isOk then h.tryOpenForRead path imported.2 else imported
          else
            opened
        if ¬ reopened.1.isOk then
          (Reply.sendError (statusToError reopened.1), reopened.2)
        else
          (Reply.send (), reopened.2)

/-- The fields of `RocksDBCheckpointReader` (lines 259-267) that iterators and
`close` use: whether `db` and `cf` are set, `path` and the counter `numIter`.
The counter is an `int`; it counts objects held in memory and is taken as an
integer. -/
structure RocksDBCheckpointReader where
  db : Bool := false
  cf : Bool := false
  path : String := ""
  numIter : Int := 0
deriving DecidableEq, Repr

/-- The method `inUse` (line 198). -/
def RocksDBCheckpointReader.inUse (r : RocksDBCheckpointReader) : Bool :=
  decide (r.numIter > 0)

/-- The method `getIterator` (lines 307-310) with the constructor it calls
(lines 151-168): the counter is incremented, then the iterator is built over
the column family contents; the constructor asserts that `db` and `cf` are set. -/
def RocksDBCheckpointReader.getIterator (r : RocksDBCheckpointReader)
    (data : List KeyValueRef) (finalStatus : Status) (range : KeyRange) :
    Outcome RocksDBCheckpointIterator × RocksDBCheckpointReader :=
  let r := { r with numIter := r.numIter + 1 }
  if ¬ (r.db ∧ r.cf) then
    (Outcome.crashed, r)
  else
    (Outcome.returned (RocksDBCheckpointIterator.create data finalStatus range), r)

/-- The destructor `~RocksDBCheckpointIterator` (line 170). -/
def RocksDBCheckpointReader.iteratorDestroyed (r : RocksDBCheckpointReader) :
    RocksDBCheckpointReader :=
  { r with numIter := r.numIter - 1 }

/-- A call on a reader: `getIterator(range)`, or the destruction of the
iterator that was handed out by the `id`-th `getIterator` call. -/
inductive ReaderCall where
  | getIterator (range : KeyRange)
  | destroyIterator (id : Nat)
deriving DecidableEq, Repr

/-- A reader together with the iterators handed out and not destroyed yet
(`live`, by the number of the call that made them) and the number of
iterators handed out so far. -/
structure ReaderRun where
  reader : RocksDBCheckpointReader
  live : List Nat
  handedOut : Nat
deriving DecidableEq, Repr

/-- A sequence of calls on a reader whose column family holds `data`.  A
`getIterator` call whose constructor fails an assertion hands out no iterator
and the run goes on with the reader as that call leaves it; the result is
`none` when a call destroys an iterator that is not live. -/
def runCalls (data : List KeyValueRef) (finalStatus : Status) :
    List ReaderCall → ReaderRun → Option ReaderRun
  | [], w => some w
  | ReaderCall.getIterator range :: rest, w =>
    match w.reader.getIterator data finalStatus range with
    | (Outcome.returned _, r) =>
      runCalls data finalStatus rest
        { reader := r, live := w.handedOut :: w.live, handedOut := w.handedOut + 1 }
    | (_, r) => runCalls data finalStatus rest { w with reader := r }
  | ReaderCall.destroyIterator id :: rest, w =>
    if id ∈ w.live then
      runCalls data finalStatus rest
        { w with reader := w.reader.iteratorDestroyed, live := w.live.erase id }
    else
      none

/-- What `close` does to the worker pool and the native handle. -/
inductive CloseEvent where
  | postCloseAction (path : String) (deleteOnClose : Bool)
  | stopThreads
  | deleteDb
  | deleteSelf
deriving DecidableEq, Repr

/-- The actor `RocksDBCheckpointReader::doClose` (lines 525-546); the Close
action it posts always completes (lines 348-351). -/
def doClose (self : Option RocksDBCheckpointReader) : Outcome Unit × List CloseEvent :=
  match self with
  | none => (Outcome.returned (), [])
  | some r =>
    let events := [CloseEvent.postCloseAction r.path false, CloseEvent.stopThreads]
    let events := if r.db then events ++ [CloseEvent.deleteDb] else events
    (Outcome.returned (), events ++ [CloseEvent.deleteSelf])

/-! ## The file-mode reader -/

/-- The fields of `RocksDBCFCheckpointReader` (lines 668-672); `file_` holds
the bytes of the open file, `none` while no file is open. -/
structure RocksDBCFCheckpointReader where
  checkpoint_ : CheckpointMetaData
  file_ : Option (List Byte) := none
  offset_ : Int := 0
  path_ : String := ""
deriving DecidableEq, Repr

/-- The method `RocksDBCFCheckpointReader::init` with `doInit` (lines 633-648,
675-694); `openFile` is what opening a path read-only gives, the bytes of the
file or an error. -/
def RocksDBCFCheckpointReader.init (r : RocksDBCFCheckpointReader)
    (openFile : String → Outcome (List Byte)) (token : String) :
    Outcome Unit × RocksDBCFCheckpointReader :=
  if r.checkpoint_.getFormat ≠ CheckpointFormat.DataMoveRocksCF then
    (Outcome.crashed, r)
  else
    let name := token
    let r := { r with offset_ := 0, path_ := "" }
    match getRocksCF r.checkpoint_ with
    | none => (Outcome.thrown Error.serialization_failed, r)
    | some rocksCF =>
      let r :=
        match rocksCF.sstFiles.find? (fun sstFile => sstFile.name == name) with
        | some sstFile => { r with path_ := sstFile.db_path ++ sstFile.name }
        | none => r
      if r.path_ = "" then
        (Outcome.thrown Error.checkpoint_not_found, r)
      else
        match openFile r.path_ with
        | Outcome.returned content => (Outcome.returned (), { r with file_ := some content })
        | Outcome.thrown e => (Outcome.thrown e, r)
        | Outcome.crashed => (Outcome.crashed, r)

/-- A file read that returns `min(requested, remaining)` bytes at `offset`; a
negative length or offset is an `io_error`. -/
def asyncFileRead (content : List Byte) (length offset : Int) : Outcome (List Byte) :=
  if length < 0 ∨ offset < 0 then
    Outcome.thrown Error.io_error
  else
    Outcome.returned ((content.drop offset.toNat).take length.toNat)

/-- The actor `RocksDBCFCheckpointReader::getNextChunk` (lines 650-660), with
`asyncFileRead` as the read of the open file; `offset_` is an `int`. -/
def RocksDBCFCheckpointReader.getNextChunk (r : RocksDBCFCheckpointReader) (byteLimit : Int) :
    Outcome (List Byte) × RocksDBCFCheckpointReader :=
  let blockSize : Int := min (64 * 1024) byteLimit
  match r.file_ with
  | none => (Outcome.crashed, r)
  | some content =>
    match asyncFileRead content blockSize r.offset_ with
    | Outcome.returned buf =>
      let bytesRead : Int := buf.length
      if bytesRead = 0 then
        (Outcome.thrown Error.end_of_stream, r)
      else
        (Outcome.returned buf, { r with offset_ := wrapInt32 (r.offset_ + bytesRead) })
    | Outcome.thrown e => (Outcome.thrown e, r)
    | Outcome.crashed => (Outcome.crashed, r)

/-- The chunks returned by `nextChunk` calls with the same limit up to the
first `end_of_stream`; `none` when a call fails otherwise or the fuel runs out. -/
def drainChunks (byteLimit : Int) : Nat → RocksDBCFCheckpointReader → Option (List (List Byte))
  | 0, _ => none
  | fuel + 1, r =>
    match r.getNextChunk byteLimit with
    | (Outcome.returned chunk, r') => (drainChunks byteLimit fuel r').map (fun l => chunk :: l)
    | (Outcome.thrown Error.end_of_stream, _) => some []
    | _ => none

/-- A worker state that only records the helper calls made on it. -/
def loggingHelpers : OpenHelpers (List String) :=
  { cfIsNull := fun _ => true
    tryOpenForRead := fun path s => (Status.ok, s ++ ["tryOpenForRead " ++ path])
    eraseDirectoryRecursive := fun path s => s ++ ["eraseDirectoryRecursive " ++ path]
    importCheckpoint := fun path _ s => (Status.ok, s ++ ["importCheckpoint " ++ path]) }

/-- A key-value envelope without ranges fetched so far. -/
def sampleKeyValuesCheckpoint : CheckpointMetaData :=
  { checkpointID := ⟨1, 2⟩
    format := CheckpointFormat.RocksDBKeyValues
    ranges := [⟨[97], [109]⟩]
    src := [⟨7, 7⟩]
    serializedCheckpoint := SerializedCheckpoint.keyValues { ranges := [⟨[97], [109]⟩] } }

/-- A file-mode reader positioned 64 KiB before the end of a file of 2 GiB. -/
def hugeFileReader : RocksDBCFCheckpointReader :=
  { checkpoint_ := sampleCheckpoint
    file_ := some (List.replicate 2147483648 0)
    offset_ := 2147418112 }

/-! ## Key ranges and the range map -/

/-- The key `k` lies in the half-open range `r`. -/
@[reducible] def KeyRange.contains (r : KeyRange) (k : Key) : Prop :=
  r.beginKey ≤ k ∧ k < r.endKey

/-- The ranges `r` and `s` share a key. -/
def KeyRange.overlaps (r s : KeyRange) : Prop :=
  ∃ k, r.contains k ∧ s.contains k

/-- The test `KeyRangeRef::intersects` used at line 826 (declared in a header
that is not among the sources): each range begins before the other ends. -/
def KeyRange.intersects (r s : KeyRange) : Bool :=
  decide (r.beginKey < s.endKey) && decide (s.beginKey < r.endKey)

/-- The operator `KeyRangeRef::operator&` used at line 980: the common part of
two ranges, the empty range when there is none. -/
def KeyRange.inter (r s : KeyRange) : KeyRange :=
  let b := max r.beginKey s.beginKey
  let e := min r.endKey s.endKey
  if e < b then ⟨[], []⟩ else ⟨b, e⟩

/-- The key `allKeys.end`, the end of the key space. -/
def allKeysEnd : Key := [255, 255]

/-- The test `CheckpointFile::isValid` used at line 981: the record names a
file. -/
def CheckpointFile.isValid (file : CheckpointFile) : Bool :=
  decide (file.path ≠ "")

/-- One range of a `KeyRangeMap` with the value it carries. -/
structure RangeMapEntry where
  range : KeyRange
  value : CheckpointFile
deriving DecidableEq, Repr

/-- Modelled from the spec: the interval map `KeyRangeMap<CheckpointFile>`
(declared in a header that is not among the sources), as the list of its
ranges in key order.  Ranges are well formed (`begin <= end`, as the
constructor of `KeyRange` enforces). -/
abbrev KeyRangeMap := List RangeMapEntry

/-- Modelled from the spec: a new `KeyRangeMap`, one range over the whole key
space carrying the default (invalid) `CheckpointFile`. -/
def KeyRangeMap.new : KeyRangeMap :=
  [⟨⟨[], allKeysEnd⟩, ⟨"", ⟨[], []⟩, 0⟩⟩]

/-- Modelled from the spec: `KeyRangeMap::insert(keys, value)`: the keys of a
non-empty range `keys` get `value`; the ranges of the map are cut at the
borders of `keys` and keep their values outside it. -/
def KeyRangeMap.insert (m : KeyRangeMap) (keys : KeyRange) (value : CheckpointFile) :
    KeyRangeMap :=
  if keys.beginKey < keys.endKey then
    m.filterMap (fun e =>
        if e.range.beginKey < keys.beginKey then
          some ⟨⟨e.range.beginKey, min e.range.endKey keys.beginKey⟩, e.value⟩
        else none)
      ++ [⟨keys, value⟩]
      ++ m.filterMap (fun e =>
        if keys.endKey < e.range.endKey then
          some ⟨⟨max e.range.beginKey keys.endKey, e.range.endKey⟩, e.value⟩
        else none)
  else
    m

/-- Modelled from the spec: `KeyRangeMap::intersectingRanges(keys)`: the ranges
of the map from the one holding `keys.begin` up to the one that begins before
`keys.end`. -/
def KeyRangeMap.intersectingRanges (m : KeyRangeMap) (keys : KeyRange) : List RangeMapEntry :=
  m.filter (fun e => decide (e.range.beginKey < keys.endKey)
    && decide (keys.beginKey < e.range.endKey))

/-- The map built at lines 970-973 of `fetchCheckpointRanges`. -/
def fetchedFileMap (rkv : RocksDBCheckpointKeyValues) : KeyRangeMap :=
  rkv.fetchedFiles.foldl (fun fileMap file => fileMap.insert file.range file) KeyRangeMap.new

/-- The sub-ranges for which `fetchCheckpointRanges` starts a
`fetchCheckpointRange` (lines 975-987), in the order of the calls. -/
def rangesToFetch (rkv : RocksDBCheckpointKeyValues) : List KeyRange :=
  rkv.ranges.flatMap (fun range =>
    ((fetchedFileMap rkv).intersectingRanges range).filterMap (fun r =>
      if ¬ r.value.isValid then some (range.inter r.range) else none))

/-- The function `getRocksKeyValuesCheckpoint` (lines 1132-1137); `none` when
the bytes do not decode as a key-value descriptor. -/
def getRocksKeyValuesCheckpoint (checkpoint : CheckpointMetaData) :
    Option RocksDBCheckpointKeyValues :=
  match checkpoint.serializedCheckpoint with
  | SerializedCheckpoint.keyValues rkv => some rkv
  | _ => none

/-- The invariant of the map built from the records `files`: its ranges do not
overlap, they cover the key space, and a range carries a valid record exactly
over keys that lie in the range of one of `files`. -/
def RangeMapInv (m : KeyRangeMap) (files : List CheckpointFile) : Prop :=
  m.Pairwise (fun e e' => ¬ e.range.overlaps e'.range) ∧
  (∀ k, k < allKeysEnd → ∃ e ∈ m, e.range.contains k) ∧
  (∀ e ∈ m, ∀ k, e.range.contains k →
    (e.value.isValid = true ↔ ∃ f ∈ files, f.range.contains k))

/-- A key-value descriptor whose fetched files cover `[a, g)` of the requested `[a, m)`. -/
def resumedKeyValues : RocksDBCheckpointKeyValues :=
  { fetchedFiles := [⟨"/tmp/cp/9.sst", ⟨[97], [103]⟩, 10⟩], ranges := [⟨[97], [109]⟩] }

/-! ## The range fetch -/

/-- What the file system, the engine's SST writer and the source server do in
one attempt of a range fetch: the failure of `deleteFile`, the status of the
writer's `Open`, the replies of the stream (the pairs of each reply with the
status of their `Put`), the error that ends the stream, the status of the
writer's `Finish` if it is called, and the file the attempt leaves at the
local path (`none` when there is no file). -/
structure RangeAttemptEnv where
  deleteFileError : Option FileError := none
  openStatus : Status := Status.ok
  replies : List (List (KeyValueRef × Status)) := []
  streamError : Error := Error.end_of_stream
  finishStatus : Status := Status.ok
  fileAfter : Option (List Byte) := none

/-- The environment of one `fetchCheckpointRange` call: the outcomes of the
server list read, which errors `tr.onError` retries, the text of
`UID(checkpointID.first(), randomUInt64()).toString()` that names the local
file, and the behaviour of each attempt (numbered from 1). -/
structure FetchRangeEnv where
  serverList : List GetResult := []
  onErrorRetries : Error → Bool := fun _ => false
  fileName : String := "0"
  attempts : Nat → RangeAttemptEnv := fun _ => {}

/-- The loop over the pairs of one reply (lines 892-904): the error thrown, if
any, the byte total and the calls made. -/
def putPairs : List (KeyValueRef × Status) → Int → List Event → Option Error × Int × List Event
  | [], totalBytes, trace => (none, totalBytes, trace)
  | (kv, status) :: rest, totalBytes, trace =>
    let trace := trace ++ [Event.writerCall (SstCall.Put kv.key kv.value status)]
    if ¬ status.isOk then
      (some (statusToError status), totalBytes, trace)
    else
      putPairs rest (totalBytes + kv.expectedSize) trace

/-- The receive loop of a range fetch (lines 890-905): it ends with the error
it catches. -/
def receiveKeyValues (streamError : Error) :
    List (List (KeyValueRef × Status)) → Int → List Event → Error × Int × List Event
  | [], totalBytes, trace => (streamError, totalBytes, trace)
  | rep :: rest, totalBytes, trace =>
    match putPairs rep totalBytes trace with
    | (some e, totalBytes, trace) => (e, totalBytes, trace)
    | (none, totalBytes, trace) => receiveKeyValues streamError rest totalBytes trace

/-- The `try` block of one attempt of a range fetch (lines 860-905), with
`totalBytes = 0` set before it: the error caught, `totalBytes` and the state
then. -/
def tryRangeAttempt (a : RangeAttemptEnv) (ssi : StorageServerInterface) (checkpointID : UID)
    (range : KeyRange) (localFile : String) (attempt : Nat) (st : FetchState) :
    Error × Int × FetchState :=
  let trace := st.trace ++ [Event.traceFetchCheckpointRangeBegin attempt,
    Event.deleteFile localFile]
  match a.deleteFileError with
  | some e => (e.val, 0, { st with trace := trace })
  | none =>
    let files := setFile st.files localFile none
    let trace := trace ++ [Event.writerCall (SstCall.Open localFile a.openStatus)]
    if ¬ a.openStatus.isOk then
      (statusToError a.openStatus, 0, { st with files := files, trace := trace })
    else
      let trace := trace ++ [Event.getReplyStreamKeyValues ssi checkpointID range]
      let received := receiveKeyValues a.streamError a.replies 0 trace
      (received.1, received.2.1, { st with files := files, trace := received.2.2 })

/-- The start of the `catch` block (lines 907-913): when bytes were written the
writer is finished, and a failing `Finish` replaces the error; the attempt
then leaves `a.fileAfter` at the local path, unless `deleteFile` failed and
the engine never touched the path. -/
def finishAttempt (a : RangeAttemptEnv) (localFile : String)
    (caught : Error × Int × FetchState) : Error × FetchState :=
  let totalBytes := caught.2.1
  let st := caught.2.2
  let finished : Error × FetchState :=
    if totalBytes > 0 then
      let st := { st with trace := st.trace ++ [Event.writerCall (SstCall.Finish a.finishStatus)] }
      if ¬ a.finishStatus.isOk then (statusToError a.finishStatus, st) else (caught.1, st)
    else
      (caught.1, st)
  let st := finished.2
  let st := if a.deleteFileError.isNone then
      { st with files := setFile st.files localFile a.fileAfter }
    else st
  (finished.1, st)

/-- The update of lines 927-931: when bytes were written, the envelope is
decoded as it is now, the file record is appended and the envelope encoded
again; `none` when it does not decode. -/
def appendFetchedFile (st : FetchState) (localFile : String) (range : KeyRange)
    (totalBytes : Int) : Option FetchState :=
  if totalBytes > 0 then
    match getRocksKeyValuesCheckpoint st.metaData with
    | none => none
    | some rcp =>
      let rcp : RocksDBCheckpointKeyValues :=
        { rcp with fetchedFiles := rcp.fetchedFiles ++ [⟨localFile, range, totalBytes⟩] }
      let metaData : CheckpointMetaData :=
        { st.metaData with serializedCheckpoint := SerializedCheckpoint.keyValues rcp }
      some { st with metaData := metaData }
  else
    some st

/-- The retry loop of `fetchCheckpointRange` (lines 857-952) with the final
rethrow (lines 954-958).  The loop has no bound of its own on the path that
ends with `end_of_stream`: `none` when the fuel runs out. -/
def fetchRangeLoop (env : FetchRangeEnv) (range : KeyRange) (localFile : String)
    (ssi : StorageServerInterface) (maxRetries : Int) :
    Nat → Nat → FetchState → Option (Outcome Unit × FetchState)
  | 0, _, _ => none
  | fuel + 1, attempt, st =>
    let attempt := attempt + 1
    let a := env.attempts attempt
    let caught := tryRangeAttempt a ssi st.metaData.checkpointID range localFile attempt st
    let totalBytes := caught.2.1
    let finished := finishAttempt a localFile caught
    let err := finished.1
    let st := finished.2
    if err ≠ Error.end_of_stream then
      if (attempt : Int) ≥ maxRetries then
        some (Outcome.thrown err, st)
      else
        fetchRangeLoop env range localFile ssi maxRetries fuel attempt st
    else
      match appendFetchedFile st localFile range totalBytes with
      | none => some (Outcome.thrown Error.serialization_failed, st)
      | some st =>
        if (st.files localFile).isNone then
          fetchRangeLoop env range localFile ssi maxRetries fuel attempt st
        else
          some (Outcome.returned (), st)

/-- The actor `fetchCheckpointRange` (lines 810-959) started on the envelope
`snapshot` (the value of `*metaData` when the call is made) and acting on the
shared state `st`, with `fuel` turns of its retry loop. -/
def fetchCheckpointRangeFrom (env : FetchRangeEnv) (snapshot : CheckpointMetaData)
    (st : FetchState) (range : KeyRange) (dir : String) (maxRetries : Int) (fuel : Nat) :
    Option (Outcome Unit × FetchState) :=
  let localFile := dir ++ "/" ++ env.fileName ++ ".sst"
  match getRocksKeyValuesCheckpoint snapshot with
  | none => some (Outcome.thrown Error.serialization_failed, st)
  | some rkv =>
    if rkv.fetchedFiles.any (fun file => file.range.intersects range) then
      some (Outcome.crashed, st)
    else
      match snapshot.src with
      | [] => some (Outcome.crashed, st)
      | ssID :: _ =>
        match lookupServer env.onErrorRetries ssID env.serverList st.trace with
        | none => none
        | some (Outcome.returned ssi, trace) =>
          if ssi.id ≠ ssID then
            some (Outcome.crashed, { st with trace := trace })
          else
            fetchRangeLoop env range localFile ssi maxRetries fuel 0 { st with trace := trace }
        | some (Outcome.thrown e, trace) => some (Outcome.thrown e, { st with trace := trace })
        | some (Outcome.crashed, trace) => some (Outcome.crashed, { st with trace := trace })

/-- The actor `fetchCheckpointRange` called on the shared state `st`. -/
def fetchCheckpointRange (env : FetchRangeEnv) (st : FetchState) (range : KeyRange)
    (dir : String) (maxRetries : Int) (fuel : Nat) : Option (Outcome Unit × FetchState) :=
  fetchCheckpointRangeFrom env st.metaData st range dir maxRetries fuel

/-- The tasks created at line 984 and awaited by `waitForAll` (line 988), one
for each of `ranges`.  Every task is created before any task completes and
reads the envelope `snapshot` for its assertion; the tasks complete in the
order `order`, each acting on the shared state at that time. -/
def waitForAllRanges (envs : Nat → FetchRangeEnv) (snapshot : CheckpointMetaData)
    (ranges : List KeyRange) (dir : String) (fuel : Nat) :
    List Nat → FetchState → Option (Outcome Unit × FetchState)
  | [], st => some (Outcome.returned (), st)
  | i :: rest, st =>
    match ranges[i]? with
    | none => none
    | some range =>
      match fetchCheckpointRangeFrom (envs i) snapshot st range dir 3 fuel with
      | none => none
      | some (Outcome.returned _, st) => waitForAllRanges envs snapshot ranges dir fuel rest st
      | some (Outcome.thrown e, st) => some (Outcome.thrown e, st)
      | some (Outcome.crashed, st) => some (Outcome.crashed, st)

/-- The environment of `fetchCheckpointRanges`: the environment of each task,
the order in which the tasks complete, the fuel of each retry loop, whether a
callback `cFun` was given and whether it fails. -/
structure FetchRangesEnv where
  tasks : Nat → FetchRangeEnv := fun _ => {}
  order : List Nat := []
  fuel : Nat := 0
  cFunPresent : Bool := true
  cFunError : Option Error := none

/-- The actor `fetchCheckpointRanges` (lines 961-994); `none` when `order` is
not a completion order of the tasks or a task never completes. -/
def fetchCheckpointRanges (env : FetchRangesEnv) (st : FetchState) (dir : String) :
    Option (Outcome Unit × FetchState) :=
  match getRocksKeyValuesCheckpoint st.metaData with
  | none => some (Outcome.thrown Error.serialization_failed, st)
  | some rkv =>
    if isCompletionOrder (rangesToFetch rkv).length env.order then
      match waitForAllRanges env.tasks st.metaData (rangesToFetch rkv) dir env.fuel env.order st with
      | none => none
      | some (Outcome.returned _, st) =>
        if env.cFunPresent then
          let st := { st with trace := st.trace ++ [Event.cFun st.metaData] }
          match env.cFunError with
          | some e => some (Outcome.thrown e, st)
          | none => some (Outcome.returned (), st)
        else
          some (Outcome.returned (), st)
      | some (Outcome.thrown e, st) => some (Outcome.thrown e, st)
      | some (Outcome.crashed, st) => some (Outcome.crashed, st)
    else
      none

/-- The error and the byte total after the pairs of one reply. -/
def putsOutcome : List (KeyValueRef × Status) → Int → Option Error × Int
  | [], totalBytes => (none, totalBytes)
  | (kv, status) :: rest, totalBytes =>
    if ¬ status.isOk then (some (statusToError status), totalBytes)
    else putsOutcome rest (totalBytes + kv.expectedSize)

/-- The error that ends the receive loop of a range fetch and the byte total then. -/
def repliesOutcome (streamError : Error) : List (List (KeyValueRef × Status)) → Int → Error × Int
  | [], totalBytes => (streamError, totalBytes)
  | rep :: rest, totalBytes =>
    match putsOutcome rep totalBytes with
    | (some e, totalBytes) => (e, totalBytes)
    | (none, totalBytes) => repliesOutcome streamError rest totalBytes

/-- The error an attempt of a range fetch ends its `try` block with, and the
bytes it has written then. -/
def RangeAttemptEnv.outcome (a : RangeAttemptEnv) : Error × Int :=
  match a.deleteFileError with
  | some e => (e.val, 0)
  | none =>
    if ¬ a.openStatus.isOk then (statusToError a.openStatus, 0)
    else repliesOutcome a.streamError a.replies 0

/-- The attempt numbers of the `FetchCheckpointRangeBegin` events of a trace. -/
def rangeAttemptNumbers (trace : List Event) : List Nat :=
  trace.filterMap (fun ev => match ev with
    | Event.traceFetchCheckpointRangeBegin n => some n
    | _ => none)

/-- The ranges of the fetched files of a key-value envelope. -/
def fetchedRanges (checkpoint : CheckpointMetaData) : Option (List KeyRange) :=
  (getRocksKeyValuesCheckpoint checkpoint).map (fun rkv =>
    rkv.fetchedFiles.map (fun file => file.range))

/-- A state with the sample key-value envelope, no local file and no call made. -/
def sampleKeyValuesState : FetchState :=
  { metaData := sampleKeyValuesCheckpoint, files := fun _ => none, trace := [] }

/-- An attempt whose stream ends at once and that leaves no file. -/
def emptyAttempt : RangeAttemptEnv := {}

/-- An attempt whose stream ends at once and that leaves an empty file. -/
def emptyAttemptWithFile : RangeAttemptEnv := { fileAfter := some [] }

/-- An attempt that receives one pair, finishes the writer and leaves no file. -/
def vanishingAttempt : RangeAttemptEnv :=
  { replies := [[(⟨[97], [49]⟩, Status.ok)]] }

/-- An attempt that receives one pair, finishes the writer and leaves a file. -/
def writtenAttempt : RangeAttemptEnv :=
  { replies := [[(⟨[97], [49]⟩, Status.ok)]], fileAfter := some [1] }

/-- An environment in which the source has no pair and no file is left. -/
def emptyRangeEnv : FetchRangeEnv :=
  { serverList := [GetResult.present ⟨⟨7, 7⟩⟩], attempts := fun _ => emptyAttempt }

/-- An environment in which the source has no pair and an empty file is left. -/
def emptyRangeWithFileEnv : FetchRangeEnv :=
  { serverList := [GetResult.present ⟨⟨7, 7⟩⟩], attempts := fun _ => emptyAttemptWithFile }

/-- An environment in which the written file is never found. -/
def vanishingEnv : FetchRangeEnv :=
  { serverList := [GetResult.present ⟨⟨7, 7⟩⟩], attempts := fun _ => vanishingAttempt }

/-- An environment in which the written file is found at the fifth attempt. -/
def fifthAttemptEnv : FetchRangeEnv :=
  { serverList := [GetResult.present ⟨⟨7, 7⟩⟩]
    attempts := fun n => if n < 5 then vanishingAttempt else writtenAttempt }

/-- An environment in which every attempt writes its file. -/
def writtenEnv : FetchRangeEnv :=
  { serverList := [GetResult.present ⟨⟨7, 7⟩⟩], attempts := fun _ => writtenAttempt }

/-! ## Sample runs of the key-value fetch -/

/-- A key-value envelope with the descriptor `rkv` and its ranges. -/
def keyValuesCheckpoint (rkv : RocksDBCheckpointKeyValues) : CheckpointMetaData :=
  { checkpointID := ⟨1, 2⟩
    format := CheckpointFormat.RocksDBKeyValues
    ranges := rkv.ranges
    src := [⟨7, 7⟩]
    serializedCheckpoint := SerializedCheckpoint.keyValues rkv }

/-- An environment of `fetchCheckpointRanges` with `n` tasks that complete in
the order of their creation; task `i` receives one pair with the key `h`,
writes it and leaves the file `i.sst`. -/
def writingRangesEnv (n : Nat) : FetchRangesEnv :=
  { tasks := fun i =>
      { serverList := [GetResult.present ⟨⟨7, 7⟩⟩]
        fileName := toString i
        attempts := fun _ => { replies := [[(⟨[104], [49]⟩, Status.ok)]], fileAfter := some [1] } }
    order := List.range n
    fuel := 1 }

/-- An environment of `fetchCheckpointRanges` with one task, whose written
file is found at the fifth attempt. -/
def fifthAttemptRangesEnv : FetchRangesEnv :=
  { tasks := fun _ => fifthAttemptEnv, order := [0], fuel := 5 }

/-- The run of `fetchRocksDBCheckpoint` on a key-value envelope with the
descriptor `rkv`, into the empty directory `/tmp/cp`. -/
def keyValuesFetch (env : FetchRangesEnv) (rkv : RocksDBCheckpointKeyValues) :
    Option (Outcome CheckpointMetaData × FetchState) :=
  fetchRocksDBCheckpoint (fun _ => {}) [] (fetchCheckpointRanges env) (keyValuesCheckpoint rkv)
    "/tmp/cp" (fun _ => none)

/-- The outcome of a run and the fetched ranges of the envelope it returns. -/
def returnedRanges (run : Option (Outcome CheckpointMetaData × FetchState)) :
    Option (Outcome (Option (List KeyRange))) :=
  run.map (fun r => r.1.map fetchedRanges)

/-- The envelope and the state after the resumed sample descriptor is fetched. -/
def resumedFetched : CheckpointMetaData × FetchState :=
  match keyValuesFetch (writingRangesEnv 1) resumedKeyValues with
  | some (Outcome.returned metaData, st) => (metaData, st)
  | _ => (keyValuesCheckpoint resumedKeyValues, sampleKeyValuesState)

/-! ## Deleting a checkpoint and totalling fetched bytes -/

/-- The function `getRocksCheckpoint` (lines 1125-1130); `none` when the bytes
do not decode as a whole-database descriptor. -/
def getRocksCheckpoint (checkpoint : CheckpointMetaData) : Option RocksDBCheckpoint :=
  match checkpoint.serializedCheckpoint with
  | SerializedCheckpoint.fullDB rocks => some rocks
  | _ => none

/-- The call `dirs.insert(d)` on the `std::unordered_set<std::string>` of
`deleteRocksCheckpoint`: the elements of the set, without repetition. -/
def insertDir (dirs : List String) (d : String) : List String :=
  if d ∈ dirs then dirs else dirs ++ [d]

/-- The actor `deleteRocksCheckpoint` (lines 1031-1064): how it returns and the
directories passed to `platform::eraseDirectoryRecursive`, in the order of the
calls.  `iterationOrder` is the order in which the `unordered_set` is
walked, which the language leaves open. -/
def deleteRocksCheckpoint (iterationOrder : List String → List String)
    (checkpoint : CheckpointMetaData) : Outcome Unit × List String :=
  match checkpoint.getFormat with
  | CheckpointFormat.DataMoveRocksCF =>
    match getRocksCF checkpoint with
    | none => (Outcome.thrown Error.serialization_failed, [])
    | some rocksCF =>
      let dirs := rocksCF.sstFiles.foldl (fun dirs file => insertDir dirs file.db_path) []
      (Outcome.returned (), iterationOrder dirs)
  | CheckpointFormat.RocksDB =>
    match getRocksCheckpoint checkpoint with
    | none => (Outcome.thrown Error.serialization_failed, [])
    | some rocksCheckpoint =>
      let dirs := insertDir [] rocksCheckpoint.checkpointDir
      (Outcome.returned (), iterationOrder dirs)
  | _ => (Outcome.crashed, [])

/-- Conversion of an integer to the 64-bit two's complement `int64_t`. -/
def wrapInt64 (x : Int) : Int :=
  (x + 9223372036854775808) % 18446744073709551616 - 9223372036854775808

/-- The loop of `getTotalFetchedBytes` (lines 1082-1092) with its counter
`totalBytes`, an `int64_t`: every `totalBytes += file.size` wraps. -/
def totalFetchedBytesLoop : List CheckpointMetaData → Int → Outcome Int
  | [], totalBytes => Outcome.returned totalBytes
  | checkpoint :: rest, totalBytes =>
    match checkpoint.getFormat with
    | CheckpointFormat.DataMoveRocksCF => totalFetchedBytesLoop rest totalBytes
    | CheckpointFormat.RocksDB =>
      match getRocksCheckpoint checkpoint with
      | none => Outcome.thrown Error.serialization_failed
      | some rcp =>
        totalFetchedBytesLoop rest (rcp.fetchedFiles.foldl (fun total file => wrapInt64 (total + file.size)) totalBytes)
    | _ => totalFetchedBytesLoop rest totalBytes

/-- The function `getTotalFetchedBytes` (lines 1080-1094). -/
def getTotalFetchedBytes (checkpoints : List CheckpointMetaData) : Outcome Int :=
  totalFetchedBytesLoop checkpoints 0

/-- The sum of the `size` fields of the fetched files that a whole-database
descriptor records. -/
def fetchedSizes (checkpoint : CheckpointMetaData) : Int :=
  match getRocksCheckpoint checkpoint with
  | some rcp => (rcp.fetchedFiles.map (fun file => file.size)).sum
  | none => 0

/-- The sum of the `size` fields of the fetched files of the whole-database
envelopes among `checkpoints`. -/
def fullDBFetchedBytes (checkpoints : List CheckpointMetaData) : Int :=
  ((checkpoints.filter (fun c => decide (c.getFormat = CheckpointFormat.RocksDB))).map
    fetchedSizes).sum

/-- A whole-database envelope with the directory `/cp/full` and two fetched
files of 10 and 20 bytes. -/
def sampleFullDBCheckpoint : CheckpointMetaData :=
  { checkpointID := ⟨1, 3⟩
    format := CheckpointFormat.RocksDB
    ranges := [⟨[97], [122]⟩]
    src := [⟨7, 7⟩]
    serializedCheckpoint := SerializedCheckpoint.fullDB
      { checkpointDir := "/cp/full", fetchedFiles := [⟨"/cp/full/1.sst", ⟨[97], [109]⟩, 10⟩, ⟨"/cp/full/2.sst", ⟨[109], [122]⟩, 20⟩] } }

/-- A whole-database envelope whose fetched files have the sizes 10, 20, -5
and 2^63 - 1. -/
def overflowingFullDBCheckpoint : CheckpointMetaData :=
  { sampleFullDBCheckpoint with
    serializedCheckpoint := SerializedCheckpoint.fullDB
      { checkpointDir := "/cp/full", fetchedFiles := [⟨"/cp/full/1.sst", ⟨[97], [98]⟩, 10⟩, ⟨"/cp/full/2.sst", ⟨[98], [99]⟩, 20⟩, ⟨"/cp/full/3.sst", ⟨[99], [100]⟩, -5⟩, ⟨"/cp/full/4.sst", ⟨[100], [101]⟩, 9223372036854775807⟩] } }

/-- A column family envelope whose three files lie in two directories. -/
def twoDirCheckpoint : CheckpointMetaData :=
  { sampleCheckpoint with
    serializedCheckpoint := SerializedCheckpoint.columnFamily
      { sstFiles := [{ name := "/f1.sst", db_path := "/a" }, { name := "/f2.sst", db_path := "/b" }, { name := "/f3.sst", db_path := "/a" }] } }

/-- A key-value envelope that records a fetched file of 10 bytes. -/
def fetchedKeyValuesCheckpoint : CheckpointMetaData :=
  { sampleKeyValuesCheckpoint with
    serializedCheckpoint := SerializedCheckpoint.keyValues resumedKeyValues }

/-! ## The Open action with its helper calls recorded -/

/-- A call of the Open action to one of its helpers. -/
inductive OpenCall where
  | tryOpenForRead (path : String)
  | eraseDirectoryRecursive (path : String)
  | importCheckpoint (path : String)
deriving DecidableEq, Repr

/-- The helpers `h` on a worker state that also records every call made. -/
def recordCalls {σ : Type} (h : OpenHelpers σ) : OpenHelpers (σ × List OpenCall) :=
  { cfIsNull := fun s => h.cfIsNull s.1
    tryOpenForRead := fun path s =>
      ((h.tryOpenForRead path s.1).1, (h.tryOpenForRead path s.1).2, s.2 ++ [OpenCall.tryOpenForRead path])
    eraseDirectoryRecursive := fun path s =>
      (h.eraseDirectoryRecursive path s.1, s.2 ++ [OpenCall.eraseDirectoryRecursive path])
    importCheckpoint := fun path checkpoint s =>
      ((h.importCheckpoint path checkpoint s.1).1, (h.importCheckpoint path checkpoint s.1).2, s.2 ++ [OpenCall.importCheckpoint path]) }

/-- A worker whose state is the set of initialised reader directories: a
read-only open succeeds on an initialised directory, an import initialises
its directory and an erase removes it. -/
def diskHelpers : OpenHelpers (List String) :=
  { cfIsNull := fun _ => true
    tryOpenForRead := fun path s => (if path ∈ s then Status.ok else Status.ioError, s)
    eraseDirectoryRecursive := fun path s => s.filter (fun p => decide (p ≠ path))
    importCheckpoint := fun path _ s => (Status.ok, path :: s) }

/-- A state whose key-value envelope already records the fetched range `[a, g)`. -/
def resumedKeyValuesState : FetchState :=
  { metaData := keyValuesCheckpoint resumedKeyValues, files := fun _ => none, trace := [] }

/-! ## Tenant management (`TenantManagement.actor.h`) -/

/-- Tenant names are byte strings (`TenantNameRef`, line 27 of `TenantInfo.h`). -/
abbrev TenantName := List Byte

/-- Modelled from the spec: the enumeration `ClusterType` (declared in a header
that is not among the sources). -/
inductive ClusterType where
  | STANDALONE
  | METACLUSTER_MANAGEMENT
  | METACLUSTER_DATA
deriving DecidableEq, Repr

/-- Modelled from the spec: the values of `TenantState` that the code names. -/
inductive TenantState where
  | REGISTERING
  | READY
  | REMOVING
deriving DecidableEq, Repr

/-- Modelled from the spec: the record `TenantMapEntry` (declared in a header
that is not among the sources), with the fields the code reads and writes;
`keyPrefix` is its field `prefix`.  An entry is stored as it is: decoding
inverts encoding. -/
structure TenantMapEntry where
  id : Int := -1
  keyPrefix : List Byte := []
  tenantState : TenantState := TenantState.READY
  tenantGroup : Option (List Byte) := none
  assignedCluster : Option (List Byte) := none
deriving DecidableEq, Repr

/-- Modelled from the spec: `TenantMapEntry::idToPrefix`, the id as eight
bytes, the most significant first. -/
def TenantMapEntry.idToPrefix (id : Int) : List Byte :=
  (List.range 8).map (fun i => Fin.ofNat ((id / 256 ^ (7 - i)) % 256).toNat)

/-- Modelled from the spec: the constant `TenantMapEntry::ROOT_PREFIX_SIZE`,
the size of an id. -/
def TenantMapEntry.ROOT_PREFIX_SIZE : Nat := 8

/-- Modelled from the spec: `TenantMapEntry::setSubspace`: the prefix becomes
the subspace followed by the bytes of the id. -/
def TenantMapEntry.setSubspace (entry : TenantMapEntry) (subspace : List Byte) :
    TenantMapEntry :=
  { entry with keyPrefix := subspace ++ TenantMapEntry.idToPrefix entry.id }

/-- A write that a tenant operation buffers in its transaction. -/
inductive TenantWrite where
  | setTenant (name : TenantName) (entry : TenantMapEntry)
  | clearTenant (name : TenantName)
  | setTenantGroupIndex (tenantGroup : List Byte) (name : TenantName)
deriving DecidableEq, Repr

/-- The transaction as `createTenantTransaction` sees it: what its reads
return (the tenant map, the value of `tenantDataPrefixKey`, the value of the
`tenant_mode` configuration key, whether the tombstone of an id is present,
the cluster type of the metacluster registration, whether a range read under
a prefix returns a pair), whether `RAW_ACCESS` is set, and the writes it has
buffered. -/
structure TenantTransaction where
  tenantMap : TenantName → Option TenantMapEntry := fun _ => none
  tenantDataPrefix : Option (List Byte) := none
  tenantMode : Option (List Byte) := none
  tombstone : Int → Bool := fun _ => false
  metaclusterRegistration : Option ClusterType := none
  rangeNonEmpty : List Byte → Bool := fun _ => false
  rawAccess : Bool := false
  writes : List TenantWrite := []

/-- The collaborators of `createTenantTransaction` that are declared but not
defined in the sources: the function `checkTenantMode` (line 96) and the knob
`CLIENT_KNOBS->TENANT_PREFIX_SIZE_LIMIT`. -/
structure TenantEnv where
  checkTenantMode : Option (List Byte) → ClusterType → ClusterType → Bool
  TENANT_PREFIX_SIZE_LIMIT : Nat := 28

/-- The actor `tryGetTenantTransaction` (lines 37-47). -/
def tryGetTenantTransaction (tr : TenantTransaction) (name : TenantName) :
    Option TenantMapEntry × TenantTransaction :=
  (tr.tenantMap name, { tr with rawAccess := true })

/-- The actor `getClusterType` (lines 83-94). -/
def getClusterType (tr : TenantTransaction) : ClusterType :=
  match tr.metaclusterRegistration with
  | some clusterType => clusterType
  | none => ClusterType.STANDALONE

/-- The actor `createTenantTransaction` (lines 102-190): how it returns, and
the transaction afterwards. -/
def createTenantTransaction (env : TenantEnv) (tr : TenantTransaction) (name : TenantName)
    (tenantEntry : TenantMapEntry) (clusterType : ClusterType) :
    Outcome (Option TenantMapEntry × Bool) × TenantTransaction :=
  let allowSubspace := decide (clusterType = ClusterType.STANDALONE)
  if ¬ (clusterType ≠ ClusterType.METACLUSTER_MANAGEMENT ∨ tenantEntry.assignedCluster.isSome) then
    (Outcome.crashed, tr)
  else if ¬ (tenantEntry.id ≥ 0) then
    (Outcome.crashed, tr)
  else if name.head? = some 255 then
    (Outcome.thrown Error.invalid_tenant_name, tr)
  else
    let tr := { tr with rawAccess := true }
    let existingEntry := (tryGetTenantTransaction tr name).1
    let actualClusterType := getClusterType tr
    if ¬ env.checkTenantMode tr.tenantMode actualClusterType clusterType then
      (Outcome.thrown Error.tenants_disabled, tr)
    else
      match existingEntry with
      | some existing => (Outcome.returned (some existing, false), tr)
      | none =>
        if tr.tombstone tenantEntry.id then
          (Outcome.returned (none, false), tr)
        else
          let tooLarge : Bool :=
            match tr.tenantDataPrefix with
            | some p => allowSubspace &&
                decide (p.length + TenantMapEntry.ROOT_PREFIX_SIZE > env.TENANT_PREFIX_SIZE_LIMIT)
            | none => false
          if tooLarge then
            (Outcome.thrown Error.client_invalid_operation, tr)
          else
            let tenantEntry :=
              if allowSubspace then tenantEntry.setSubspace (tr.tenantDataPrefix.getD [])
              else tenantEntry.setSubspace []
            if clusterType ≠ ClusterType.METACLUSTER_MANAGEMENT ∧ tr.rangeNonEmpty tenantEntry.keyPrefix then
              (Outcome.thrown Error.tenant_prefix_allocator_conflict, tr)
            else
              let tenantEntry : TenantMapEntry :=
                if clusterType ≠ ClusterType.METACLUSTER_MANAGEMENT then
                  { tenantEntry with tenantState := TenantState.READY }
                else
                  { tenantEntry with tenantState := TenantState.REGISTERING }
              let tenantEntry : TenantMapEntry :=
                if clusterType = ClusterType.METACLUSTER_DATA then
                  { tenantEntry with assignedCluster := none }
                else tenantEntry
              let tr := { tr with writes := tr.writes ++ [TenantWrite.setTenant name tenantEntry] }
              let tr :=
                match tenantEntry.tenantGroup with
                | some tenantGroup =>
                  { tr with writes := tr.writes ++ [TenantWrite.setTenantGroupIndex tenantGroup name] }
                | none => tr
              (Outcome.returned (some tenantEntry, true), tr)

/-- A tenant mode check that passes when the actual and the expected cluster
types agree. -/
def sampleTenantEnv : TenantEnv :=
  { checkTenantMode := fun _ actual expected => decide (actual = expected) }

/-- A transaction that reads the tenant `t` with id 5 and no other tenant. -/
def sampleTenantTransaction : TenantTransaction :=
  { tenantMap := fun name => if name = [116] then some { id := 5, keyPrefix := [0, 0, 0, 0, 0, 0, 0, 5] } else none }

/-! ## Renaming a tenant -/

theorem readRangeLoop_spec (sz : Nat) (endSlice : Key) (r b : Int) :
    ∀ (entries : List KeyValueRef) (result : RangeResult) (acc : Int),
      ∃ batch : List KeyValueRef,
        (readRangeLoop sz endSlice r b entries result acc).1 = result ++ batch ∧
        entries = batch ++ (readRangeLoop sz endSlice r b entries result acc).2 ∧
        (∀ kv ∈ batch, kv.key < endSlice) ∧
        (batch = [] → ∀ kv rest, entries = kv :: rest → ¬ kv.key < endSlice) := by
  intro entries
  induction entries with
  | nil =>
    intro result acc
    exact ⟨[], by simp [readRangeLoop], by simp [readRangeLoop], by simp, by simp⟩
  | cons kv rest ih =>
    intro result acc
    by_cases hk : kv.key < endSlice
    · by_cases hlim : ((result ++ [kv]).length : Int) ≥ r ∨
          wrapInt32 (acc + ((sz + kv.expectedSize : Nat) : Int)) ≥ b
      · refine ⟨[kv], ?_, ?_, ?_, ?_⟩
        · simp only [readRangeLoop, if_pos hk, if_pos hlim]
        · simp only [readRangeLoop, if_pos hk, if_pos hlim]; rfl
        · intro x hx; simp at hx; subst hx; exact hk
        · intro h; exact absurd h (by simp)
      · obtain ⟨batch, h1, h2, h3, _⟩ :=
          ih (result ++ [kv]) (wrapInt32 (acc + ((sz + kv.expectedSize : Nat) : Int)))
        refine ⟨kv :: batch, ?_, ?_, ?_, ?_⟩
        · simp only [readRangeLoop, if_pos hk, if_neg hlim]
          rw [h1]; simp
        · simp only [readRangeLoop, if_pos hk, if_neg hlim]
          rw [List.cons_append, ← h2]
        · intro x hx
          rcases List.mem_cons.mp hx with hx | hx
          · subst hx; exact hk
          · exact h3 x hx
        · intro h; exact absurd h (by simp)
    · refine ⟨[], ?_, ?_, ?_, ?_⟩
      · simp only [readRangeLoop, if_neg hk]; simp
      · simp only [readRangeLoop, if_neg hk]; simp
      · simp
      · intro _ kv' rest' h
        injection h with h1 h2
        subst h1; exact hk

theorem actionReadRange_pos (sz : Nat) (r b : Int) (hr : 0 < r) (hb : 0 < b)
    (it : RocksDBCheckpointIterator) :
    actionReadRange sz r b it =
      (let scanned := readRangeLoop sz it.endSlice r b it.iterator.entries [] 0
       let it' : RocksDBCheckpointIterator :=
         { it with iterator := { it.iterator with entries := scanned.2 } }
       if ¬ it'.iterator.status.isOk then
         (Reply.sendError (statusToError it'.iterator.status), it')
       else if scanned.1.isEmpty then
         (Reply.sendError Error.end_of_stream, it')
       else
         (Reply.send scanned.1, it')) := by
  have h1 : ¬ (r = 0 ∨ b = 0) := by omega
  have h2 : ¬ ¬ (r > 0) := by omega
  simp only [actionReadRange, if_neg h1, if_neg h2]

theorem status_isOk_of_final (it : RocksIterator) (h : it.finalStatus = Status.ok) :
    it.status.isOk = true := by
  unfold RocksIterator.status
  split
  · rw [h]; rfl
  · rfl

theorem drain_eq_remaining (sz : Nat) (r b : Int) (hr : 0 < r) (hb : 0 < b) :
    ∀ (fuel : Nat) (it : RocksDBCheckpointIterator),
      it.iterator.finalStatus = Status.ok →
      it.iterator.entries.length < fuel →
      drain sz r b fuel it = some it.remaining := by
  intro fuel
  induction fuel with
  | zero => intro it _ h; omega
  | succ fuel ih =>
    intro it hok hfuel
    obtain ⟨batch, h1, h2, h3, h4⟩ :=
      readRangeLoop_spec sz it.endSlice r b it.iterator.entries [] 0
    have hst : ∀ l, (RocksIterator.status { it.iterator with entries := l }).isOk = true :=
      fun l => status_isOk_of_final _ hok
    simp only [List.nil_append] at h1
    unfold drain
    rw [actionReadRange_pos sz r b hr hb it]
    simp only [hst, not_true_eq_false, if_false]
    rw [h1]
    cases batch with
    | nil =>
      simp only [List.isEmpty_nil, if_true]
      unfold RocksDBCheckpointIterator.remaining
      cases hent : it.iterator.entries with
      | nil => simp
      | cons kv rest =>
        have := h4 rfl kv rest hent
        simp [List.takeWhile_cons, this]
    | cons kv batch =>
      simp only [List.isEmpty_cons, Bool.false_eq_true, if_false]
      have hlen : (readRangeLoop sz it.endSlice r b it.iterator.entries [] 0).2.length < fuel := by
        have := congrArg List.length h2
        simp at this
        omega
      have hrec := ih { range := it.range, iterator :=
        { entries := (readRangeLoop sz it.endSlice r b it.iterator.entries [] 0).2,
          finalStatus := it.iterator.finalStatus } } hok hlen
      rw [hrec]
      simp only [Option.map_some']
      congr 1
      unfold RocksDBCheckpointIterator.remaining
      conv_rhs => rw [h2]
      have hall : ∀ a ∈ kv :: batch, decide (a.key < it.endSlice) = true := by
        intro a ha; simpa using h3 a ha
      rw [List.takeWhile_append_of_pos hall]
      rfl

theorem actionReadRange_entries (sz : Nat) (r b : Int) (hr : 0 < r) (hb : 0 < b)
    (it : RocksDBCheckpointIterator) :
    ∃ batch : List KeyValueRef,
      it.iterator.entries = batch ++ (actionReadRange sz r b it).2.iterator.entries ∧
      (∀ kv ∈ batch, kv.key < it.endSlice) ∧
      (actionReadRange sz r b it).2.range = it.range ∧
      (∀ res, (actionReadRange sz r b it).1 = Reply.send res → res = batch) := by
  obtain ⟨batch, h1, h2, h3, _⟩ :=
    readRangeLoop_spec sz it.endSlice r b it.iterator.entries [] 0
  simp only [List.nil_append] at h1
  refine ⟨batch, ?_, h3, ?_, ?_⟩
  · rw [actionReadRange_pos sz r b hr hb it]
    dsimp only
    split
    · exact h2
    · split <;> exact h2
  · rw [actionReadRange_pos sz r b hr hb it]
    dsimp only
    split
    · rfl
    · split <;> rfl
  · intro res
    rw [actionReadRange_pos sz r b hr hb it]
    dsimp only
    split
    · intro h; cases h
    · split
      · intro h; cases h
      · intro h
        injection h with h
        rw [← h, h1]

theorem readRanges_sublist (sz : Nat) :
    ∀ (lims : List (Int × Int)) (it : RocksDBCheckpointIterator),
      (∀ l ∈ lims, 0 < l.1 ∧ 0 < l.2) →
      List.Sublist (readRanges sz lims it).flatten it.iterator.entries ∧
      ∀ kv ∈ (readRanges sz lims it).flatten, kv.key < it.endSlice := by
  intro lims
  induction lims with
  | nil => intro it _; simp [readRanges]
  | cons l lims ih =>
    intro it hpos
    obtain ⟨r, b⟩ := l
    have hrb := hpos (r, b) (List.mem_cons_self _ _)
    have hrest : ∀ l ∈ lims, 0 < l.1 ∧ 0 < l.2 :=
      fun l hl => hpos l (List.mem_cons_of_mem _ hl)
    obtain ⟨batch, h1, h2, h3, h4⟩ := actionReadRange_entries sz r b hrb.1 hrb.2 it
    have hend : (actionReadRange sz r b it).2.endSlice = it.endSlice := by
      unfold RocksDBCheckpointIterator.endSlice; rw [h3]
    obtain ⟨ihs, ihk⟩ := ih (actionReadRange sz r b it).2 hrest
    rw [hend] at ihk
    unfold readRanges
    generalize hact : actionReadRange sz r b it = act at h1 h4 ihs ihk
    obtain ⟨reply, it'⟩ := act
    cases reply with
    | send res =>
      have hres := h4 res rfl
      subst hres
      simp only [List.flatten_cons]
      constructor
      · rw [h1]
        exact List.Sublist.append (List.Sublist.refl _) ihs
      · intro kv hkv
        rcases List.mem_append.mp hkv with h | h
        · exact h2 kv h
        · exact ihk kv h
    | sendError e =>
      constructor
      · rw [h1]
        exact List.Sublist.trans ihs (List.sublist_append_right _ _)
      · exact ihk
    | assertFailed =>
      constructor
      · rw [h1]
        exact List.Sublist.trans ihs (List.sublist_append_right _ _)
      · exact ihk

theorem dropWhile_lower_bound (beginKey : Key) :
    ∀ (data : List KeyValueRef), data.Pairwise (fun x y => x.key < y.key) →
      ∀ kv ∈ data.dropWhile (fun kv => decide (kv.key < beginKey)), beginKey ≤ kv.key := by
  intro data
  induction data with
  | nil => intro _ kv h; simp at h
  | cons x rest ih =>
    intro hs kv hkv
    rw [List.pairwise_cons] at hs
    by_cases hx : x.key < beginKey
    · rw [List.dropWhile_cons_of_pos (by simpa using hx)] at hkv
      exact ih hs.2 kv hkv
    · rw [List.dropWhile_cons_of_neg (by simpa using hx)] at hkv
      have hle : beginKey ≤ x.key := not_lt.mp hx
      rcases List.mem_cons.mp hkv with h | h
      · subst h; exact hle
      · exact le_trans hle (le_of_lt (hs.1 kv h))

theorem wrapInt32_of_small (x : Int) (h0 : 0 ≤ x) (h1 : x < 2147483648) : wrapInt32 x = x := by
  unfold wrapInt32; omega

theorem accumulatedBytesOf_concat (sz : Nat) (l : List KeyValueRef) (kv : KeyValueRef) :
    accumulatedBytesOf sz (l ++ [kv]) =
      wrapInt32 (accumulatedBytesOf sz l + ((sz + kv.expectedSize : Nat) : Int)) := by
  simp [accumulatedBytesOf, List.foldl_append]

theorem foldl_wrap_eq (sz : Nat) :
    ∀ (l : List KeyValueRef) (a : Int), 0 ≤ a → a + (totalBytesOf sz l : Int) < 2147483648 →
      l.foldl (fun acc kv => wrapInt32 (acc + ((sz + kv.expectedSize : Nat) : Int))) a
        = a + (totalBytesOf sz l : Int) := by
  intro l
  induction l with
  | nil => intro a _ _; simp [totalBytesOf]
  | cons kv l ih =>
    intro a h0 h1
    have ht : (totalBytesOf sz (kv :: l) : Int) =
        ((sz + kv.expectedSize : Nat) : Int) + (totalBytesOf sz l : Int) := by
      simp [totalBytesOf]
    rw [ht] at h1 ⊢
    have hnn : (0 : Int) ≤ ((sz + kv.expectedSize : Nat) : Int) := Int.ofNat_nonneg _
    have hnn2 : (0 : Int) ≤ (totalBytesOf sz l : Int) := Int.ofNat_nonneg _
    have hw : wrapInt32 (a + ((sz + kv.expectedSize : Nat) : Int)) =
        a + ((sz + kv.expectedSize : Nat) : Int) :=
      wrapInt32_of_small _ (by omega) (by omega)
    simp only [List.foldl_cons]
    rw [hw, ih _ (by omega) (by omega)]
    omega

theorem accumulatedBytesOf_eq_total (sz : Nat) (l : List KeyValueRef)
    (h : (totalBytesOf sz l : Int) < 2147483648) :
    accumulatedBytesOf sz l = (totalBytesOf sz l : Int) := by
  have := foldl_wrap_eq sz l 0 (le_refl _) (by simpa using h)
  simpa [accumulatedBytesOf] using this

theorem readRangeLoop_budget (sz : Nat) (endSlice : Key) (r b : Int) :
    ∀ (entries : List KeyValueRef) (result : RangeResult) (acc : Int),
      acc = accumulatedBytesOf sz result →
      (result.length : Int) < r → accumulatedBytesOf sz result < b →
      accumulatedBytesOf sz result.dropLast < b →
      ((readRangeLoop sz endSlice r b entries result acc).1.length : Int) ≤ r ∧
      accumulatedBytesOf sz (readRangeLoop sz endSlice r b entries result acc).1.dropLast < b := by
  intro entries
  induction entries with
  | nil =>
    intro result acc _ hl _ hd
    simp only [readRangeLoop]
    exact ⟨le_of_lt hl, hd⟩
  | cons kv rest ih =>
    intro result acc hacc hl ha hd
    by_cases hk : kv.key < endSlice
    · by_cases hlim : ((result ++ [kv]).length : Int) ≥ r ∨
          wrapInt32 (acc + ((sz + kv.expectedSize : Nat) : Int)) ≥ b
      · simp only [readRangeLoop, if_pos hk, if_pos hlim]
        refine ⟨?_, ?_⟩
        · simp only [List.length_append, List.length_singleton]
          push_cast; omega
        · rw [List.dropLast_concat]; exact ha
      · simp only [readRangeLoop, if_pos hk, if_neg hlim]
        have hlim' := not_or.mp hlim
        apply ih
        · rw [accumulatedBytesOf_concat, hacc]
        · exact lt_of_not_ge hlim'.1
        · rw [accumulatedBytesOf_concat, ← hacc]; exact lt_of_not_ge hlim'.2
        · rw [List.dropLast_concat]; exact ha
    · simp only [readRangeLoop, if_neg hk]
      exact ⟨le_of_lt hl, hd⟩

theorem inRange_eq_false_iff (it : RocksDBCheckpointIterator) :
    it.inRange = false ↔
      (it.iterator.Valid = false ∨
        ∃ kv rest, it.iterator.entries = kv :: rest ∧ ¬ kv.key < it.endSlice) := by
  unfold RocksDBCheckpointIterator.inRange RocksIterator.Valid
  cases it.iterator.entries with
  | nil => simp
  | cons kv rest => simp

theorem actionReadRange_end_of_stream_iff (sz : Nat) (rowLimit byteLimit : Int)
    (hr : 0 < rowLimit) (hb : 0 < byteLimit) (it : RocksDBCheckpointIterator)
    (hok : (actionReadRange sz rowLimit byteLimit it).2.iterator.status = Status.ok) :
    ((actionReadRange sz rowLimit byteLimit it).1 = Reply.sendError Error.end_of_stream ↔
      it.inRange = false) ∧
    (it.inRange = true →
      ∃ batch, batch ≠ [] ∧ (actionReadRange sz rowLimit byteLimit it).1 = Reply.send batch) := by
  obtain ⟨batch, h1, h2, h3, h4⟩ :=
    readRangeLoop_spec sz it.endSlice rowLimit byteLimit it.iterator.entries [] 0
  simp only [List.nil_append] at h1
  rw [actionReadRange_pos sz rowLimit byteLimit hr hb it] at hok ⊢
  dsimp only at hok ⊢
  have hst : (RocksIterator.status { it.iterator with entries :=
      (readRangeLoop sz it.endSlice rowLimit byteLimit it.iterator.entries [] 0).2 }).isOk
      = true := by
    have : (RocksIterator.status { it.iterator with entries :=
      (readRangeLoop sz it.endSlice rowLimit byteLimit it.iterator.entries [] 0).2 })
        = Status.ok := by
      revert hok
      split
      · exact id
      · split <;> exact id
    rw [this]; rfl
  simp only [hst, not_true_eq_false, if_false]
  rw [h1]
  have hrange : it.inRange = true ↔ batch ≠ [] := by
    unfold RocksDBCheckpointIterator.inRange
    cases hent : it.iterator.entries with
    | nil =>
      rw [hent] at h2
      have : batch = [] := (List.append_eq_nil.mp h2.symm).1
      simp [this]
    | cons kv rest =>
      constructor
      · intro hk hb'
        exact h4 hb' kv rest hent (by simpa using hk)
      · intro hne
        cases batch with
        | nil => exact absurd rfl hne
        | cons x xs =>
          rw [hent] at h2
          injection h2 with hx _
          have := h3 x (List.mem_cons_self _ _)
          rw [← hx] at this
          simpa using this
  cases batch with
  | nil =>
    have hf : it.inRange = false := by
      cases hir : it.inRange with
      | false => rfl
      | true => exact absurd rfl (hrange.mp hir)
    simp [hf]
  | cons x xs =>
    have ht : it.inRange = true := hrange.mpr (by simp)
    simp [ht]

/-! ## Lemmas on the SST file writer -/

theorem writeAll_hasData :
    ∀ (writes : List (KeyValueRef × Status)) (w : RocksDBSstFileWriter),
      (w.writeAll writes).hasData = (w.hasData || someKeyWritten writes) := by
  intro writes
  induction writes with
  | nil => intro w; simp [RocksDBSstFileWriter.writeAll, someKeyWritten]
  | cons x rest ih =>
    intro w
    obtain ⟨kv, status⟩ := x
    simp only [RocksDBSstFileWriter.writeAll]
    rw [ih]
    cases hs : status.isOk <;>
      simp [RocksDBSstFileWriter.write, someKeyWritten, hs]

theorem writeAll_finishInvoked :
    ∀ (writes : List (KeyValueRef × Status)) (w : RocksDBSstFileWriter),
      (w.writeAll writes).finishInvoked = w.finishInvoked := by
  intro writes
  induction writes with
  | nil => intro w; rfl
  | cons x rest ih =>
    intro w
    obtain ⟨kv, status⟩ := x
    simp only [RocksDBSstFileWriter.writeAll]
    rw [ih]
    cases hs : status.isOk <;>
      simp [RocksDBSstFileWriter.write, RocksDBSstFileWriter.finishInvoked, hs]

theorem sstFileProduced_le_finishInvoked (w : RocksDBSstFileWriter)
    (h : w.finishInvoked = false) : w.sstFileProduced = false := by
  unfold RocksDBSstFileWriter.finishInvoked at h
  unfold RocksDBSstFileWriter.sstFileProduced
  rw [List.any_eq_false] at h ⊢
  intro c hc
  have := h c hc
  cases c <;> simp_all

theorem status_isOk_iff (s : Status) : s.isOk = true ↔ s = Status.ok := by
  cases s <;> simp [Status.isOk]

/-! ## Lemmas on the file fetch -/

theorem attemptNumbers_append (t u : List Event) :
    attemptNumbers (t ++ u) = attemptNumbers t ++ attemptNumbers u := by
  simp [attemptNumbers, List.filterMap_append]

theorem cFunCalls_append (t u : List Event) :
    cFunCalls (t ++ u) = cFunCalls t ++ cFunCalls u := by
  simp [cFunCalls, List.filterMap_append]

theorem receiveLoop_fst (localFile : String) (streamError : Error) :
    ∀ (replies : List ReplyStep) (offset : Nat) (content : List Byte) (trace : List Event),
      (receiveLoop localFile streamError replies offset content trace).1
        = repliesError streamError replies := by
  intro replies
  induction replies with
  | nil => intro _ _ _; rfl
  | cons rep rest ih =>
    intro offset content trace
    unfold receiveLoop repliesError
    cases hw : rep.writeError with
    | some e => rfl
    | none =>
      cases hf : rep.flushError with
      | some e => rfl
      | none => exact ih _ _ _

theorem receiveLoop_trace (localFile : String) (streamError : Error) :
    ∀ (replies : List ReplyStep) (offset : Nat) (content : List Byte) (trace : List Event),
      attemptNumbers (receiveLoop localFile streamError replies offset content trace).2.2
        = attemptNumbers trace ∧
      cFunCalls (receiveLoop localFile streamError replies offset content trace).2.2
        = cFunCalls trace := by
  intro replies
  induction replies with
  | nil => intro _ _ _; exact ⟨rfl, rfl⟩
  | cons rep rest ih =>
    intro offset content trace
    unfold receiveLoop
    cases hw : rep.writeError with
    | some e =>
      simp [attemptNumbers_append, cFunCalls_append, attemptNumbers, cFunCalls]
    | none =>
      cases hf : rep.flushError with
      | some e =>
        simp [attemptNumbers_append, cFunCalls_append, attemptNumbers, cFunCalls]
      | none =>
        obtain ⟨h1, h2⟩ := ih (offset + rep.data.length) (writeAt content offset rep.data)
          (trace ++ [Event.write localFile rep.data offset] ++ [Event.flush localFile])
        dsimp only
        rw [h1, h2]
        simp [attemptNumbers_append, cFunCalls_append, attemptNumbers, cFunCalls]

theorem tryAttempt_fst (a : AttemptEnv) (ssi : StorageServerInterface) (checkpointID : UID)
    (remoteFile localFile : String) (attempt : Nat) (st : FetchState) :
    (tryAttempt a ssi checkpointID remoteFile localFile attempt st).1 = a.caught := by
  unfold tryAttempt AttemptEnv.caught
  cases a.deleteFileError with
  | some e => rfl
  | none =>
    cases a.openError with
    | some e => rfl
    | none => exact receiveLoop_fst _ _ _ _ _ _

theorem tryAttempt_frame (a : AttemptEnv) (ssi : StorageServerInterface) (checkpointID : UID)
    (remoteFile localFile : String) (attempt : Nat) (st : FetchState) :
    (tryAttempt a ssi checkpointID remoteFile localFile attempt st).2.metaData = st.metaData ∧
    attemptNumbers (tryAttempt a ssi checkpointID remoteFile localFile attempt st).2.trace
      = attemptNumbers st.trace ++ [attempt] ∧
    cFunCalls (tryAttempt a ssi checkpointID remoteFile localFile attempt st).2.trace
      = cFunCalls st.trace := by
  unfold tryAttempt
  cases a.deleteFileError with
  | some e =>
    simp [attemptNumbers_append, cFunCalls_append, attemptNumbers, cFunCalls]
  | none =>
    cases a.openError with
    | some e =>
      simp [attemptNumbers_append, cFunCalls_append, attemptNumbers, cFunCalls]
    | none =>
      dsimp only
      obtain ⟨h1, h2⟩ := receiveLoop_trace localFile a.streamError a.replies 0 []
        (st.trace ++ [Event.traceFetchCheckpointFileBegin attempt, Event.deleteFile localFile]
          ++ [Event.openFile localFile] ++ [Event.getReplyStream ssi checkpointID remoteFile])
      rw [h1, h2]
      simp [attemptNumbers_append, cFunCalls_append, attemptNumbers, cFunCalls]

theorem fetchFileLoop_fail_step (env : FetchEnv) (rocksCF : RocksDBColumnFamilyCheckpoint)
    (idx : Nat) (f : LiveFileMetaData) (dir : String) (ssi : StorageServerInterface)
    (maxRetries : Int) (fuel attempt : Nat) (st : FetchState)
    (h : (env.attempts (attempt + 1)).caught ≠ Error.end_of_stream) :
    fetchFileLoop env rocksCF idx f dir ssi maxRetries (fuel + 1) attempt st =
      if ((attempt + 1 : Nat) : Int) ≥ maxRetries then
        some (Outcome.thrown (env.attempts (attempt + 1)).caught,
          (tryAttempt (env.attempts (attempt + 1)) ssi st.metaData.checkpointID f.name
            (dir ++ f.name) (attempt + 1) st).2)
      else
        fetchFileLoop env rocksCF idx f dir ssi maxRetries fuel (attempt + 1)
          (tryAttempt (env.attempts (attempt + 1)) ssi st.metaData.checkpointID f.name
            (dir ++ f.name) (attempt + 1) st).2 := by
  conv_lhs => unfold fetchFileLoop
  simp only [tryAttempt_fst]
  rw [if_pos (Or.inl h)]

theorem fetchFileLoop_all_fail (env : FetchEnv) (rocksCF : RocksDBColumnFamilyCheckpoint)
    (idx : Nat) (f : LiveFileMetaData) (dir : String) (ssi : StorageServerInterface)
    (maxRetries : Int) :
    ∀ (d attempt fuel : Nat) (st : FetchState),
      (∀ n, attempt < n → n ≤ attempt + 1 + d →
        (env.attempts n).caught ≠ Error.end_of_stream) →
      ((attempt + 1 + d : Nat) : Int) ≥ maxRetries →
      (∀ n, attempt < n → n < attempt + 1 + d → ¬ ((n : Int) ≥ maxRetries)) →
      d < fuel →
      ∃ st', fetchFileLoop env rocksCF idx f dir ssi maxRetries fuel attempt st
          = some (Outcome.thrown (env.attempts (attempt + 1 + d)).caught, st') ∧
        st'.metaData = st.metaData ∧
        attemptNumbers st'.trace = attemptNumbers st.trace ++ List.range' (attempt + 1) (d + 1) ∧
        cFunCalls st'.trace = cFunCalls st.trace := by
  intro d
  induction d with
  | zero =>
    intro attempt fuel st hfail hlast _ hfuel
    obtain ⟨fuel, rfl⟩ : ∃ k, fuel = k + 1 := ⟨fuel - 1, by omega⟩
    have hf := hfail (attempt + 1) (by omega) (by omega)
    obtain ⟨h1, h2, h3⟩ := tryAttempt_frame (env.attempts (attempt + 1)) ssi
      st.metaData.checkpointID f.name (dir ++ f.name) (attempt + 1) st
    refine ⟨_, ?_, h1, ?_, h3⟩
    · rw [fetchFileLoop_fail_step env rocksCF idx f dir ssi maxRetries fuel attempt st hf]
      rw [if_pos (by simpa using hlast)]
    · rw [h2]; rfl
  | succ d ih =>
    intro attempt fuel st hfail hlast hnot hfuel
    obtain ⟨fuel, rfl⟩ : ∃ k, fuel = k + 1 := ⟨fuel - 1, by omega⟩
    have hf := hfail (attempt + 1) (by omega) (by omega)
    obtain ⟨h1, h2, h3⟩ := tryAttempt_frame (env.attempts (attempt + 1)) ssi
      st.metaData.checkpointID f.name (dir ++ f.name) (attempt + 1) st
    have hn := hnot (attempt + 1) (by omega) (by omega)
    obtain ⟨st', e1, e2, e3, e4⟩ := ih (attempt + 1) fuel
      (tryAttempt (env.attempts (attempt + 1)) ssi st.metaData.checkpointID f.name
        (dir ++ f.name) (attempt + 1) st).2
      (fun n hn1 hn2 => hfail n (by omega) (by omega))
      (by have : attempt + 1 + 1 + d = attempt + 1 + (d + 1) := by omega
          rw [this]; exact hlast)
      (fun n hn1 hn2 => hnot n (by omega) (by omega))
      (by omega)
    refine ⟨st', ?_, ?_, ?_, ?_⟩
    · rw [fetchFileLoop_fail_step env rocksCF idx f dir ssi maxRetries fuel attempt st hf]
      rw [if_neg hn, e1]
      have : attempt + 1 + 1 + d = attempt + 1 + (d + 1) := by omega
      rw [this]
    · rw [e2, h1]
    · rw [e3, h2, List.append_assoc]
      congr 1
    · rw [e4, h3]

theorem lookupServer_trace (onErrorRetries : Error → Bool) (ssID : UID) :
    ∀ (gets : List GetResult) (trace : List Event) (o : Outcome StorageServerInterface)
      (trace' : List Event),
      lookupServer onErrorRetries ssID gets trace = some (o, trace') →
      attemptNumbers trace' = attemptNumbers trace ∧ cFunCalls trace' = cFunCalls trace := by
  intro gets
  induction gets with
  | nil => intro trace o trace' h; simp [lookupServer] at h
  | cons g rest ih =>
    intro trace o trace' h
    have hstep : attemptNumbers (trace ++ [Event.getServerList ssID]) = attemptNumbers trace ∧
        cFunCalls (trace ++ [Event.getServerList ssID]) = cFunCalls trace := by
      simp [attemptNumbers_append, cFunCalls_append, attemptNumbers, cFunCalls]
    cases g with
    | present ssi =>
      simp only [lookupServer, Option.some.injEq, Prod.mk.injEq] at h
      rw [← h.2]; exact hstep
    | absent =>
      simp only [lookupServer] at h
      split at h
      · obtain ⟨h1, h2⟩ := ih _ o trace' h
        exact ⟨h1.trans hstep.1, h2.trans hstep.2⟩
      · simp only [Option.some.injEq, Prod.mk.injEq] at h
        rw [← h.2]; exact hstep
    | failed e =>
      simp only [lookupServer] at h
      split at h
      · obtain ⟨h1, h2⟩ := ih _ o trace' h
        exact ⟨h1.trans hstep.1, h2.trans hstep.2⟩
      · simp only [Option.some.injEq, Prod.mk.injEq] at h
        rw [← h.2]; exact hstep

theorem fetchCheckpointFile_reach_loop (env : FetchEnv) (st : FetchState) (idx : Nat)
    (dir : String) (maxRetries : Int) (rocksCF : RocksDBColumnFamilyCheckpoint)
    (f : LiveFileMetaData) (ssID : UID) (srcRest : List UID) (ssi : StorageServerInterface)
    (trace : List Event)
    (hcf : getRocksCF st.metaData = some rocksCF)
    (hidx : rocksCF.sstFiles[idx]? = some f)
    (hskip : ¬ (f.fetched = true ∧ f.db_path = dir))
    (hsrc : st.metaData.src = ssID :: srcRest)
    (hlookup : lookupServer env.onErrorRetries ssID env.serverList st.trace
      = some (Outcome.returned ssi, trace)) :
    fetchCheckpointFile env st idx dir maxRetries =
      fetchFileLoop env rocksCF idx f dir ssi maxRetries (maxRetries.toNat + 1) 0
        { st with trace := trace } := by
  unfold fetchCheckpointFile fetchCheckpointFileFrom
  simp only [hcf, hidx, if_neg hskip, hsrc, hlookup]

theorem writeAt_end (content data : List Byte) :
    writeAt content content.length data = content ++ data := by
  simp [writeAt]

theorem receiveLoop_eos (localFile : String) (streamError : Error) :
    ∀ (replies : List ReplyStep) (offset : Nat) (content : List Byte) (trace : List Event),
      (receiveLoop localFile streamError replies offset content trace).1 = Error.end_of_stream →
      content.length = offset →
      (receiveLoop localFile streamError replies offset content trace).2.1
        = content ++ (replies.map ReplyStep.data).flatten ∧
      (receiveLoop localFile streamError replies offset content trace).2.2
        = trace ++ positionedWrites localFile (replies.map ReplyStep.data) offset := by
  intro replies
  induction replies with
  | nil => intro offset content trace _ _; simp [receiveLoop, positionedWrites]
  | cons rep rest ih =>
    intro offset content trace h hlen
    unfold receiveLoop at h ⊢
    cases hw : rep.writeError with
    | some e => rw [hw] at h; exact absurd h e.property
    | none =>
      cases hf : rep.flushError with
      | some e => rw [hw, hf] at h; exact absurd h e.property
      | none =>
        rw [hw, hf] at h
        dsimp only at h ⊢
        have hlen' : (writeAt content offset rep.data).length = offset + rep.data.length := by
          rw [← hlen, writeAt_end]; simp
        obtain ⟨h1, h2⟩ := ih _ _ _ h hlen'
        rw [h1, h2]
        constructor
        · rw [← hlen, writeAt_end]; simp
        · simp [positionedWrites]

theorem tryAttempt_eos (a : AttemptEnv) (ssi : StorageServerInterface) (checkpointID : UID)
    (remoteFile localFile : String) (attempt : Nat) (st : FetchState)
    (h : (tryAttempt a ssi checkpointID remoteFile localFile attempt st).1
      = Error.end_of_stream) :
    (tryAttempt a ssi checkpointID remoteFile localFile attempt st).2.files localFile
      = some (a.replies.map ReplyStep.data).flatten ∧
    (tryAttempt a ssi checkpointID remoteFile localFile attempt st).2.trace
      = st.trace ++ [Event.traceFetchCheckpointFileBegin attempt, Event.deleteFile localFile,
          Event.openFile localFile, Event.getReplyStream ssi checkpointID remoteFile]
        ++ positionedWrites localFile (a.replies.map ReplyStep.data) 0 := by
  unfold tryAttempt at h ⊢
  cases hd : a.deleteFileError with
  | some e => rw [hd] at h; exact absurd h e.property
  | none =>
    cases ho : a.openError with
    | some e => rw [hd, ho] at h; exact absurd h e.property
    | none =>
      rw [hd, ho] at h
      dsimp only at h ⊢
      obtain ⟨h1, h2⟩ := receiveLoop_eos localFile a.streamError a.replies 0 [] _ h rfl
      rw [h1, h2]
      constructor
      · simp [setFile]
      · simp

theorem fetchFileLoop_returned (env : FetchEnv) (rocksCF : RocksDBColumnFamilyCheckpoint)
    (idx : Nat) (f : LiveFileMetaData) (dir : String) (ssi : StorageServerInterface)
    (maxRetries : Int) :
    ∀ (fuel attempt : Nat) (st st' : FetchState),
      fetchFileLoop env rocksCF idx f dir ssi maxRetries fuel attempt st
        = some (Outcome.returned (), st') →
      ∃ (n : Nat) (pre : List Event), attempt < n ∧
        st'.files (dir ++ f.name)
          = some ((env.attempts n).replies.map ReplyStep.data).flatten ∧
        st'.trace = pre ++ [Event.traceFetchCheckpointFileBegin n, Event.deleteFile (dir ++ f.name),
            Event.openFile (dir ++ f.name),
            Event.getReplyStream ssi st.metaData.checkpointID f.name]
          ++ positionedWrites (dir ++ f.name) ((env.attempts n).replies.map ReplyStep.data) 0
          ++ [Event.sync (dir ++ f.name), Event.size (dir ++ f.name)]
          ++ (if env.cFunPresent then [Event.cFun st'.metaData] else []) := by
  intro fuel
  induction fuel with
  | zero => intro attempt st st' h; simp [fetchFileLoop] at h
  | succ fuel ih =>
    intro attempt st st' h
    simp only [fetchFileLoop] at h
    obtain ⟨hm, _, _⟩ := tryAttempt_frame (env.attempts (attempt + 1)) ssi
      st.metaData.checkpointID f.name (dir ++ f.name) (attempt + 1) st
    split at h
    · split at h
      · cases h
      · obtain ⟨n, pre, hn, hfiles, htrace⟩ := ih _ _ _ h
        rw [hm] at htrace
        exact ⟨n, pre, by omega, hfiles, htrace⟩
    · rename_i hcond
      have heos : (tryAttempt (env.attempts (attempt + 1)) ssi st.metaData.checkpointID f.name
          (dir ++ f.name) (attempt + 1) st).1 = Error.end_of_stream := by
        by_contra hne
        exact hcond (Or.inl hne)
      obtain ⟨hfiles, htrace⟩ := tryAttempt_eos _ _ _ _ _ _ _ heos
      refine ⟨attempt + 1, st.trace, by omega, ?_⟩
      split at h
      · cases h
      · split at h
        · cases h
        · split at h
          · rename_i hc
            split at h
            · cases h
            · simp only [Option.some.injEq, Prod.mk.injEq, true_and] at h
              subst h
              simp only [hc, if_true]
              exact ⟨hfiles, by rw [htrace]; simp⟩
          · rename_i hc
            simp only [Option.some.injEq, Prod.mk.injEq, true_and] at h
            subst h
            simp only [hc]
            exact ⟨hfiles, by rw [htrace]; simp⟩

theorem positionedWrites_offset (localFile : String) :
    ∀ (payloads : List (List Byte)) (offset k : Nat), k < payloads.length →
      (positionedWrites localFile payloads offset)[2 * k]?
        = some (Event.write localFile (payloads.getD k [])
            (offset + ((payloads.take k).map List.length).sum)) := by
  intro payloads
  induction payloads with
  | nil => intro _ k h; simp at h
  | cons data rest ih =>
    intro offset k hk
    cases k with
    | zero => simp [positionedWrites]
    | succ k =>
      have hk' : k < rest.length := by simpa using hk
      have h2 : 2 * (k + 1) = 2 * k + 1 + 1 := by ring
      rw [h2]
      simp only [positionedWrites, List.getElem?_cons_succ]
      rw [ih (offset + data.length) k hk']
      simp [Nat.add_assoc]

theorem fetchFileLoop_total (env : FetchEnv) (rocksCF : RocksDBColumnFamilyCheckpoint)
    (idx : Nat) (f : LiveFileMetaData) (dir : String) (ssi : StorageServerInterface)
    (maxRetries : Int) :
    ∀ (fuel attempt : Nat) (st : FetchState), 0 < fuel → maxRetries ≤ ((attempt + fuel : Nat) : Int) →
      (fetchFileLoop env rocksCF idx f dir ssi maxRetries fuel attempt st).isSome = true := by
  intro fuel
  induction fuel with
  | zero => intro _ _ h; omega
  | succ fuel ih =>
    intro attempt st _ hmax
    simp only [fetchFileLoop]
    split
    · split
      · rfl
      · rename_i hlt
        apply ih
        · push_cast at hmax hlt; omega
        · push_cast at hmax hlt ⊢; omega
    · split
      · rfl
      · split
        · rfl
        · split
          · split <;> rfl
          · rfl

theorem fetchCheckpointFile_total (env : FetchEnv) (st : FetchState) (idx : Nat)
    (dir : String) (maxRetries : Int)
    (hlookup : ∀ ssID, (lookupServer env.onErrorRetries ssID env.serverList st.trace).isSome
      = true) :
    (fetchCheckpointFile env st idx dir maxRetries).isSome = true := by
  unfold fetchCheckpointFile fetchCheckpointFileFrom
  split
  · rfl
  · split
    · rfl
    · split
      · rfl
      · split
        · rfl
        · rename_i ssID _ _
          have := hlookup ssID
          split
          · rename_i hnone; rw [hnone] at this; cases this
          · apply fetchFileLoop_total
            · omega
            · push_cast; omega
          · rfl
          · rfl
/-! ## The ReadRange action: claims -/

/-- C2: on an error-free iterator, draining with any positive limits delivers
exactly the remaining in-range pairs, in order, so that draining with any two
pairs of positive limits (however large) delivers the same sequence: no pair
is skipped or duplicated at a batch boundary. -/
theorem C2_drain_independent_of_limits (sz : Nat) (it : RocksDBCheckpointIterator)
    (hok : it.iterator.finalStatus = Status.ok)
    (rowLimit byteLimit rowLimit' byteLimit' : Int)
    (hr : 0 < rowLimit) (hb : 0 < byteLimit) (hr' : 0 < rowLimit') (hb' : 0 < byteLimit')
    (fuel fuel' : Nat) (hf : it.iterator.entries.length < fuel)
    (hf' : it.iterator.entries.length < fuel') :
    drain sz rowLimit byteLimit fuel it = some it.remaining ∧
    drain sz rowLimit' byteLimit' fuel' it = drain sz rowLimit byteLimit fuel it := by
  have h1 := drain_eq_remaining sz rowLimit byteLimit hr hb fuel it hok hf
  have h2 := drain_eq_remaining sz rowLimit' byteLimit' hr' hb' fuel' it hok hf'
  exact ⟨h1, by rw [h1, h2]⟩

/-- Witness for C2: three pairs drained one row at a time and with huge limits. -/
theorem C2_drain_independent_of_limits_witness :
    drain 32 1 1 4 (RocksDBCheckpointIterator.create
        [⟨[97], [49]⟩, ⟨[98], [50]⟩, ⟨[109], [57]⟩] Status.ok ⟨[97], [122]⟩)
      = some [⟨[97], [49]⟩, ⟨[98], [50]⟩, ⟨[109], [57]⟩] ∧
    drain 32 2147483647 2147483647 4 (RocksDBCheckpointIterator.create
        [⟨[97], [49]⟩, ⟨[98], [50]⟩, ⟨[109], [57]⟩] Status.ok ⟨[97], [122]⟩)
      = drain 32 1 1 4 (RocksDBCheckpointIterator.create
        [⟨[97], [49]⟩, ⟨[98], [50]⟩, ⟨[109], [57]⟩] Status.ok ⟨[97], [122]⟩) :=
  C2_drain_independent_of_limits 32
    (RocksDBCheckpointIterator.create
      [⟨[97], [49]⟩, ⟨[98], [50]⟩, ⟨[109], [57]⟩] Status.ok ⟨[97], [122]⟩)
    rfl 1 1 2147483647 2147483647 (by decide) (by decide) (by decide) (by decide) 4 4
    (by decide) (by decide)

/-- C3: on an iterator created for the range `[beginKey, endKey)` over strictly
ascending contents, the keys returned by any sequence of `ReadRange` actions
with positive limits are strictly ascending, within each batch and across
batches, and every returned key lies in the range. -/
theorem C3_keys_ascending_in_range (sz : Nat) (data : List KeyValueRef)
    (hsorted : data.Pairwise (fun x y => x.key < y.key)) (finalStatus : Status)
    (range : KeyRange) (lims : List (Int × Int))
    (hpos : ∀ l ∈ lims, 0 < l.1 ∧ 0 < l.2) :
    ((readRanges sz lims (RocksDBCheckpointIterator.create data finalStatus range)).flatten.map
        KeyValueRef.key).Pairwise (fun k k' => k < k') ∧
    ∀ kv ∈ (readRanges sz lims (RocksDBCheckpointIterator.create data finalStatus range)).flatten,
      range.beginKey ≤ kv.key ∧ kv.key < range.endKey := by
  obtain ⟨hsub, hkeys⟩ :=
    readRanges_sublist sz lims (RocksDBCheckpointIterator.create data finalStatus range) hpos
  have hsub' : List.Sublist
      (readRanges sz lims (RocksDBCheckpointIterator.create data finalStatus range)).flatten
      data :=
    List.Sublist.trans hsub (List.dropWhile_sublist _)
  constructor
  · rw [List.pairwise_map]
    exact List.Pairwise.sublist hsub' hsorted
  · intro kv hkv
    exact ⟨dropWhile_lower_bound range.beginKey data hsorted kv (hsub.subset hkv), hkeys kv hkv⟩

/-- Witness for C3: the range `[b, n)` read in batches of one row, then two. -/
theorem C3_keys_ascending_in_range_witness :
    ((readRanges 32 [(1, 1), (2, 100)] (RocksDBCheckpointIterator.create
        [⟨[97], [49]⟩, ⟨[98], [50]⟩, ⟨[109], [57]⟩] Status.ok ⟨[98], [110]⟩)).flatten.map
        KeyValueRef.key).Pairwise (fun k k' => k < k') ∧
    ∀ kv ∈ (readRanges 32 [(1, 1), (2, 100)] (RocksDBCheckpointIterator.create
        [⟨[97], [49]⟩, ⟨[98], [50]⟩, ⟨[109], [57]⟩] Status.ok ⟨[98], [110]⟩)).flatten,
      (⟨[98], [110]⟩ : KeyRange).beginKey ≤ kv.key ∧ kv.key < (⟨[98], [110]⟩ : KeyRange).endKey :=
  C3_keys_ascending_in_range 32 [⟨[97], [49]⟩, ⟨[98], [50]⟩, ⟨[109], [57]⟩]
    (by decide) Status.ok ⟨[98], [110]⟩ [(1, 1), (2, 100)] (by decide)

/-- C4: with positive limits and an engine iterator that reports no error
after the scan, the reply is `end_of_stream` exactly when, at the time of the
call, the iterator is invalid or its current key is not below the upper
bound; in every other case a non-empty batch is sent, also when it consumed
the last key of the range. -/
theorem C4_end_of_stream_iff_exhausted (sz : Nat) (rowLimit byteLimit : Int)
    (hr : 0 < rowLimit) (hb : 0 < byteLimit) (it : RocksDBCheckpointIterator)
    (hok : (actionReadRange sz rowLimit byteLimit it).2.iterator.status = Status.ok) :
    ((actionReadRange sz rowLimit byteLimit it).1 = Reply.sendError Error.end_of_stream ↔
      (it.iterator.Valid = false ∨
        ∃ kv rest, it.iterator.entries = kv :: rest ∧ ¬ kv.key < it.endSlice)) ∧
    (¬ (it.iterator.Valid = false ∨
        ∃ kv rest, it.iterator.entries = kv :: rest ∧ ¬ kv.key < it.endSlice) →
      ∃ batch, batch ≠ [] ∧ (actionReadRange sz rowLimit byteLimit it).1 = Reply.send batch) := by
  obtain ⟨h1, h2⟩ := actionReadRange_end_of_stream_iff sz rowLimit byteLimit hr hb it hok
  rw [← inRange_eq_false_iff]
  refine ⟨h1, fun hne => h2 ?_⟩
  cases hir : it.inRange with
  | false => exact absurd hir hne
  | true => rfl

/-- Witness for C4: the batch that consumes the last key of the range is sent. -/
theorem C4_end_of_stream_iff_exhausted_witness :
    ((actionReadRange 32 5 1000 (RocksDBCheckpointIterator.create
        [⟨[97], [49]⟩, ⟨[98], [50]⟩] Status.ok ⟨[97], [122]⟩)).1
          = Reply.sendError Error.end_of_stream ↔
      ((RocksDBCheckpointIterator.create
          [⟨[97], [49]⟩, ⟨[98], [50]⟩] Status.ok ⟨[97], [122]⟩).iterator.Valid = false ∨
        ∃ kv rest, (RocksDBCheckpointIterator.create
          [⟨[97], [49]⟩, ⟨[98], [50]⟩] Status.ok ⟨[97], [122]⟩).iterator.entries = kv :: rest ∧
          ¬ kv.key < (RocksDBCheckpointIterator.create
            [⟨[97], [49]⟩, ⟨[98], [50]⟩] Status.ok ⟨[97], [122]⟩).endSlice)) ∧
    (¬ ((RocksDBCheckpointIterator.create
          [⟨[97], [49]⟩, ⟨[98], [50]⟩] Status.ok ⟨[97], [122]⟩).iterator.Valid = false ∨
        ∃ kv rest, (RocksDBCheckpointIterator.create
          [⟨[97], [49]⟩, ⟨[98], [50]⟩] Status.ok ⟨[97], [122]⟩).iterator.entries = kv :: rest ∧
          ¬ kv.key < (RocksDBCheckpointIterator.create
            [⟨[97], [49]⟩, ⟨[98], [50]⟩] Status.ok ⟨[97], [122]⟩).endSlice) →
      ∃ batch, batch ≠ [] ∧ (actionReadRange 32 5 1000 (RocksDBCheckpointIterator.create
        [⟨[97], [49]⟩, ⟨[98], [50]⟩] Status.ok ⟨[97], [122]⟩)).1 = Reply.send batch) :=
  C4_end_of_stream_iff_exhausted 32 5 1000 (by decide) (by decide)
    (RocksDBCheckpointIterator.create [⟨[97], [49]⟩, ⟨[98], [50]⟩] Status.ok ⟨[97], [122]⟩)
    (by decide)

/-- C5, counterexample: with `rowLimit = 1` and `byteLimit = 1` the batch holds
one pair of 1 + 1 + 32 accumulated bytes, which is above the byte limit. -/
theorem C5_byte_budget_exceeded :
    (actionReadRange 32 1 1 (RocksDBCheckpointIterator.create
        [⟨[97], [49]⟩, ⟨[98], [50]⟩] Status.ok ⟨[97], [122]⟩)).1
      = Reply.send [⟨[97], [49]⟩] ∧
    ¬ ((totalBytesOf 32 [⟨[97], [49]⟩] : Int) ≤ 1) := by
  decide

/-- C5, amended: with positive limits a sent batch holds at most `rowLimit`
pairs; the byte limit is tested only after a pair has been appended, so it
bounds the batch without its last pair: the `int` byte counter of that prefix
is below `byteLimit`, and so is its byte sum whenever that sum fits an `int`. -/
theorem C5_row_budget_hard_byte_budget_soft (sz : Nat) (rowLimit byteLimit : Int)
    (hr : 0 < rowLimit) (hb : 0 < byteLimit) (it : RocksDBCheckpointIterator)
    (batch : RangeResult)
    (hsend : (actionReadRange sz rowLimit byteLimit it).1 = Reply.send batch) :
    (batch.length : Int) ≤ rowLimit ∧
    accumulatedBytesOf sz batch.dropLast < byteLimit ∧
    ((totalBytesOf sz batch.dropLast : Int) < 2147483648 →
      (totalBytesOf sz batch.dropLast : Int) < byteLimit) := by
  have hbud := readRangeLoop_budget sz it.endSlice rowLimit byteLimit it.iterator.entries [] 0
    rfl (by simpa using hr) (by simpa [accumulatedBytesOf] using hb)
    (by simpa [accumulatedBytesOf] using hb)
  have hbatch : batch =
      (readRangeLoop sz it.endSlice rowLimit byteLimit it.iterator.entries [] 0).1 := by
    rw [actionReadRange_pos sz rowLimit byteLimit hr hb it] at hsend
    dsimp only at hsend
    revert hsend
    split
    · intro h; cases h
    · split
      · intro h; cases h
      · intro h; injection h with h; exact h.symm
  rw [← hbatch] at hbud
  refine ⟨hbud.1, hbud.2, ?_⟩
  intro hsmall
  rw [← accumulatedBytesOf_eq_total sz _ hsmall]
  exact hbud.2

/-- Witness for C5 (amended): a batch of two rows under a limit of 40 bytes. -/
theorem C5_row_budget_hard_byte_budget_soft_witness :
    (([⟨[97], [49]⟩, ⟨[98], [50]⟩] : RangeResult).length : Int) ≤ 5 ∧
    accumulatedBytesOf 32 ([⟨[97], [49]⟩, ⟨[98], [50]⟩] : RangeResult).dropLast < 40 ∧
    ((totalBytesOf 32 ([⟨[97], [49]⟩, ⟨[98], [50]⟩] : RangeResult).dropLast : Int) < 2147483648 →
      (totalBytesOf 32 ([⟨[97], [49]⟩, ⟨[98], [50]⟩] : RangeResult).dropLast : Int) < 40) :=
  C5_row_budget_hard_byte_budget_soft 32 5 40 (by decide) (by decide)
    (RocksDBCheckpointIterator.create
      [⟨[97], [49]⟩, ⟨[98], [50]⟩, ⟨[109], [57]⟩] Status.ok ⟨[97], [122]⟩)
    [⟨[97], [49]⟩, ⟨[98], [50]⟩] (by decide)

/-- C6: a `ReadRange` action with `rowLimit == 0` or `byteLimit == 0` sends an
empty batch (neither `end_of_stream` nor an error) and leaves the iterator as
it was, whatever its state. -/
theorem C6_zero_limit_empty_batch (sz : Nat) (rowLimit byteLimit : Int)
    (it : RocksDBCheckpointIterator) (h : rowLimit = 0 ∨ byteLimit = 0) :
    actionReadRange sz rowLimit byteLimit it = (Reply.send [], it) := by
  simp only [actionReadRange, if_pos h]

/-- Witness for C6: a zero byte limit on an exhausted iterator. -/
theorem C6_zero_limit_empty_batch_witness :
    actionReadRange 32 7 0 ⟨⟨[97], [122]⟩, ⟨[], Status.ok⟩⟩
      = (Reply.send [], ⟨⟨[97], [122]⟩, ⟨[], Status.ok⟩⟩) :=
  C6_zero_limit_empty_batch 32 7 0 ⟨⟨[97], [122]⟩, ⟨[], Status.ok⟩⟩ (Or.inr rfl)

/-! ## The SST file writer: claims -/

/-- C7, counterexample: after one successful write, `finish()` does not return
true when the engine's `Finish` fails: it throws. -/
theorem C7_finish_throws_after_write :
    someKeyWritten [(⟨[97], [49]⟩, Status.ok)] = true ∧
    (((RocksDBSstFileWriter.new.openFile id "/tmp/cp/a.sst" Status.ok).2.writeAll
        [(⟨[97], [49]⟩, Status.ok)]).finish Status.ioError).1
      = Outcome.thrown Error.failed_to_create_checkpoint_shard_metadata := by
  decide

/-- C7, amended: after `open` and any sequence of `write` calls, `finish()`
returns true if and only if at least one key was written successfully and the
engine's `Finish` returns ok; with a key written and a failing `Finish` it
throws `failed_to_create_checkpoint_shard_metadata`; when no key was written
it returns false without throwing, leaves the writer as it was, does not
invoke the engine's `Finish`, and no SST file is produced. -/
theorem C7_finish_true_iff_written_and_finalized (abspath : String → String)
    (localFile : String) (openStatus : Status) (writes : List (KeyValueRef × Status))
    (finishStatus : Status) :
    ((((RocksDBSstFileWriter.new.openFile abspath localFile openStatus).2.writeAll
          writes).finish finishStatus).1 = Outcome.returned true ↔
        (someKeyWritten writes = true ∧ finishStatus = Status.ok)) ∧
    (someKeyWritten writes = true → finishStatus ≠ Status.ok →
      (((RocksDBSstFileWriter.new.openFile abspath localFile openStatus).2.writeAll
          writes).finish finishStatus).1
        = Outcome.thrown Error.failed_to_create_checkpoint_shard_metadata) ∧
    (someKeyWritten writes = false →
      ((RocksDBSstFileWriter.new.openFile abspath localFile openStatus).2.writeAll
          writes).finish finishStatus
        = (Outcome.returned false,
           (RocksDBSstFileWriter.new.openFile abspath localFile openStatus).2.writeAll writes) ∧
      (((RocksDBSstFileWriter.new.openFile abspath localFile openStatus).2.writeAll
          writes).finish finishStatus).2.finishInvoked = false ∧
      (((RocksDBSstFileWriter.new.openFile abspath localFile openStatus).2.writeAll
          writes).finish finishStatus).2.sstFileProduced = false) := by
  have hdata := writeAll_hasData writes
    (RocksDBSstFileWriter.new.openFile abspath localFile openStatus).2
  have hopen : (RocksDBSstFileWriter.new.openFile abspath localFile openStatus).2.hasData
      = false := by
    unfold RocksDBSstFileWriter.openFile RocksDBSstFileWriter.new
    split <;> rfl
  have hopenf : (RocksDBSstFileWriter.new.openFile abspath localFile openStatus).2.finishInvoked
      = false := by
    unfold RocksDBSstFileWriter.openFile RocksDBSstFileWriter.new
    split <;> simp [RocksDBSstFileWriter.finishInvoked]
  rw [hopen, Bool.false_or] at hdata
  have hinv := writeAll_finishInvoked writes
    (RocksDBSstFileWriter.new.openFile abspath localFile openStatus).2
  rw [hopenf] at hinv
  generalize (RocksDBSstFileWriter.new.openFile abspath localFile openStatus).2.writeAll writes
    = w at hdata hinv
  have hok := status_isOk_iff finishStatus
  refine ⟨?_, ?_, ?_⟩
  · unfold RocksDBSstFileWriter.finish
    cases hw : someKeyWritten writes <;> cases hf : finishStatus.isOk <;>
      simp_all
  · intro hw hf
    unfold RocksDBSstFileWriter.finish
    have : finishStatus.isOk = false := by
      cases h : finishStatus.isOk
      · rfl
      · exact absurd (hok.mp h) hf
    simp [hdata, hw, this]
  · intro hw
    have hfin : w.finish finishStatus = (Outcome.returned false, w) := by
      unfold RocksDBSstFileWriter.finish
      simp [hdata, hw]
    rw [hfin]
    exact ⟨rfl, hinv, sstFileProduced_le_finishInvoked w hinv⟩

/-- Witness for C7 (amended): one key written and a successful `Finish`. -/
theorem C7_finish_true_iff_written_and_finalized_witness :
    ((((RocksDBSstFileWriter.new.openFile id "/tmp/cp/a.sst" Status.ok).2.writeAll
          [(⟨[97], [49]⟩, Status.ok)]).finish Status.ok).1 = Outcome.returned true ↔
        (someKeyWritten [(⟨[97], [49]⟩, Status.ok)] = true ∧ Status.ok = Status.ok)) :=
  (C7_finish_true_iff_written_and_finalized id "/tmp/cp/a.sst" Status.ok
    [(⟨[97], [49]⟩, Status.ok)] Status.ok).1

/-! ## The file fetch: claims -/

/-- The loop of `fetchCheckpointFile` when every attempt fails: `max(1,
maxRetries)` attempts are made, the loop testing the bound after the attempt. -/
theorem fetchCheckpointFile_all_fail (env : FetchEnv) (st : FetchState) (idx : Nat)
    (dir : String) (maxRetries : Int) (rocksCF : RocksDBColumnFamilyCheckpoint)
    (f : LiveFileMetaData) (ssID : UID) (srcRest : List UID) (ssi : StorageServerInterface)
    (trace : List Event)
    (hcf : getRocksCF st.metaData = some rocksCF)
    (hidx : rocksCF.sstFiles[idx]? = some f)
    (hskip : ¬ (f.fetched = true ∧ f.db_path = dir))
    (hsrc : st.metaData.src = ssID :: srcRest)
    (hlookup : lookupServer env.onErrorRetries ssID env.serverList st.trace
      = some (Outcome.returned ssi, trace))
    (hfail : ∀ n : Nat, 1 ≤ n → (n : Int) ≤ max 1 maxRetries →
      (env.attempts n).caught ≠ Error.end_of_stream) :
    ∃ st', fetchCheckpointFile env st idx dir maxRetries
        = some (Outcome.thrown (env.attempts (max 1 maxRetries).toNat).caught, st') ∧
      attemptNumbers st'.trace
        = attemptNumbers st.trace ++ List.range' 1 (max 1 maxRetries).toNat ∧
      st'.metaData = st.metaData ∧
      cFunCalls st'.trace = cFunCalls st.trace := by
  rw [fetchCheckpointFile_reach_loop env st idx dir maxRetries rocksCF f ssID srcRest ssi trace
    hcf hidx hskip hsrc hlookup]
  obtain ⟨ht1, ht2⟩ := lookupServer_trace _ _ _ _ _ _ hlookup
  obtain ⟨st', e1, e2, e3, e4⟩ := fetchFileLoop_all_fail env rocksCF idx f dir ssi maxRetries
    ((max 1 maxRetries).toNat - 1) 0 (maxRetries.toNat + 1) { st with trace := trace }
    (fun n h1 h2 => hfail n (by omega) (by omega))
    (by omega)
    (fun n h1 h2 => by omega)
    (by omega)
  have hN : 0 + 1 + ((max 1 maxRetries).toNat - 1) = (max 1 maxRetries).toNat := by omega
  rw [hN] at e1
  have hN' : (max 1 maxRetries).toNat - 1 + 1 = (max 1 maxRetries).toNat := by omega
  rw [hN'] at e3
  exact ⟨st', e1, by rw [e3]; exact congrArg (fun l => l ++ _) ht1, e2, by rw [e4]; exact ht2⟩

/-- C8: in `fetchCheckpointFile` with `maxRetries >= 1` (the call of line 1016
passes the default 3), when the loop is reached (the entry is not skipped and
the source server is found) and every attempt ends with an error other than
`end_of_stream`, exactly `maxRetries` attempts are made, numbered from 1, the
error of the last one is thrown to the caller, the envelope is left unchanged
and `cFun` is not invoked. -/
theorem C8_retries_then_propagates (env : FetchEnv) (st : FetchState) (idx : Nat)
    (dir : String) (maxRetries : Int) (rocksCF : RocksDBColumnFamilyCheckpoint)
    (f : LiveFileMetaData) (ssID : UID) (srcRest : List UID) (ssi : StorageServerInterface)
    (trace : List Event)
    (hretries : 1 ≤ maxRetries)
    (hcf : getRocksCF st.metaData = some rocksCF)
    (hidx : rocksCF.sstFiles[idx]? = some f)
    (hskip : ¬ (f.fetched = true ∧ f.db_path = dir))
    (hsrc : st.metaData.src = ssID :: srcRest)
    (hlookup : lookupServer env.onErrorRetries ssID env.serverList st.trace
      = some (Outcome.returned ssi, trace))
    (hfail : ∀ n : Nat, 1 ≤ n → (n : Int) ≤ maxRetries →
      (env.attempts n).caught ≠ Error.end_of_stream) :
    ∃ st', fetchCheckpointFile env st idx dir maxRetries
        = some (Outcome.thrown (env.attempts maxRetries.toNat).caught, st') ∧
      attemptNumbers st'.trace = attemptNumbers st.trace ++ List.range' 1 maxRetries.toNat ∧
      st'.metaData = st.metaData ∧
      cFunCalls st'.trace = cFunCalls st.trace := by
  have h := fetchCheckpointFile_all_fail env st idx dir maxRetries rocksCF f ssID srcRest ssi
    trace hcf hidx hskip hsrc hlookup (by rw [max_eq_right hretries]; exact hfail)
  rw [max_eq_right hretries] at h
  exact h

/-- Witness for C8: three attempts with the default `maxRetries = 3`. -/
theorem C8_retries_then_propagates_witness :
    ∃ st', fetchCheckpointFile failingEnv sampleState 0 "/tmp/cp" 3
        = some (Outcome.thrown (failingEnv.attempts (3 : Int).toNat).caught, st') ∧
      attemptNumbers st'.trace
        = attemptNumbers sampleState.trace ++ List.range' 1 (3 : Int).toNat ∧
      st'.metaData = sampleState.metaData ∧
      cFunCalls st'.trace = cFunCalls sampleState.trace :=
  C8_retries_then_propagates failingEnv sampleState 0 "/tmp/cp" 3 sampleRocksCF
    { name := "/f1.sst", db_path := "/remote" } ⟨7, 7⟩ [] ⟨⟨7, 7⟩⟩
    [Event.getServerList ⟨7, 7⟩] (by decide) rfl rfl (by decide) rfl rfl
    (fun _ _ _ => (by decide : brokenAttempt.caught ≠ Error.end_of_stream))

/-- C9: when entry `idx` of the envelope has `fetched == true` and
`db_path == dir`, `fetchCheckpointFile` returns at once: the envelope, the
local files and the record of calls (server list read, file deletion, open,
write, stream, `cFun`) are all as before. -/
theorem C9_fetched_entry_is_skipped (env : FetchEnv) (st : FetchState) (idx : Nat)
    (dir : String) (maxRetries : Int) (rocksCF : RocksDBColumnFamilyCheckpoint)
    (f : LiveFileMetaData)
    (hcf : getRocksCF st.metaData = some rocksCF)
    (hidx : rocksCF.sstFiles[idx]? = some f)
    (hfetched : f.fetched = true) (hpath : f.db_path = dir) :
    fetchCheckpointFile env st idx dir maxRetries = some (Outcome.returned (), st) := by
  unfold fetchCheckpointFile fetchCheckpointFileFrom
  simp only [hcf, hidx, if_pos (And.intro hfetched hpath)]

/-- Witness for C9: the first file of the resumed sample envelope. -/
theorem C9_fetched_entry_is_skipped_witness :
    fetchCheckpointFile completeEnv sampleStateResumed 0 "/tmp/cp" 3
      = some (Outcome.returned (), sampleStateResumed) :=
  C9_fetched_entry_is_skipped completeEnv sampleStateResumed 0 "/tmp/cp" 3
    { sstFiles := [{ name := "/f1.sst", db_path := "/tmp/cp", fetched := true },
                   { name := "/f2.sst", db_path := "/remote" }] }
    { name := "/f1.sst", db_path := "/tmp/cp", fetched := true } rfl rfl rfl rfl

/-- C10: when `fetchCheckpointFile` returns after fetching (the entry was not
skipped), the local file `dir + name` holds exactly the concatenation, in
arrival order, of the reply payloads of the last attempt `n`; the calls of
that attempt end the record: the attempt deletes the local file, opens it and
the stream, and writes reply `k` at the offset equal to the total length of
the replies before it, starting from 0; only `sync`, `size` and `cFun` follow. -/
theorem C10_local_file_is_concatenation (env : FetchEnv) (st : FetchState) (idx : Nat)
    (dir : String) (maxRetries : Int) (rocksCF : RocksDBColumnFamilyCheckpoint)
    (f : LiveFileMetaData) (st' : FetchState)
    (hcf : getRocksCF st.metaData = some rocksCF)
    (hidx : rocksCF.sstFiles[idx]? = some f)
    (hskip : ¬ (f.fetched = true ∧ f.db_path = dir))
    (hret : fetchCheckpointFile env st idx dir maxRetries = some (Outcome.returned (), st')) :
    ∃ (n : Nat) (pre : List Event) (ssi : StorageServerInterface), 1 ≤ n ∧
      st'.files (dir ++ f.name)
        = some ((env.attempts n).replies.map ReplyStep.data).flatten ∧
      st'.trace = pre ++ [Event.traceFetchCheckpointFileBegin n, Event.deleteFile (dir ++ f.name),
          Event.openFile (dir ++ f.name),
          Event.getReplyStream ssi st.metaData.checkpointID f.name]
        ++ positionedWrites (dir ++ f.name) ((env.attempts n).replies.map ReplyStep.data) 0
        ++ [Event.sync (dir ++ f.name), Event.size (dir ++ f.name)]
        ++ (if env.cFunPresent then [Event.cFun st'.metaData] else []) ∧
      ∀ k, k < ((env.attempts n).replies.map ReplyStep.data).length →
        (positionedWrites (dir ++ f.name) ((env.attempts n).replies.map ReplyStep.data) 0)[2 * k]?
          = some (Event.write (dir ++ f.name)
              (((env.attempts n).replies.map ReplyStep.data).getD k [])
              ((((env.attempts n).replies.map ReplyStep.data).take k).map List.length).sum) := by
  unfold fetchCheckpointFile fetchCheckpointFileFrom at hret
  simp only [hcf, hidx, if_neg hskip] at hret
  split at hret
  · cases hret
  · split at hret
    · cases hret
    · rename_i ssi trace hlookup
      obtain ⟨n, pre, hn, hfiles, htrace⟩ :=
        fetchFileLoop_returned env rocksCF idx f dir ssi maxRetries _ _ _ _ hret
      refine ⟨n, pre, ssi, by omega, hfiles, htrace, ?_⟩
      intro k hk
      have := positionedWrites_offset (dir ++ f.name)
        ((env.attempts n).replies.map ReplyStep.data) 0 k hk
      simpa using this
    · cases hret
    · cases hret

/-- Witness for C10: the first sample file, fetched at the second attempt. -/
theorem C10_local_file_is_concatenation_witness :
    ∃ (n : Nat) (pre : List Event) (ssi : StorageServerInterface), 1 ≤ n ∧
      sampleFetched.files ("/tmp/cp" ++ "/f1.sst")
        = some ((retryEnv.attempts n).replies.map ReplyStep.data).flatten ∧
      sampleFetched.trace = pre ++ [Event.traceFetchCheckpointFileBegin n,
          Event.deleteFile ("/tmp/cp" ++ "/f1.sst"), Event.openFile ("/tmp/cp" ++ "/f1.sst"),
          Event.getReplyStream ssi sampleState.metaData.checkpointID "/f1.sst"]
        ++ positionedWrites ("/tmp/cp" ++ "/f1.sst")
            ((retryEnv.attempts n).replies.map ReplyStep.data) 0
        ++ [Event.sync ("/tmp/cp" ++ "/f1.sst"), Event.size ("/tmp/cp" ++ "/f1.sst")]
        ++ (if retryEnv.cFunPresent then [Event.cFun sampleFetched.metaData] else []) ∧
      ∀ k, k < ((retryEnv.attempts n).replies.map ReplyStep.data).length →
        (positionedWrites ("/tmp/cp" ++ "/f1.sst")
            ((retryEnv.attempts n).replies.map ReplyStep.data) 0)[2 * k]?
          = some (Event.write ("/tmp/cp" ++ "/f1.sst")
              (((retryEnv.attempts n).replies.map ReplyStep.data).getD k [])
              ((((retryEnv.attempts n).replies.map ReplyStep.data).take k).map List.length).sum) :=
  C10_local_file_is_concatenation retryEnv sampleState 0 "/tmp/cp" 3 sampleRocksCF
    { name := "/f1.sst", db_path := "/remote" } sampleFetched rfl rfl (by decide) rfl

/-! ## The top-level fetch: claims -/

/-- C1, at a failing input: a column family envelope with two files that are
not fetched, every transfer succeeding.  `fetchRocksDBCheckpoint` returns, yet
in the returned envelope only the file whose task completed last is marked
fetched: each task re-encodes the descriptor it decoded when it started. -/
theorem C1_returned_envelope_not_fully_fetched :
    (fetchRocksDBCheckpoint (fun _ => completeEnv) [0, 1] (fun _ _ => none) sampleCheckpoint
        "/tmp/cp" (fun _ => none)).map (fun r => r.1.map fetchedMarks)
      = some (Outcome.returned (some [(false, "/remote"), (true, "/tmp/cp")])) ∧
    (fetchRocksDBCheckpoint (fun _ => completeEnv) [1, 0] (fun _ _ => none) sampleCheckpoint
        "/tmp/cp" (fun _ => none)).map (fun r => r.1.map fetchedMarks)
      = some (Outcome.returned (some [(true, "/tmp/cp"), (false, "/remote")])) := by
  decide

/-! ## Status translation, Open, iterators and close: claims -/

/-- C15: `statusToError` is defined on every status: an IO error maps to
`io_error`, a status that is not an IO error but is timed out maps to
`transaction_too_old`, every other status maps to `unknown_error`, `Aborted`
among them. -/
theorem C15_statusToError_total (s : Status) :
    (s.IsIOError = true → statusToError s = Error.io_error) ∧
    (s.IsIOError = false → s.IsTimedOut = true →
      statusToError s = Error.transaction_too_old) ∧
    (s.IsIOError = false → s.IsTimedOut = false → statusToError s = Error.unknown_error) ∧
    statusToError Status.aborted = Error.unknown_error := by
  cases s <;> decide

/-- C16: on an envelope whose format is not `DataMoveRocksCF` the Open action
(run, as its first line asserts, while `cf` is null) sends `not_implemented`
and leaves the worker state, engine and disk included, as it was: none of
`tryOpenForRead`, `eraseDirectoryRecursive`, `importCheckpoint` is run. -/
theorem C16_open_rejects_other_formats {σ : Type} (h : OpenHelpers σ)
    (checkpoint : CheckpointMetaData) (s : σ) (hcf : h.cfIsNull s = true)
    (hformat : checkpoint.getFormat ≠ CheckpointFormat.DataMoveRocksCF) :
    actionOpen h checkpoint s = (Reply.sendError Error.not_implemented, s) := by
  unfold actionOpen
  simp [hcf, hformat]

/-- Witness for C16: a key-value envelope on a worker that records its calls. -/
theorem C16_open_rejects_other_formats_witness :
    actionOpen loggingHelpers sampleKeyValuesCheckpoint []
      = (Reply.sendError Error.not_implemented, []) :=
  C16_open_rejects_other_formats loggingHelpers sampleKeyValuesCheckpoint [] rfl (by decide)

/-- On a reader whose `db` and `cf` are set, along every sequence of
`getIterator` calls and iterator destructions started with the counter equal
to the number of live iterators, `numIter` equals the number of iterators
handed out and not yet destroyed, it is not negative, and `inUse()` is true
exactly when such an iterator exists. -/
theorem runCalls_counts_live_iterators (data : List KeyValueRef) (finalStatus : Status) :
    ∀ (calls : List ReaderCall) (w w' : ReaderRun),
      w.reader.db = true → w.reader.cf = true →
      w.reader.numIter = w.live.length → w.live.Nodup → (∀ id ∈ w.live, id < w.handedOut) →
      runCalls data finalStatus calls w = some w' →
      w'.reader.numIter = w'.live.length ∧ 0 ≤ w'.reader.numIter ∧
      (w'.reader.inUse = true ↔ w'.live ≠ []) := by
  intro calls
  induction calls with
  | nil =>
    intro w w' _ _ hnum _ _ hrun
    simp only [runCalls, Option.some.injEq] at hrun
    subst hrun
    refine ⟨hnum, by rw [hnum]; exact Int.ofNat_nonneg _, ?_⟩
    unfold RocksDBCheckpointReader.inUse
    rw [hnum]
    cases w.live <;> simp
  | cons call rest ih =>
    intro w w' hdb hcf hnum hnodup hbound hrun
    cases call with
    | getIterator range =>
      simp only [runCalls, RocksDBCheckpointReader.getIterator, hdb, hcf, and_self,
        not_true_eq_false, if_false] at hrun
      refine ih _ _ ?_ ?_ ?_ ?_ ?_ hrun
      · rfl
      · rfl
      · simp [hnum]
      · exact List.nodup_cons.mpr ⟨fun hmem => absurd (hbound _ hmem) (lt_irrefl _), hnodup⟩
      · intro id hid
        rcases List.mem_cons.mp hid with h | h
        · rw [h]; exact Nat.lt_succ_self _
        · exact Nat.lt_succ_of_lt (hbound id h)
    | destroyIterator id =>
      simp only [runCalls] at hrun
      split at hrun
      · rename_i hmem
        refine ih _ _ ?_ ?_ ?_ ?_ ?_ hrun
        · exact hdb
        · exact hcf
        · simp only [RocksDBCheckpointReader.iteratorDestroyed]
          rw [hnum, List.length_erase_of_mem hmem]
          have : 0 < w.live.length := List.length_pos_of_mem hmem
          omega
        · exact hnodup.erase id
        · intro id' hid'
          exact hbound id' (List.mem_of_mem_erase hid')
      · cases hrun

/-- C17, at a failing input: `getIterator` on a new reader, whose `db` and `cf`
are not set.  The counter is incremented before the constructor of the
iterator fails its assertion: the call hands out no iterator, yet it leaves
`numIter = 1` and `inUse()` true with no live iterator. -/
theorem C17_failed_getIterator_leaves_reader_in_use :
    (({} : RocksDBCheckpointReader).getIterator [] Status.ok ⟨[97], [122]⟩).1 = Outcome.crashed ∧
    (({} : RocksDBCheckpointReader).getIterator [] Status.ok ⟨[97], [122]⟩).2.numIter = 1 ∧
    (({} : RocksDBCheckpointReader).getIterator [] Status.ok ⟨[97], [122]⟩).2.inUse = true ∧
    runCalls [] Status.ok [ReaderCall.getIterator ⟨[97], [122]⟩] ⟨{}, [], 0⟩
      = some ⟨{ numIter := 1 }, [], 0⟩ := by
  decide

/-- C18, counterexample: `close()` on a reader with one live iterator is not
refused: it posts the Close action, stops the pool and frees the handles. -/
theorem C18_close_with_live_iterator :
    ({ db := true, cf := true, numIter := 1 } : RocksDBCheckpointReader).inUse = true ∧
    doClose (some { db := true, cf := true, numIter := 1 })
      = (Outcome.returned (), [CloseEvent.postCloseAction "" false, CloseEvent.stopThreads,
          CloseEvent.deleteDb, CloseEvent.deleteSelf]) := by
  decide

/-- C18, amended: `close()` does not consult `inUse()`: on every reader, with
or without live iterators, it posts the Close action with
`deleteOnClose = false`, stops the worker pool, frees the native handle when
`db` is set and deletes the reader, as it does on a reader without iterators. -/
theorem C18_close_ignores_live_iterators (r : RocksDBCheckpointReader) :
    doClose (some r)
      = (Outcome.returned (),
          [CloseEvent.postCloseAction r.path false, CloseEvent.stopThreads]
            ++ (if r.db then [CloseEvent.deleteDb] else []) ++ [CloseEvent.deleteSelf]) ∧
    doClose (some r) = doClose (some { r with numIter := 0 }) := by
  constructor
  · unfold doClose
    cases hdb : r.db <;> simp [hdb]
  · rfl

/-! ## The file-mode reader: lemmas and claims -/

theorem getNextChunk_step (r : RocksDBCFCheckpointReader) (content : List Byte)
    (byteLimit : Int) (o : Nat) (hlim : 1 ≤ byteLimit) (hfile : r.file_ = some content)
    (hoff : r.offset_ = (o : Int)) (ho : o < content.length) :
    (content.drop o).take (min (64 * 1024) byteLimit).toNat ≠ [] ∧
    r.getNextChunk byteLimit
      = (Outcome.returned ((content.drop o).take (min (64 * 1024) byteLimit).toNat),
         { r with offset_ := wrapInt32 ((o : Int)
            + (((content.drop o).take (min (64 * 1024) byteLimit).toNat).length : Nat)) }) := by
  have hpos : 0 < (min (64 * 1024) byteLimit).toNat := by omega
  have hne : (content.drop o).take (min (64 * 1024) byteLimit).toNat ≠ [] := by
    intro h
    have hl := congrArg List.length h
    simp only [List.length_take, List.length_drop, List.length_nil] at hl
    omega
  refine ⟨hne, ?_⟩
  unfold RocksDBCFCheckpointReader.getNextChunk asyncFileRead
  rw [hfile, hoff]
  have hcond : ¬ (min (64 * 1024) byteLimit < 0 ∨ (o : Int) < 0) := by omega
  simp only [if_neg hcond, Int.toNat_ofNat]
  have hlen : ¬ ((((content.drop o).take (min (64 * 1024) byteLimit).toNat).length : Nat) : Int)
      = 0 := by
    intro h
    exact hne (List.length_eq_zero.mp (by exact_mod_cast h))
  rw [if_neg hlen]

theorem getNextChunk_at_end (r : RocksDBCFCheckpointReader) (content : List Byte)
    (byteLimit : Int) (o : Nat) (hfile : r.file_ = some content)
    (hlim : 1 ≤ byteLimit) (hoff : r.offset_ = (o : Int)) (ho : content.length ≤ o) :
    r.getNextChunk byteLimit = (Outcome.thrown Error.end_of_stream, r) := by
  unfold RocksDBCFCheckpointReader.getNextChunk asyncFileRead
  rw [hfile, hoff]
  have hcond : ¬ (min (64 * 1024) byteLimit < 0 ∨ (o : Int) < 0) := by omega
  simp only [if_neg hcond, Int.toNat_ofNat]
  have hnil : List.drop o content = [] := List.drop_eq_nil_of_le ho
  rw [hnil]
  simp

theorem take_append_drop_length {α : Type} (n : Nat) (l : List α) :
    l.take n ++ l.drop (l.take n).length = l := by
  rw [List.length_take]
  rcases Nat.le_total n l.length with h | h
  · rw [Nat.min_eq_left h]; exact List.take_append_drop n l
  · rw [Nat.min_eq_right h, List.take_of_length_le h, List.drop_length, List.append_nil]

theorem getNextChunk_negative_offset (r : RocksDBCFCheckpointReader) (content : List Byte)
    (byteLimit : Int) (hfile : r.file_ = some content) (hneg : r.offset_ < 0) :
    (r.getNextChunk byteLimit).1 = Outcome.thrown Error.io_error := by
  unfold RocksDBCFCheckpointReader.getNextChunk asyncFileRead
  rw [hfile]
  simp only [if_pos (Or.inr hneg : min (64 * 1024) byteLimit < 0 ∨ r.offset_ < 0)]

theorem drainChunks_flatten (content : List Byte) (byteLimit : Int)
    (hlen : content.length < 2147483648) (hlim : 1 ≤ byteLimit) :
    ∀ (fuel o : Nat) (r : RocksDBCFCheckpointReader), r.file_ = some content →
      r.offset_ = (o : Int) → o ≤ content.length → content.length - o < fuel →
      ∃ chunks, drainChunks byteLimit fuel r = some chunks ∧
        chunks.flatten = content.drop o := by
  intro fuel
  induction fuel with
  | zero => intro o r _ _ _ h; omega
  | succ fuel ih =>
    intro o r hfile hoff ho hfuel
    unfold drainChunks
    rcases Nat.lt_or_ge o content.length with hlt | hge
    · obtain ⟨hne, hstep⟩ := getNextChunk_step r content byteLimit o hlim hfile hoff hlt
      rw [hstep]
      have hclen : ((content.drop o).take (min (64 * 1024) byteLimit).toNat).length
          ≤ content.length - o := by
        simp only [List.length_take, List.length_drop]; omega
      have hcpos : 0 < ((content.drop o).take (min (64 * 1024) byteLimit).toNat).length :=
        List.length_pos.mpr hne
      have hwrap : wrapInt32 ((o : Int)
          + (((content.drop o).take (min (64 * 1024) byteLimit).toNat).length : Nat))
          = ((o + ((content.drop o).take (min (64 * 1024) byteLimit).toNat).length : Nat) : Int) := by
        generalize ((content.drop o).take (min (64 * 1024) byteLimit).toNat).length = n
          at hclen hcpos ⊢
        rw [wrapInt32_of_small] <;> push_cast <;> omega
      obtain ⟨chunks, hd, hf⟩ := ih
        (o + ((content.drop o).take (min (64 * 1024) byteLimit).toNat).length)
        { r with offset_ := wrapInt32 ((o : Int)
            + (((content.drop o).take (min (64 * 1024) byteLimit).toNat).length : Nat)) }
        hfile hwrap (by omega) (by omega)
      refine ⟨(content.drop o).take (min (64 * 1024) byteLimit).toNat :: chunks, ?_, ?_⟩
      · dsimp only
        rw [hd]; rfl
      · rw [List.flatten_cons, hf, ← List.drop_drop]
        exact take_append_drop_length _ _
    · have hend := getNextChunk_at_end r content byteLimit o hfile hlim hoff hge
      rw [hend]
      exact ⟨[], rfl, by rw [List.drop_eq_nil_of_le hge]; rfl⟩

/-- C19: on a column family envelope whose files have a name (the engine names
every live file) and with a file system whose open does not itself raise
`checkpoint_not_found`, `init(token)` fails with `checkpoint_not_found` if and
only if no entry has name equal to the token, the offset being reset to 0
also then; otherwise it takes the first entry with that name, sets the path
to its `db_path + name`, resets the offset to 0 and opens that file, its
outcome being the outcome of the open. -/
theorem C19_init_takes_first_match (r : RocksDBCFCheckpointReader)
    (openFile : String → Outcome (List Byte)) (token : String)
    (rocksCF : RocksDBColumnFamilyCheckpoint)
    (hformat : r.checkpoint_.getFormat = CheckpointFormat.DataMoveRocksCF)
    (hcf : getRocksCF r.checkpoint_ = some rocksCF)
    (hnames : ∀ f ∈ rocksCF.sstFiles, f.name ≠ "")
    (hopen : ∀ path, openFile path ≠ Outcome.thrown Error.checkpoint_not_found) :
    ((r.init openFile token).1 = Outcome.thrown Error.checkpoint_not_found ↔
      ∀ f ∈ rocksCF.sstFiles, f.name ≠ token) ∧
    ((∀ f ∈ rocksCF.sstFiles, f.name ≠ token) →
      r.init openFile token
        = (Outcome.thrown Error.checkpoint_not_found, { r with offset_ := 0, path_ := "" })) ∧
    (∀ f, rocksCF.sstFiles.find? (fun sstFile => sstFile.name == token) = some f →
      (r.init openFile token).2.path_ = f.db_path ++ f.name ∧
      (r.init openFile token).2.offset_ = 0 ∧
      (r.init openFile token).1 = (openFile (f.db_path ++ f.name)).map (fun _ => ())) := by
  have hnone : (∀ f ∈ rocksCF.sstFiles, f.name ≠ token) →
      r.init openFile token
        = (Outcome.thrown Error.checkpoint_not_found,
            { r with offset_ := 0, path_ := "" }) := by
    intro hno
    have hfind : rocksCF.sstFiles.find? (fun sstFile => sstFile.name == token) = none := by
      rw [List.find?_eq_none]
      intro f hf
      simpa using hno f hf
    unfold RocksDBCFCheckpointReader.init
    simp [hformat, hcf, hfind]
  have hsome : ∀ f, rocksCF.sstFiles.find? (fun sstFile => sstFile.name == token) = some f →
      (r.init openFile token).2.path_ = f.db_path ++ f.name ∧
      (r.init openFile token).2.offset_ = 0 ∧
      (r.init openFile token).1 = (openFile (f.db_path ++ f.name)).map (fun _ => ()) := by
    intro f hfind
    have hmem : f ∈ rocksCF.sstFiles := List.mem_of_find?_eq_some hfind
    have hne : f.db_path ++ f.name ≠ "" := by
      intro h
      have hdata := congrArg String.data h
      rw [String.data_append] at hdata
      have hname : f.name.data = [] := (List.append_eq_nil.mp hdata).2
      exact hnames f hmem (String.ext hname)
    unfold RocksDBCFCheckpointReader.init
    simp only [hformat, hcf, hfind, ne_eq, not_true_eq_false, if_false, if_neg hne]
    cases openFile (f.db_path ++ f.name) <;> simp [Outcome.map]
  refine ⟨⟨?_, fun hno => by rw [hnone hno]⟩, hnone, hsome⟩
  intro hthrown f hf hname
  cases hfind : rocksCF.sstFiles.find? (fun sstFile => sstFile.name == token) with
  | none =>
    rw [List.find?_eq_none] at hfind
    exact hfind f hf (by simpa using hname)
  | some g =>
    have h3 := (hsome g hfind).2.2
    rw [hthrown] at h3
    have hop := hopen (g.db_path ++ g.name)
    cases hres : openFile (g.db_path ++ g.name) with
    | returned content => rw [hres] at h3; simp [Outcome.map] at h3
    | thrown e =>
      rw [hres] at h3 hop
      simp only [Outcome.map, Outcome.thrown.injEq] at h3
      exact hop (by rw [← h3])
    | crashed => rw [hres] at h3; simp [Outcome.map] at h3

/-- Witness for C19: the second file of the sample envelope is found, and no
file has the name `/f9.sst`. -/
theorem C19_init_takes_first_match_witness :
    ((RocksDBCFCheckpointReader.init { checkpoint_ := sampleCheckpoint }
        (fun _ => Outcome.returned [1, 2, 3]) "/f9.sst").1
        = Outcome.thrown Error.checkpoint_not_found ↔
      ∀ f ∈ sampleRocksCF.sstFiles, f.name ≠ "/f9.sst") ∧
    ((RocksDBCFCheckpointReader.init { checkpoint_ := sampleCheckpoint }
        (fun _ => Outcome.returned [1, 2, 3]) "/f2.sst").2.path_ = "/remote" ++ "/f2.sst" ∧
      (RocksDBCFCheckpointReader.init { checkpoint_ := sampleCheckpoint }
        (fun _ => Outcome.returned [1, 2, 3]) "/f2.sst").2.offset_ = 0 ∧
      (RocksDBCFCheckpointReader.init { checkpoint_ := sampleCheckpoint }
        (fun _ => Outcome.returned [1, 2, 3]) "/f2.sst").1
        = (Outcome.returned [1, 2, 3] : Outcome (List Byte)).map (fun _ => ())) :=
  ⟨(C19_init_takes_first_match { checkpoint_ := sampleCheckpoint }
      (fun _ => Outcome.returned [1, 2, 3]) "/f9.sst" sampleRocksCF rfl rfl (by decide)
      (fun _ h => by cases h)).1,
    (C19_init_takes_first_match { checkpoint_ := sampleCheckpoint }
      (fun _ => Outcome.returned [1, 2, 3]) "/f2.sst" sampleRocksCF rfl rfl (by decide)
      (fun _ h => by cases h)).2.2 { name := "/f2.sst", db_path := "/remote" } (by decide)⟩

/-- C20, at a failing input: on a file of 2 GiB, the call at offset
2 GiB - 64 KiB returns the last 65536 bytes, but the `int` offset does not
advance by 65536: it wraps to -2147483648, and the next call fails with
`io_error` instead of raising `end_of_stream` at the end of the file. -/
theorem C20_offset_overflows_on_large_file :
    (hugeFileReader.getNextChunk 65536).1 = Outcome.returned (List.replicate 65536 0) ∧
    (hugeFileReader.getNextChunk 65536).2.offset_ = -2147483648 ∧
    ((hugeFileReader.getNextChunk 65536).2.getNextChunk 65536).1
      = Outcome.thrown Error.io_error := by
  have hstep := (getNextChunk_step hugeFileReader (List.replicate 2147483648 0) 65536
    2147418112 (by decide) rfl rfl (by rw [List.length_replicate]; decide)).2
  have hchunk : ((List.replicate 2147483648 (0 : Byte)).drop 2147418112).take
      (min (64 * 1024) (65536 : Int)).toNat = List.replicate 65536 0 := by
    rw [List.drop_replicate, List.take_replicate]
    rfl
  rw [hchunk, List.length_replicate] at hstep
  rw [hstep]
  exact ⟨rfl, by decide,
    getNextChunk_negative_offset _ (List.replicate 2147483648 0) 65536 rfl (by decide)⟩

/-! ## Lemmas on key ranges and the range map -/

theorem KeyRange.inter_contains (r s : KeyRange) (k : Key) :
    (r.inter s).contains k ↔ r.contains k ∧ s.contains k := by
  unfold KeyRange.inter KeyRange.contains
  dsimp only
  split
  · rename_i hlt
    constructor
    · rintro ⟨_, h2⟩
      exact absurd h2 (by simp)
    · rintro ⟨⟨h1, h2⟩, h3, h4⟩
      exact absurd (lt_of_le_of_lt (max_le h1 h3) (lt_min h2 h4)) (not_lt.mpr (le_of_lt hlt))
  · simp only [max_le_iff, lt_min_iff]
    tauto

theorem KeyRange.not_overlaps_of_not_intersects (r s : KeyRange)
    (h : r.intersects s = false) : ¬ r.overlaps s := by
  rintro ⟨k, ⟨h1, h2⟩, h3, h4⟩
  have : r.intersects s = true := by
    unfold KeyRange.intersects
    simp only [Bool.and_eq_true, decide_eq_true_eq]
    exact ⟨lt_of_le_of_lt h1 h4, lt_of_le_of_lt h3 h2⟩
  rw [h] at this
  cases this

theorem rangeMapInv_new : RangeMapInv KeyRangeMap.new [] := by
  refine ⟨List.pairwise_singleton _ _, ?_, ?_⟩
  · intro k hk
    exact ⟨_, List.mem_singleton.mpr rfl, List.nil_le, hk⟩
  · intro e he k _
    rw [KeyRangeMap.new, List.mem_singleton] at he
    subst he
    simp [CheckpointFile.isValid]

theorem mem_insert_left (m : KeyRangeMap) (keys : KeyRange) (e' : RangeMapEntry) :
    e' ∈ m.filterMap (fun e =>
        if e.range.beginKey < keys.beginKey then
          some ⟨⟨e.range.beginKey, min e.range.endKey keys.beginKey⟩, e.value⟩
        else none) →
    ∃ e ∈ m, e'.value = e.value ∧
      ∀ k, e'.range.contains k → e.range.contains k ∧ k < keys.beginKey := by
  intro h
  rw [List.mem_filterMap] at h
  obtain ⟨e, he, heq⟩ := h
  split at heq
  · simp only [Option.some.injEq] at heq
    subst heq
    refine ⟨e, he, rfl, ?_⟩
    rintro k ⟨h1, h2⟩
    exact ⟨⟨h1, lt_of_lt_of_le h2 (min_le_left _ _)⟩, lt_of_lt_of_le h2 (min_le_right _ _)⟩
  · cases heq

theorem mem_insert_right (m : KeyRangeMap) (keys : KeyRange) (e' : RangeMapEntry) :
    e' ∈ m.filterMap (fun e =>
        if keys.endKey < e.range.endKey then
          some ⟨⟨max e.range.beginKey keys.endKey, e.range.endKey⟩, e.value⟩
        else none) →
    ∃ e ∈ m, e'.value = e.value ∧
      ∀ k, e'.range.contains k → e.range.contains k ∧ keys.endKey ≤ k := by
  intro h
  rw [List.mem_filterMap] at h
  obtain ⟨e, he, heq⟩ := h
  split at heq
  · simp only [Option.some.injEq] at heq
    subst heq
    refine ⟨e, he, rfl, ?_⟩
    rintro k ⟨h1, h2⟩
    exact ⟨⟨le_trans (le_max_left _ _) h1, h2⟩, le_trans (le_max_right _ _) h1⟩
  · cases heq

theorem rangeMapInv_insert (m : KeyRangeMap) (files : List CheckpointFile)
    (file : CheckpointFile) (hinv : RangeMapInv m files) (hvalid : file.isValid = true) :
    RangeMapInv (m.insert file.range file) (files ++ [file]) := by
  obtain ⟨hD, hC, hV⟩ := hinv
  unfold KeyRangeMap.insert
  split
  · rename_i hne
    refine ⟨?_, ?_, ?_⟩
    · rw [List.pairwise_append, List.pairwise_append]
      refine ⟨⟨?_, List.pairwise_singleton _ _, ?_⟩, ?_, ?_⟩
      · refine List.Pairwise.filterMap _ ?_ hD
        intro a a' hR b hb b' hb'
        simp only [Option.mem_def] at hb hb'
        split at hb
        · split at hb'
          · simp only [Option.some.injEq] at hb hb'
            subst hb; subst hb'
            rintro ⟨k, ⟨h1, h2⟩, h3, h4⟩
            exact hR ⟨k, ⟨h1, lt_of_lt_of_le h2 (min_le_left _ _)⟩, h3,
              lt_of_lt_of_le h4 (min_le_left _ _)⟩
          · cases hb'
        · cases hb
      · intro a ha b hb
        rw [List.mem_singleton] at hb
        subst hb
        obtain ⟨e, _, _, hk⟩ := mem_insert_left m file.range a ha
        rintro ⟨k, h1, h2⟩
        exact absurd (hk k h1).2 (not_lt.mpr h2.1)
      · refine List.Pairwise.filterMap _ ?_ hD
        intro a a' hR b hb b' hb'
        simp only [Option.mem_def] at hb hb'
        split at hb
        · split at hb'
          · simp only [Option.some.injEq] at hb hb'
            subst hb; subst hb'
            rintro ⟨k, ⟨h1, h2⟩, h3, h4⟩
            exact hR ⟨k, ⟨le_trans (le_max_left _ _) h1, h2⟩,
              le_trans (le_max_left _ _) h3, h4⟩
          · cases hb'
        · cases hb
      · intro a ha b hb
        obtain ⟨e, _, _, hk⟩ := mem_insert_right m file.range b hb
        rintro ⟨k, h1, h2⟩
        rcases List.mem_append.mp ha with ha | ha
        · obtain ⟨e0, _, _, hk0⟩ := mem_insert_left m file.range a ha
          exact absurd (lt_of_le_of_lt (hk k h2).2 (lt_trans (hk0 k h1).2 hne)) (lt_irrefl _)
        · rw [List.mem_singleton] at ha
          subst ha
          exact absurd (hk k h2).2 (not_le.mpr h1.2)
    · intro k hk
      obtain ⟨e, he, hek⟩ := hC k hk
      rcases lt_or_le k file.range.beginKey with hlt | hge
      · refine ⟨⟨⟨e.range.beginKey, min e.range.endKey file.range.beginKey⟩, e.value⟩, ?_, ?_⟩
        · apply List.mem_append_left
          apply List.mem_append_left
          rw [List.mem_filterMap]
          exact ⟨e, he, by rw [if_pos (lt_of_le_of_lt hek.1 hlt)]⟩
        · exact ⟨hek.1, lt_min hek.2 hlt⟩
      · rcases lt_or_le k file.range.endKey with hlt2 | hge2
        · refine ⟨⟨file.range, file⟩, ?_, hge, hlt2⟩
          apply List.mem_append_left
          apply List.mem_append_right
          exact List.mem_singleton.mpr rfl
        · refine ⟨⟨⟨max e.range.beginKey file.range.endKey, e.range.endKey⟩, e.value⟩, ?_, ?_⟩
          · apply List.mem_append_right
            rw [List.mem_filterMap]
            exact ⟨e, he, by rw [if_pos (lt_of_le_of_lt hge2 hek.2)]⟩
          · exact ⟨max_le hek.1 hge2, hek.2⟩
    · intro e' he' k hk
      rcases List.mem_append.mp he' with h | h
      · rcases List.mem_append.mp h with h | h
        · obtain ⟨e, he, hval, hkk⟩ := mem_insert_left m file.range e' h
          rw [hval, hV e he k (hkk k hk).1]
          constructor
          · rintro ⟨f, hf, hfk⟩
            exact ⟨f, List.mem_append_left _ hf, hfk⟩
          · rintro ⟨f, hf, hfk⟩
            rcases List.mem_append.mp hf with hf | hf
            · exact ⟨f, hf, hfk⟩
            · rw [List.mem_singleton] at hf
              subst hf
              exact absurd (hkk k hk).2 (not_lt.mpr hfk.1)
        · rw [List.mem_singleton] at h
          subst h
          exact ⟨fun _ => ⟨file, List.mem_append_right _ (List.mem_singleton.mpr rfl), hk⟩,
            fun _ => hvalid⟩
      · obtain ⟨e, he, hval, hkk⟩ := mem_insert_right m file.range e' h
        rw [hval, hV e he k (hkk k hk).1]
        constructor
        · rintro ⟨f, hf, hfk⟩
          exact ⟨f, List.mem_append_left _ hf, hfk⟩
        · rintro ⟨f, hf, hfk⟩
          rcases List.mem_append.mp hf with hf | hf
          · exact ⟨f, hf, hfk⟩
          · rw [List.mem_singleton] at hf
            subst hf
            exact absurd (hkk k hk).2 (not_le.mpr hfk.2)
  · rename_i hempty
    refine ⟨hD, hC, ?_⟩
    intro e he k hk
    rw [hV e he k hk]
    constructor
    · rintro ⟨f, hf, hfk⟩
      exact ⟨f, List.mem_append_left _ hf, hfk⟩
    · rintro ⟨f, hf, hfk⟩
      rcases List.mem_append.mp hf with hf | hf
      · exact ⟨f, hf, hfk⟩
      · rw [List.mem_singleton] at hf
        subst hf
        exact absurd (lt_of_le_of_lt hfk.1 hfk.2) hempty

theorem rangeMapInv_foldl :
    ∀ (files done : List CheckpointFile) (m : KeyRangeMap), RangeMapInv m done →
      (∀ f ∈ files, f.isValid = true) →
      RangeMapInv (files.foldl (fun fileMap file => fileMap.insert file.range file) m)
        (done ++ files) := by
  intro files
  induction files with
  | nil => intro done m h _; simpa using h
  | cons f rest ih =>
    intro done m h hvalid
    have h1 := rangeMapInv_insert m done f h (hvalid f (List.mem_cons_self _ _))
    have h2 := ih (done ++ [f]) _ h1 (fun g hg => hvalid g (List.mem_cons_of_mem _ hg))
    simpa using h2

theorem rangeMapInv_fetchedFileMap (rkv : RocksDBCheckpointKeyValues)
    (hvalid : ∀ f ∈ rkv.fetchedFiles, f.isValid = true) :
    RangeMapInv (fetchedFileMap rkv) rkv.fetchedFiles := by
  have := rangeMapInv_foldl rkv.fetchedFiles [] KeyRangeMap.new rangeMapInv_new hvalid
  simpa [fetchedFileMap] using this

theorem mem_rangesToFetch (rkv : RocksDBCheckpointKeyValues) (sub : KeyRange) :
    sub ∈ rangesToFetch rkv ↔
      ∃ range ∈ rkv.ranges, ∃ e ∈ fetchedFileMap rkv,
        (e.range.beginKey < range.endKey ∧ range.beginKey < e.range.endKey) ∧
        e.value.isValid = false ∧ sub = range.inter e.range := by
  unfold rangesToFetch KeyRangeMap.intersectingRanges
  simp only [List.mem_flatMap, List.mem_filterMap, List.mem_filter, Bool.and_eq_true,
    decide_eq_true_eq]
  constructor
  · rintro ⟨range, hr, e, ⟨he, hov⟩, heq⟩
    split at heq
    · rename_i hval
      simp only [Option.some.injEq] at heq
      exact ⟨range, hr, e, he, hov, by simpa using hval, heq.symm⟩
    · cases heq
  · rintro ⟨range, hr, e, he, hov, hval, heq⟩
    refine ⟨range, hr, e, ⟨he, hov⟩, ?_⟩
    rw [if_pos (by simp [hval]), heq]

/-- The sub-ranges to fetch are pairwise disjoint when the requested ranges are. -/
theorem rangesToFetch_pairwise (rkv : RocksDBCheckpointKeyValues)
    (hdisjoint : rkv.ranges.Pairwise (fun r s => ¬ r.overlaps s))
    (hvalid : ∀ f ∈ rkv.fetchedFiles, f.isValid = true) :
    (rangesToFetch rkv).Pairwise (fun r s => ¬ r.overlaps s) := by
  obtain ⟨hD, _, _⟩ := rangeMapInv_fetchedFileMap rkv hvalid
  unfold rangesToFetch
  rw [List.pairwise_flatMap]
  refine ⟨?_, ?_⟩
  · intro range _
    refine List.Pairwise.filterMap _ ?_ (List.Pairwise.filter _ hD)
    intro a a' hR b hb b' hb'
    simp only [Option.mem_def] at hb hb'
    split at hb
    · split at hb'
      · simp only [Option.some.injEq] at hb hb'
        subst hb; subst hb'
        rintro ⟨k, h1, h2⟩
        exact hR ⟨k, ((KeyRange.inter_contains _ _ k).mp h1).2,
          ((KeyRange.inter_contains _ _ k).mp h2).2⟩
      · cases hb'
    · cases hb
  · refine hdisjoint.imp ?_
    intro r s hrs x hx y hy
    simp only [List.mem_filterMap] at hx hy
    obtain ⟨e, _, hxe⟩ := hx
    obtain ⟨e', _, hye⟩ := hy
    split at hxe
    · split at hye
      · simp only [Option.some.injEq] at hxe hye
        subst hxe; subst hye
        rintro ⟨k, h1, h2⟩
        exact hrs ⟨k, ((KeyRange.inter_contains _ _ k).mp h1).1,
          ((KeyRange.inter_contains _ _ k).mp h2).1⟩
      · cases hye
    · cases hxe

/-- A sub-range to fetch shares no key with a fetched range. -/
theorem rangesToFetch_not_fetched (rkv : RocksDBCheckpointKeyValues)
    (hvalid : ∀ f ∈ rkv.fetchedFiles, f.isValid = true) :
    ∀ sub ∈ rangesToFetch rkv, ∀ f ∈ rkv.fetchedFiles, ¬ sub.overlaps f.range := by
  obtain ⟨_, _, hV⟩ := rangeMapInv_fetchedFileMap rkv hvalid
  intro sub hsub f hf
  obtain ⟨range, _, e, he, _, hval, heq⟩ := (mem_rangesToFetch rkv sub).mp hsub
  subst heq
  rintro ⟨k, h1, h2⟩
  have hvalid' := (hV e he k ((KeyRange.inter_contains _ _ k).mp h1).2).mpr ⟨f, hf, h2⟩
  rw [hval] at hvalid'
  cases hvalid'

/-- A key of a sub-range to fetch lies in a requested range and in no fetched range. -/
theorem rangesToFetch_subset (rkv : RocksDBCheckpointKeyValues)
    (hvalid : ∀ f ∈ rkv.fetchedFiles, f.isValid = true) (k : Key) :
    (∃ sub ∈ rangesToFetch rkv, sub.contains k) →
      ((∃ r ∈ rkv.ranges, r.contains k) ∧ ¬ ∃ f ∈ rkv.fetchedFiles, f.range.contains k) := by
  obtain ⟨_, _, hV⟩ := rangeMapInv_fetchedFileMap rkv hvalid
  rintro ⟨sub, hsub, hk⟩
  obtain ⟨range, hr, e, he, _, hval, heq⟩ := (mem_rangesToFetch rkv sub).mp hsub
  subst heq
  obtain ⟨hkr, hke⟩ := (KeyRange.inter_contains _ _ k).mp hk
  refine ⟨⟨range, hr, hkr⟩, ?_⟩
  intro hf
  have hvalid' := (hV e he k hke).mpr hf
  rw [hval] at hvalid'
  cases hvalid'

/-- A key of a requested range that lies in no fetched range is in a sub-range to fetch. -/
theorem rangesToFetch_covers (rkv : RocksDBCheckpointKeyValues)
    (hspace : ∀ r ∈ rkv.ranges, r.endKey ≤ allKeysEnd)
    (hvalid : ∀ f ∈ rkv.fetchedFiles, f.isValid = true) (k : Key) :
    ((∃ r ∈ rkv.ranges, r.contains k) ∧ ¬ ∃ f ∈ rkv.fetchedFiles, f.range.contains k) →
      ∃ sub ∈ rangesToFetch rkv, sub.contains k := by
  obtain ⟨_, hC, hV⟩ := rangeMapInv_fetchedFileMap rkv hvalid
  rintro ⟨⟨range, hr, hkr⟩, hnf⟩
  obtain ⟨e, he, hke⟩ := hC k (lt_of_lt_of_le hkr.2 (hspace range hr))
  have hval : e.value.isValid = false := by
    cases h : e.value.isValid
    · rfl
    · exact absurd ((hV e he k hke).mp h) hnf
  refine ⟨range.inter e.range, ?_, (KeyRange.inter_contains _ _ k).mpr ⟨hkr, hke⟩⟩
  exact (mem_rangesToFetch rkv _).mpr
    ⟨range, hr, e, he, ⟨lt_of_le_of_lt hke.1 hkr.2, lt_of_le_of_lt hkr.1 hke.2⟩, hval, rfl⟩

/-! ## The ranges to fetch: claims -/

/-- C11, counterexample: with the overlapping requested ranges `[a, m)` and
`[g, z)` and nothing fetched, both are fetched whole and share the key `h`;
with a fetched record for `[a, g)` that names no file, `[a, g)` is fetched
again. -/
theorem C11_overlapping_ranges_fetched_twice :
    (rangesToFetch { fetchedFiles := [], ranges := [⟨[97], [109]⟩, ⟨[103], [122]⟩] }
        = [⟨[97], [109]⟩, ⟨[103], [122]⟩] ∧
      (⟨[97], [109]⟩ : KeyRange).contains [104] ∧ (⟨[103], [122]⟩ : KeyRange).contains [104]) ∧
    (rangesToFetch { fetchedFiles := [⟨"", ⟨[97], [103]⟩, 10⟩], ranges := [⟨[97], [109]⟩] }
        = [⟨[97], [103]⟩, ⟨[103], [109]⟩] ∧
      (⟨[97], [103]⟩ : KeyRange).contains [97]) := by
  decide

/-- C11, amended: for a key-value descriptor whose requested ranges are
pairwise disjoint and lie in the key space and whose fetched records name a
file, the sub-ranges for which `fetchCheckpointRanges` starts a
`fetchCheckpointRange` are pairwise disjoint, each is disjoint from every
range in `fetchedFiles`, and a key lies in one of them exactly when it lies in
a requested range and in no fetched range. -/
theorem C11_ranges_to_fetch_are_the_uncovered_part (rkv : RocksDBCheckpointKeyValues)
    (hdisjoint : rkv.ranges.Pairwise (fun r s => ¬ r.overlaps s))
    (hspace : ∀ r ∈ rkv.ranges, r.endKey ≤ allKeysEnd)
    (hvalid : ∀ f ∈ rkv.fetchedFiles, f.isValid = true) :
    (rangesToFetch rkv).Pairwise (fun r s => ¬ r.overlaps s) ∧
    (∀ sub ∈ rangesToFetch rkv, ∀ f ∈ rkv.fetchedFiles, ¬ sub.overlaps f.range) ∧
    (∀ k, (∃ sub ∈ rangesToFetch rkv, sub.contains k) ↔
      ((∃ r ∈ rkv.ranges, r.contains k) ∧ ¬ ∃ f ∈ rkv.fetchedFiles, f.range.contains k)) := by
  exact ⟨rangesToFetch_pairwise rkv hdisjoint hvalid, rangesToFetch_not_fetched rkv hvalid,
    fun k => ⟨rangesToFetch_subset rkv hvalid k, rangesToFetch_covers rkv hspace hvalid k⟩⟩

/-- Witness for C11 (amended): fetched files covering `[a, g)` and requested
`[a, m)` give exactly the one sub-range `[g, m)`. -/
theorem C11_ranges_to_fetch_are_the_uncovered_part_witness :
    rangesToFetch resumedKeyValues = [⟨[103], [109]⟩] ∧
    ((rangesToFetch resumedKeyValues).Pairwise (fun r s => ¬ r.overlaps s) ∧
      (∀ sub ∈ rangesToFetch resumedKeyValues, ∀ f ∈ resumedKeyValues.fetchedFiles,
        ¬ sub.overlaps f.range) ∧
      (∀ k, (∃ sub ∈ rangesToFetch resumedKeyValues, sub.contains k) ↔
        ((∃ r ∈ resumedKeyValues.ranges, r.contains k) ∧
          ¬ ∃ f ∈ resumedKeyValues.fetchedFiles, f.range.contains k))) :=
  ⟨by decide,
    C11_ranges_to_fetch_are_the_uncovered_part resumedKeyValues (List.pairwise_singleton _ _)
      (by decide) (by decide)⟩

/-! ## The range fetch: lemmas and claims on its retry loop -/

theorem statusToError_ne_end_of_stream (s : Status) : statusToError s ≠ Error.end_of_stream := by
  cases s <;> decide

theorem setFile_same (files : String → Option (List Byte)) (path : String)
    (content : Option (List Byte)) : setFile files path content path = content := by
  simp [setFile]

theorem putPairs_outcome (l : List (KeyValueRef × Status)) :
    ∀ (totalBytes : Int) (trace : List Event),
      ((putPairs l totalBytes trace).1, (putPairs l totalBytes trace).2.1)
        = putsOutcome l totalBytes := by
  induction l with
  | nil => intro _ _; rfl
  | cons p rest ih =>
    intro totalBytes trace
    obtain ⟨kv, status⟩ := p
    simp only [putPairs, putsOutcome]
    split
    · rfl
    · exact ih _ _

theorem receiveKeyValues_outcome (streamError : Error) (l : List (List (KeyValueRef × Status))) :
    ∀ (totalBytes : Int) (trace : List Event),
      ((receiveKeyValues streamError l totalBytes trace).1,
        (receiveKeyValues streamError l totalBytes trace).2.1)
        = repliesOutcome streamError l totalBytes := by
  induction l with
  | nil => intro _ _; rfl
  | cons rep rest ih =>
    intro totalBytes trace
    have h := putPairs_outcome rep totalBytes trace
    simp only [receiveKeyValues, repliesOutcome, ← h]
    rcases hp : putPairs rep totalBytes trace with ⟨_ | e, tb, tr⟩
    · exact ih _ _
    · rfl

theorem tryRangeAttempt_outcome (a : RangeAttemptEnv) (ssi : StorageServerInterface)
    (checkpointID : UID) (range : KeyRange) (localFile : String) (attempt : Nat)
    (st : FetchState) :
    ((tryRangeAttempt a ssi checkpointID range localFile attempt st).1,
      (tryRangeAttempt a ssi checkpointID range localFile attempt st).2.1) = a.outcome := by
  simp only [tryRangeAttempt, RangeAttemptEnv.outcome]
  cases a.deleteFileError with
  | some e => rfl
  | none =>
    simp only
    split
    · rfl
    · exact receiveKeyValues_outcome _ _ _ _

theorem tryRangeAttempt_metaData (a : RangeAttemptEnv) (ssi : StorageServerInterface)
    (checkpointID : UID) (range : KeyRange) (localFile : String) (attempt : Nat)
    (st : FetchState) :
    (tryRangeAttempt a ssi checkpointID range localFile attempt st).2.2.metaData
      = st.metaData := by
  simp only [tryRangeAttempt]
  cases a.deleteFileError with
  | some e => rfl
  | none =>
    simp only
    split <;> rfl

theorem outcome_deleteFileError (a : RangeAttemptEnv) (h : a.outcome.1 = Error.end_of_stream) :
    a.deleteFileError = none := by
  cases hd : a.deleteFileError with
  | none => rfl
  | some e =>
    simp only [RangeAttemptEnv.outcome, hd] at h
    exact absurd h e.property

theorem finishAttempt_metaData (a : RangeAttemptEnv) (localFile : String)
    (caught : Error × Int × FetchState) :
    (finishAttempt a localFile caught).2.metaData = caught.2.2.metaData := by
  simp only [finishAttempt]
  split <;> split <;> try split
  all_goals rfl

theorem finishAttempt_files (a : RangeAttemptEnv) (localFile : String)
    (caught : Error × Int × FetchState) (h : a.deleteFileError = none) :
    (finishAttempt a localFile caught).2.files localFile = a.fileAfter := by
  simp [finishAttempt, h, setFile_same]

theorem finishAttempt_error (a : RangeAttemptEnv) (localFile : String)
    (caught : Error × Int × FetchState) :
    (finishAttempt a localFile caught).1
      = if caught.2.1 > 0 ∧ ¬ a.finishStatus.isOk then statusToError a.finishStatus
        else caught.1 := by
  simp only [finishAttempt]
  by_cases h1 : caught.2.1 > 0 <;> by_cases h2 : a.finishStatus.isOk <;> simp [h1, h2]

theorem appendFetchedFile_spec (st : FetchState) (localFile : String) (range : KeyRange)
    (totalBytes : Int) (rkv : RocksDBCheckpointKeyValues)
    (h : getRocksKeyValuesCheckpoint st.metaData = some rkv) :
    ∃ st', appendFetchedFile st localFile range totalBytes = some st' ∧
      st'.files = st.files ∧
      getRocksKeyValuesCheckpoint st'.metaData
        = some ⟨rkv.fetchedFiles ++
            (if totalBytes > 0 then [⟨localFile, range, totalBytes⟩] else []), rkv.ranges⟩ := by
  by_cases hb : totalBytes > 0
  · simp only [appendFetchedFile, hb, if_true, h]
    exact ⟨_, rfl, rfl, rfl⟩
  · simp only [appendFetchedFile, hb, if_false]
    exact ⟨_, rfl, rfl, by simpa using h⟩

/-- The defect of the `end_of_stream` branch: when every attempt ends with
`end_of_stream` and leaves no file at the local path, the loop takes another
turn whatever the fuel, and whatever `maxRetries`. -/
theorem fetchRangeLoop_never_returns (env : FetchRangeEnv) (range : KeyRange)
    (localFile : String) (ssi : StorageServerInterface) (maxRetries : Int)
    (h : ∀ n, (env.attempts n).outcome.1 = Error.end_of_stream ∧
      (0 < (env.attempts n).outcome.2 → (env.attempts n).finishStatus.isOk = true) ∧
      (env.attempts n).fileAfter = none) :
    ∀ (fuel attempt : Nat) (st : FetchState) (rkv : RocksDBCheckpointKeyValues),
      getRocksKeyValuesCheckpoint st.metaData = some rkv →
      fetchRangeLoop env range localFile ssi maxRetries fuel attempt st = none := by
  intro fuel
  induction fuel with
  | zero => intro _ _ _ _; rfl
  | succ fuel ih =>
    intro attempt st rkv hrkv
    obtain ⟨h1, h2, h3⟩ := h (attempt + 1)
    have ho := tryRangeAttempt_outcome (env.attempts (attempt + 1)) ssi
      st.metaData.checkpointID range localFile (attempt + 1) st
    have hc1 := congrArg Prod.fst ho
    have hc2 := congrArg Prod.snd ho
    simp only at hc1 hc2
    have he : (finishAttempt (env.attempts (attempt + 1)) localFile
        (tryRangeAttempt (env.attempts (attempt + 1)) ssi st.metaData.checkpointID range
          localFile (attempt + 1) st)).1 = Error.end_of_stream := by
      rw [finishAttempt_error, hc1, hc2]
      split
      · rename_i hh
        exact absurd (h2 hh.1) hh.2
      · exact h1
    have hm : getRocksKeyValuesCheckpoint (finishAttempt (env.attempts (attempt + 1)) localFile
        (tryRangeAttempt (env.attempts (attempt + 1)) ssi st.metaData.checkpointID range
          localFile (attempt + 1) st)).2.metaData = some rkv := by
      rw [finishAttempt_metaData, tryRangeAttempt_metaData, hrkv]
    obtain ⟨st', hst', hfiles, hdec⟩ := appendFetchedFile_spec _ localFile range
      (tryRangeAttempt (env.attempts (attempt + 1)) ssi st.metaData.checkpointID range
          localFile (attempt + 1) st).2.1 rkv hm
    have hnone : st'.files localFile = none := by
      rw [hfiles, finishAttempt_files _ _ _ (outcome_deleteFileError _ h1), h3]
    simp only [fetchRangeLoop, he, ne_eq, not_true_eq_false, if_false, hst', hnone,
      Option.isNone_none, if_true]
    exact ih _ _ _ hdec

/-- The invariant of the retry loop when an attempt that wrote bytes and
finished its writer leaves a file: a returning loop has appended at most one
record to the envelope, and the record has the range of the call. -/
theorem fetchRangeLoop_returned (env : FetchRangeEnv) (range : KeyRange)
    (localFile : String) (ssi : StorageServerInterface) (maxRetries : Int)
    (h : ∀ n, (env.attempts n).outcome.1 = Error.end_of_stream →
      0 < (env.attempts n).outcome.2 → (env.attempts n).finishStatus.isOk = true →
      (env.attempts n).fileAfter ≠ none) :
    ∀ (fuel attempt : Nat) (st st' : FetchState) (rkv : RocksDBCheckpointKeyValues),
      getRocksKeyValuesCheckpoint st.metaData = some rkv →
      fetchRangeLoop env range localFile ssi maxRetries fuel attempt st
        = some (Outcome.returned (), st') →
      ∃ new : List CheckpointFile,
        getRocksKeyValuesCheckpoint st'.metaData = some ⟨rkv.fetchedFiles ++ new, rkv.ranges⟩ ∧
        (new.map (fun f => f.range)).Sublist [range] := by
  intro fuel
  induction fuel with
  | zero => intro _ _ _ _ _ hr; simp [fetchRangeLoop] at hr
  | succ fuel ih =>
    intro attempt st st' rkv hrkv hr
    have h := h (attempt + 1)
    have ho := tryRangeAttempt_outcome (env.attempts (attempt + 1)) ssi
      st.metaData.checkpointID range localFile (attempt + 1) st
    have hc1 := congrArg Prod.fst ho
    have hc2 := congrArg Prod.snd ho
    simp only at hc1 hc2
    have hm : getRocksKeyValuesCheckpoint (finishAttempt (env.attempts (attempt + 1)) localFile
        (tryRangeAttempt (env.attempts (attempt + 1)) ssi st.metaData.checkpointID range
          localFile (attempt + 1) st)).2.metaData = some rkv := by
      rw [finishAttempt_metaData, tryRangeAttempt_metaData, hrkv]
    obtain ⟨st2, hst2, hfiles, hdec⟩ := appendFetchedFile_spec _ localFile range
      (tryRangeAttempt (env.attempts (attempt + 1)) ssi st.metaData.checkpointID range
          localFile (attempt + 1) st).2.1 rkv hm
    simp only [fetchRangeLoop] at hr
    split at hr
    · split at hr
      · simp at hr
      · exact ih _ _ _ rkv hm hr
    · rename_i he
      simp only [ne_eq, not_not] at he
      rw [hst2] at hr
      simp only at hr
      split at hr
      · rename_i hnone
        by_cases hb : (tryRangeAttempt (env.attempts (attempt + 1)) ssi
            st.metaData.checkpointID range localFile (attempt + 1) st).2.1 > 0
        · exfalso
          rw [finishAttempt_error] at he
          have hok : (env.attempts (attempt + 1)).finishStatus.isOk = true := by
            by_contra hno
            rw [if_pos ⟨hb, hno⟩] at he
            exact statusToError_ne_end_of_stream _ he
          rw [if_neg (fun hh => hh.2 hok), hc1] at he
          rw [hc2] at hb
          have hfile := h he hb hok
          rw [hfiles, finishAttempt_files _ _ _ (outcome_deleteFileError _ he)] at hnone
          cases hf : (env.attempts (attempt + 1)).fileAfter with
          | none => exact hfile hf
          | some c => rw [hf] at hnone; simp at hnone
        · rw [if_neg hb, List.append_nil] at hdec
          exact ih _ _ _ rkv hdec hr
      · simp only [Option.some.injEq, Prod.mk.injEq, true_and] at hr
        subst hr
        refine ⟨_, hdec, ?_⟩
        split
        · simp
        · simp

/-- C13, at a failing input: the source has no pair in `[a, m)` and the stream
ends at once.  When no local file is left, as the claim asks, the call never
returns: the loop takes another turn whatever the fuel.  It returns, with
nothing appended and the envelope unchanged, only when a file is left at the
local path. -/
theorem C13_empty_range_returns_only_with_a_file :
    (∀ fuel, fetchCheckpointRange emptyRangeEnv sampleKeyValuesState ⟨[97], [109]⟩
        "/tmp/cp" 3 fuel = none) ∧
    (fetchCheckpointRange emptyRangeWithFileEnv sampleKeyValuesState ⟨[97], [109]⟩
        "/tmp/cp" 3 1).map (fun r => (r.1, r.2.metaData, r.2.files "/tmp/cp/0.sst"))
      = some (Outcome.returned (), sampleKeyValuesCheckpoint, some []) := by
  refine ⟨?_, by decide⟩
  intro fuel
  have hstep : fetchCheckpointRange emptyRangeEnv sampleKeyValuesState ⟨[97], [109]⟩
      "/tmp/cp" 3 fuel
      = fetchRangeLoop emptyRangeEnv ⟨[97], [109]⟩ "/tmp/cp/0.sst" ⟨⟨7, 7⟩⟩ 3 fuel 0
          { sampleKeyValuesState with trace := [Event.getServerList ⟨7, 7⟩] } := rfl
  rw [hstep]
  exact fetchRangeLoop_never_returns emptyRangeEnv _ _ _ _
    (fun _ => ⟨rfl, fun _ => rfl, rfl⟩) fuel 0 _ _ rfl

/-- C14, at a failing input: with `maxRetries = 3`, a source that sends one
pair and then ends its stream, and a file system on which the written file is
found only after the fifth attempt, the call makes five attempts before it
returns; when the file is never found the call makes attempt after attempt
and never returns, whatever the fuel. -/
theorem C14_attempts_not_bounded_by_max_retries :
    (fetchCheckpointRange fifthAttemptEnv sampleKeyValuesState ⟨[97], [109]⟩
        "/tmp/cp" 3 5).map (fun r => (r.1, rangeAttemptNumbers r.2.trace))
      = some (Outcome.returned (), [1, 2, 3, 4, 5]) ∧
    (∀ fuel, fetchCheckpointRange vanishingEnv sampleKeyValuesState ⟨[97], [109]⟩
        "/tmp/cp" 3 fuel = none) := by
  refine ⟨by decide, ?_⟩
  intro fuel
  have hstep : fetchCheckpointRange vanishingEnv sampleKeyValuesState ⟨[97], [109]⟩
      "/tmp/cp" 3 fuel
      = fetchRangeLoop vanishingEnv ⟨[97], [109]⟩ "/tmp/cp/0.sst" ⟨⟨7, 7⟩⟩ 3 fuel 0
          { sampleKeyValuesState with trace := [Event.getServerList ⟨7, 7⟩] } := rfl
  rw [hstep]
  exact fetchRangeLoop_never_returns vanishingEnv _ _ _ _
    (fun _ => ⟨rfl, fun _ => rfl, rfl⟩) fuel 0 _ _ rfl

/-! ## The key-value fetch: lemmas and claims -/

theorem KeyRange.overlaps_symm (r s : KeyRange) (h : ¬ r.overlaps s) : ¬ s.overlaps r := by
  rintro ⟨k, h1, h2⟩
  exact h ⟨k, h2, h1⟩

theorem filterMap_getElem_range {α : Type} (l : List α) :
    (List.range l.length).filterMap (fun i => l[i]?) = l := by
  induction l with
  | nil => rfl
  | cons x xs ih =>
    rw [List.length_cons, List.range_succ_eq_map, List.filterMap_cons]
    simp only [List.getElem?_cons_zero, List.filterMap_map]
    rw [List.cons.injEq]
    refine ⟨rfl, ?_⟩
    have hfun : ((fun i => (x :: xs)[i]?) ∘ Nat.succ) = (fun i => xs[i]?) := by
      funext i
      simp
    rw [hfun, ih]

theorem isCompletionOrder_perm (n : Nat) (order : List Nat)
    (h : isCompletionOrder n order = true) : order.Perm (List.range n) := by
  simp only [isCompletionOrder, Bool.and_eq_true, beq_iff_eq, List.all_eq_true,
    List.mem_range] at h
  obtain ⟨hlen, hall⟩ := h
  have hsub : List.range n ⊆ order := fun i hi => by
    simpa using hall i (List.mem_range.mp hi)
  have hsp : (List.range n).Subperm order :=
    List.subperm_of_subset (List.nodup_range n) hsub
  exact (hsp.perm_of_length_le (by rw [List.length_range, hlen])).symm

theorem fetchCheckpointRangeFrom_returned (env : FetchRangeEnv) (snapshot : CheckpointMetaData)
    (range : KeyRange) (dir : String) (maxRetries : Int) (fuel : Nat)
    (h : ∀ n, (env.attempts n).outcome.1 = Error.end_of_stream →
      0 < (env.attempts n).outcome.2 → (env.attempts n).finishStatus.isOk = true →
      (env.attempts n).fileAfter ≠ none)
    (st st' : FetchState) (rkv : RocksDBCheckpointKeyValues)
    (hrkv : getRocksKeyValuesCheckpoint st.metaData = some rkv)
    (hr : fetchCheckpointRangeFrom env snapshot st range dir maxRetries fuel
      = some (Outcome.returned (), st')) :
    ∃ new : List CheckpointFile,
      getRocksKeyValuesCheckpoint st'.metaData = some ⟨rkv.fetchedFiles ++ new, rkv.ranges⟩ ∧
      (new.map (fun f => f.range)).Sublist [range] := by
  simp only [fetchCheckpointRangeFrom] at hr
  split at hr
  · simp at hr
  · split at hr
    · simp at hr
    · split at hr
      · simp at hr
      · split at hr
        · simp at hr
        · split at hr
          · simp at hr
          · refine fetchRangeLoop_returned env range _ _ maxRetries h fuel 0 _ st' rkv ?_ hr
            exact hrkv
        · simp at hr
        · simp at hr

theorem waitForAllRanges_returned (envs : Nat → FetchRangeEnv) (snapshot : CheckpointMetaData)
    (ranges : List KeyRange) (dir : String) (fuel : Nat)
    (h : ∀ i n, ((envs i).attempts n).outcome.1 = Error.end_of_stream →
      0 < ((envs i).attempts n).outcome.2 → ((envs i).attempts n).finishStatus.isOk = true →
      ((envs i).attempts n).fileAfter ≠ none) :
    ∀ (order : List Nat) (st st' : FetchState) (rkv : RocksDBCheckpointKeyValues),
      getRocksKeyValuesCheckpoint st.metaData = some rkv →
      waitForAllRanges envs snapshot ranges dir fuel order st = some (Outcome.returned (), st') →
      ∃ new : List CheckpointFile,
        getRocksKeyValuesCheckpoint st'.metaData = some ⟨rkv.fetchedFiles ++ new, rkv.ranges⟩ ∧
        (new.map (fun f => f.range)).Sublist (order.filterMap (fun i => ranges[i]?)) := by
  intro order
  induction order with
  | nil =>
    intro st st' rkv hrkv hr
    simp only [waitForAllRanges, Option.some.injEq, Prod.mk.injEq, true_and] at hr
    subst hr
    exact ⟨[], by simpa using hrkv, by simp⟩
  | cons i rest ih =>
    intro st st' rkv hrkv hr
    simp only [waitForAllRanges] at hr
    split at hr
    · simp at hr
    · rename_i range hrange
      split at hr
      · simp at hr
      · rename_i u st1 htask
        obtain ⟨new1, hdec1, hsub1⟩ := fetchCheckpointRangeFrom_returned (envs i) snapshot range
          dir 3 fuel (h i) st st1 rkv hrkv htask
        obtain ⟨new2, hdec2, hsub2⟩ := ih st1 st' _ hdec1 hr
        refine ⟨new1 ++ new2, ?_, ?_⟩
        · rw [hdec2, List.append_assoc]
        · rw [List.map_append, List.filterMap_cons, hrange]
          exact List.Sublist.append hsub1 hsub2
      · simp at hr
      · simp at hr

theorem fetchCheckpointRanges_returned (env : FetchRangesEnv) (dir : String)
    (h : ∀ i n, ((env.tasks i).attempts n).outcome.1 = Error.end_of_stream →
      0 < ((env.tasks i).attempts n).outcome.2 →
      ((env.tasks i).attempts n).finishStatus.isOk = true →
      ((env.tasks i).attempts n).fileAfter ≠ none)
    (st st' : FetchState) (rkv : RocksDBCheckpointKeyValues)
    (hrkv : getRocksKeyValuesCheckpoint st.metaData = some rkv)
    (hr : fetchCheckpointRanges env st dir = some (Outcome.returned (), st')) :
    ∃ (new : List CheckpointFile) (l : List KeyRange),
      getRocksKeyValuesCheckpoint st'.metaData = some ⟨rkv.fetchedFiles ++ new, rkv.ranges⟩ ∧
      (new.map (fun f => f.range)).Sublist l ∧ l.Perm (rangesToFetch rkv) := by
  simp only [fetchCheckpointRanges, hrkv] at hr
  split at hr
  · rename_i horder
    have hperm := isCompletionOrder_perm _ _ horder
    split at hr
    · simp at hr
    · rename_i u st1 hwait
      obtain ⟨new, hdec, hsub⟩ := waitForAllRanges_returned env.tasks st.metaData
        (rangesToFetch rkv) dir env.fuel h env.order st st1 rkv hrkv hwait
      have hl : (env.order.filterMap (fun i => (rangesToFetch rkv)[i]?)).Perm
          (rangesToFetch rkv) := by
        have := hperm.filterMap (fun i => (rangesToFetch rkv)[i]?)
        rwa [filterMap_getElem_range] at this
      have hmeta : st'.metaData = st1.metaData := by
        split at hr
        · split at hr
          · simp at hr
          · simp only [Option.some.injEq, Prod.mk.injEq, true_and] at hr
            subst hr; rfl
        · simp only [Option.some.injEq, Prod.mk.injEq, true_and] at hr
          subst hr; rfl
      exact ⟨new, _, by rw [hmeta]; exact hdec, hsub, hl⟩
    · simp at hr
    · simp at hr
  · simp at hr

/-- C12, counterexample: three successful fetches whose initial fetched ranges
are pairwise non-overlapping.  With the overlapping requested ranges `[a, m)`
and `[g, z)` both are fetched whole, and the fetched ranges share the key `h`.
With `[a, c)` fetched and `[g, m)` requested, the fetched range `[a, c)` holds
the key `a`, which no requested range holds.  With `[a, m)` requested and a
written file that is found only at the fifth attempt, the range is recorded
five times. -/
theorem C12_fetched_ranges_overlap_or_leave_requested :
    (returnedRanges (keyValuesFetch (writingRangesEnv 2)
          { fetchedFiles := [], ranges := [⟨[97], [109]⟩, ⟨[103], [122]⟩] })
        = some (Outcome.returned (some [⟨[97], [109]⟩, ⟨[103], [122]⟩])) ∧
      (⟨[97], [109]⟩ : KeyRange).contains [104] ∧ (⟨[103], [122]⟩ : KeyRange).contains [104]) ∧
    (returnedRanges (keyValuesFetch (writingRangesEnv 1)
          { fetchedFiles := [⟨"/tmp/cp/9.sst", ⟨[97], [99]⟩, 10⟩], ranges := [⟨[103], [109]⟩] })
        = some (Outcome.returned (some [⟨[97], [99]⟩, ⟨[103], [109]⟩])) ∧
      (⟨[97], [99]⟩ : KeyRange).contains [97] ∧ ¬ (⟨[103], [109]⟩ : KeyRange).contains [97]) ∧
    returnedRanges (keyValuesFetch fifthAttemptRangesEnv
          { fetchedFiles := [], ranges := [⟨[97], [109]⟩] })
      = some (Outcome.returned (some [⟨[97], [109]⟩, ⟨[97], [109]⟩, ⟨[97], [109]⟩,
          ⟨[97], [109]⟩, ⟨[97], [109]⟩])) := by
  decide

/-- C12, amended: take a key-value envelope whose descriptor has pairwise
disjoint requested ranges and fetched records that name a file, with fetched
ranges that are pairwise non-overlapping and lie in the requested ranges, and
an environment in which an attempt that reaches the end of its stream with
bytes written and the writer finished leaves its file.  Then the envelope
returned by a successful `fetchRocksDBCheckpoint` decodes to a descriptor with
the same requested ranges, whose fetched ranges are pairwise non-overlapping
and hold only keys of the requested ranges. -/
theorem C12_fetched_ranges_stay_disjoint_and_requested (envs : Nat → FetchEnv)
    (order : List Nat) (env : FetchRangesEnv) (initialState : CheckpointMetaData)
    (dir : String) (files : String → Option (List Byte)) (rkv : RocksDBCheckpointKeyValues)
    (metaData : CheckpointMetaData) (st : FetchState)
    (hrkv : getRocksKeyValuesCheckpoint initialState = some rkv)
    (hdisjoint : rkv.ranges.Pairwise (fun r s => ¬ r.overlaps s))
    (hvalid : ∀ f ∈ rkv.fetchedFiles, f.isValid = true)
    (hfetched : (rkv.fetchedFiles.map (fun f => f.range)).Pairwise (fun r s => ¬ r.overlaps s))
    (hrequested : ∀ f ∈ rkv.fetchedFiles, ∀ k, f.range.contains k →
      ∃ r ∈ rkv.ranges, r.contains k)
    (hfile : ∀ i n, ((env.tasks i).attempts n).outcome.1 = Error.end_of_stream →
      0 < ((env.tasks i).attempts n).outcome.2 →
      ((env.tasks i).attempts n).finishStatus.isOk = true →
      ((env.tasks i).attempts n).fileAfter ≠ none)
    (hret : fetchRocksDBCheckpoint envs order (fetchCheckpointRanges env) initialState dir files
      = some (Outcome.returned metaData, st)) :
    ∃ rkv', getRocksKeyValuesCheckpoint metaData = some rkv' ∧ rkv'.ranges = rkv.ranges ∧
      (rkv'.fetchedFiles.map (fun f => f.range)).Pairwise (fun r s => ¬ r.overlaps s) ∧
      ∀ f ∈ rkv'.fetchedFiles, ∀ k, f.range.contains k → ∃ r ∈ rkv'.ranges, r.contains k := by
  simp only [fetchRocksDBCheckpoint] at hret
  split at hret
  · simp at hret
  · split at hret
    · have hcf : getRocksCF initialState = none := by
        simp only [getRocksKeyValuesCheckpoint] at hrkv
        simp only [getRocksCF]
        split at hrkv
        · rename_i heq
          rw [heq]
        · simp at hrkv
      rw [hcf] at hret
      simp at hret
    · split at hret
      · simp at hret
      · rename_i u st1 hranges
        simp only [Option.some.injEq, Prod.mk.injEq, Outcome.returned.injEq] at hret
        obtain ⟨hmd, hst⟩ := hret
        subst hst
        obtain ⟨new, l, hdec, hsub, hperm⟩ := fetchCheckpointRanges_returned env dir hfile
          ⟨initialState, files, []⟩ st1 rkv hrkv hranges
        have hnew : ∀ r ∈ new.map (fun f => f.range), r ∈ rangesToFetch rkv :=
          fun r hr => hperm.subset (hsub.subset hr)
        have hpair : (new.map (fun f => f.range)).Pairwise (fun r s => ¬ r.overlaps s) :=
          ((hperm.pairwise_iff (fun {a b} hab => KeyRange.overlaps_symm a b hab)).mpr
            (rangesToFetch_pairwise rkv hdisjoint hvalid)).sublist hsub
        refine ⟨⟨rkv.fetchedFiles ++ new, rkv.ranges⟩, by rw [← hmd]; exact hdec, rfl, ?_, ?_⟩
        · rw [List.map_append, List.pairwise_append]
          refine ⟨hfetched, hpair, ?_⟩
          intro a ha b hb
          obtain ⟨f, hf, rfl⟩ := List.mem_map.mp ha
          exact KeyRange.overlaps_symm _ _
            (rangesToFetch_not_fetched rkv hvalid b (hnew b hb) f hf)
        · intro f hf k hk
          rcases List.mem_append.mp hf with hold | hnew'
          · exact hrequested f hold k hk
          · exact (rangesToFetch_subset rkv hvalid k
              ⟨f.range, hnew _ (List.mem_map.mpr ⟨f, hnew', rfl⟩), hk⟩).1
      · simp at hret
      · simp at hret
    · simp at hret
    · simp only [Option.some.injEq, Prod.mk.injEq, Outcome.returned.injEq] at hret
      obtain ⟨hmd, _⟩ := hret
      subst hmd
      exact ⟨rkv, hrkv, rfl, hfetched, hrequested⟩

/-- Witness for C12 (amended): the resumed fetch of `[a, m)` with `[a, g)`
fetched returns an envelope whose fetched ranges are `[a, g)` and `[g, m)`. -/
theorem C12_fetched_ranges_stay_disjoint_and_requested_witness :
    fetchedRanges resumedFetched.1 = some [⟨[97], [103]⟩, ⟨[103], [109]⟩] ∧
    ∃ rkv', getRocksKeyValuesCheckpoint resumedFetched.1 = some rkv' ∧
      rkv'.ranges = resumedKeyValues.ranges ∧
      (rkv'.fetchedFiles.map (fun f => f.range)).Pairwise (fun r s => ¬ r.overlaps s) ∧
      ∀ f ∈ rkv'.fetchedFiles, ∀ k, f.range.contains k → ∃ r ∈ rkv'.ranges, r.contains k :=
  ⟨by decide,
    C12_fetched_ranges_stay_disjoint_and_requested (fun _ => {}) [] (writingRangesEnv 1)
      (keyValuesCheckpoint resumedKeyValues) "/tmp/cp" (fun _ => none) resumedKeyValues
      resumedFetched.1 resumedFetched.2 rfl (List.pairwise_singleton _ _) (by decide)
      (List.pairwise_singleton _ _)
      (fun f hf k hk => ⟨⟨[97], [109]⟩, by decide, by
        simp only [resumedKeyValues, List.mem_singleton] at hf
        subst hf
        exact ⟨hk.1, lt_trans hk.2 (by decide)⟩⟩)
      (fun _ _ _ _ _ => by simp [writingRangesEnv])
      rfl⟩

/-! ## Deleting a checkpoint and totalling fetched bytes: lemmas and claims -/

theorem insertDir_nodup (dirs : List String) (d : String) (h : dirs.Nodup) :
    (insertDir dirs d).Nodup := by
  unfold insertDir
  split
  · exact h
  · rename_i hd
    exact List.nodup_append.mpr ⟨h, List.nodup_singleton d, by
      intro a ha hb
      rw [List.mem_singleton] at hb
      subst hb
      exact hd ha⟩

theorem mem_insertDir (dirs : List String) (d x : String) :
    x ∈ insertDir dirs d ↔ x ∈ dirs ∨ x = d := by
  unfold insertDir
  split
  · rename_i hd
    constructor
    · exact Or.inl
    · rintro (h | h)
      · exact h
      · subst h; exact hd
  · simp

theorem foldl_insertDir (files : List LiveFileMetaData) :
    ∀ dirs : List String, dirs.Nodup →
      (files.foldl (fun dirs file => insertDir dirs file.db_path) dirs).Nodup ∧
      ∀ x, x ∈ files.foldl (fun dirs file => insertDir dirs file.db_path) dirs ↔
        x ∈ dirs ∨ ∃ f ∈ files, f.db_path = x := by
  induction files with
  | nil => intro dirs h; simp [h]
  | cons f rest ih =>
    intro dirs h
    obtain ⟨h1, h2⟩ := ih (insertDir dirs f.db_path) (insertDir_nodup dirs f.db_path h)
    refine ⟨h1, ?_⟩
    intro x
    rw [List.foldl_cons, h2, mem_insertDir]
    constructor
    · rintro ((h | h) | ⟨g, hg, hx⟩)
      · exact Or.inl h
      · exact Or.inr ⟨f, List.mem_cons_self _ _, h.symm⟩
      · exact Or.inr ⟨g, List.mem_cons_of_mem _ hg, hx⟩
    · rintro (h | ⟨g, hg, hx⟩)
      · exact Or.inl (Or.inl h)
      · rcases List.mem_cons.mp hg with hg | hg
        · subst hg; exact Or.inl (Or.inr hx.symm)
        · exact Or.inr ⟨g, hg, hx⟩

/-- C21: whatever the order in which the set of directories is walked,
`deleteRocksCheckpoint` returns and erases, for a column family envelope, each
distinct `db_path` of its files once and nothing else (the list of erased
directories has no repetition and holds exactly the `db_path` values), and for
a whole-database envelope the single `checkpointDir`; on the other formats it
erases nothing. -/
theorem C21_delete_erases_each_directory_once (iterationOrder : List String → List String)
    (horder : ∀ l, (iterationOrder l).Perm l) (checkpoint : CheckpointMetaData) :
    (∀ rocksCF, checkpoint.getFormat = CheckpointFormat.DataMoveRocksCF →
      getRocksCF checkpoint = some rocksCF →
      (deleteRocksCheckpoint iterationOrder checkpoint).1 = Outcome.returned () ∧
      (deleteRocksCheckpoint iterationOrder checkpoint).2.Nodup ∧
      ∀ d, d ∈ (deleteRocksCheckpoint iterationOrder checkpoint).2 ↔
        ∃ f ∈ rocksCF.sstFiles, f.db_path = d) ∧
    (∀ rocks, checkpoint.getFormat = CheckpointFormat.RocksDB →
      getRocksCheckpoint checkpoint = some rocks →
      deleteRocksCheckpoint iterationOrder checkpoint
        = (Outcome.returned (), [rocks.checkpointDir])) ∧
    (checkpoint.getFormat ≠ CheckpointFormat.DataMoveRocksCF →
      checkpoint.getFormat ≠ CheckpointFormat.RocksDB →
      (deleteRocksCheckpoint iterationOrder checkpoint).2 = []) := by
  refine ⟨?_, ?_, ?_⟩
  · intro rocksCF hformat hdec
    obtain ⟨hnd, hmem⟩ := foldl_insertDir rocksCF.sstFiles [] List.nodup_nil
    simp only [deleteRocksCheckpoint, hformat, hdec]
    refine ⟨trivial, (horder _).nodup_iff.mpr hnd, ?_⟩
    intro d
    rw [(horder _).mem_iff, hmem]
    simp
  · intro rocks hformat hdec
    simp only [deleteRocksCheckpoint, hformat, hdec]
    have hone : insertDir [] rocks.checkpointDir = [rocks.checkpointDir] := by
      simp [insertDir]
    rw [hone, List.perm_singleton.mp (horder _)]
  · intro h1 h2
    unfold deleteRocksCheckpoint
    split
    · rename_i h; exact absurd h h1
    · rename_i h; exact absurd h h2
    · rfl

/-- Witness for C21: three files in the directories `/a`, `/b`, `/a`, the set
walked in reverse order. -/
theorem C21_delete_erases_each_directory_once_witness :
    deleteRocksCheckpoint List.reverse twoDirCheckpoint = (Outcome.returned (), ["/b", "/a"]) ∧
    ((deleteRocksCheckpoint List.reverse twoDirCheckpoint).1 = Outcome.returned () ∧
      (deleteRocksCheckpoint List.reverse twoDirCheckpoint).2.Nodup ∧
      ∀ d, d ∈ (deleteRocksCheckpoint List.reverse twoDirCheckpoint).2 ↔
        ∃ f ∈ ([{ name := "/f1.sst", db_path := "/a" }, { name := "/f2.sst", db_path := "/b" },
          { name := "/f3.sst", db_path := "/a" }] : List LiveFileMetaData), f.db_path = d) :=
  ⟨by decide,
    (C21_delete_erases_each_directory_once List.reverse (fun l => List.reverse_perm l)
      twoDirCheckpoint).1
      { sstFiles := [{ name := "/f1.sst", db_path := "/a" }, { name := "/f2.sst", db_path := "/b" },
          { name := "/f3.sst", db_path := "/a" }] } rfl rfl⟩

/-- C22, counterexample: on a key-value envelope `deleteRocksCheckpoint` does
not throw `not_implemented`: it fails the assertion `ASSERT(false)`. -/
theorem C22_delete_key_values_fails_assertion :
    sampleKeyValuesCheckpoint.getFormat = CheckpointFormat.RocksDBKeyValues ∧
    (deleteRocksCheckpoint id sampleKeyValuesCheckpoint).1 ≠ Outcome.thrown Error.not_implemented ∧
    deleteRocksCheckpoint id sampleKeyValuesCheckpoint = (Outcome.crashed, []) := by
  decide

/-- C22, amended: on an envelope whose format is `RocksDBKeyValues`,
`deleteRocksCheckpoint` fails the assertion `ASSERT(false)` and erases no
directory. -/
theorem C22_delete_key_values_asserts (iterationOrder : List String → List String)
    (checkpoint : CheckpointMetaData)
    (hformat : checkpoint.getFormat = CheckpointFormat.RocksDBKeyValues) :
    deleteRocksCheckpoint iterationOrder checkpoint = (Outcome.crashed, []) := by
  simp only [deleteRocksCheckpoint, hformat]

/-- Witness for C22 (amended): a key-value envelope that records a fetched file. -/
theorem C22_delete_key_values_asserts_witness :
    deleteRocksCheckpoint List.reverse fetchedKeyValuesCheckpoint = (Outcome.crashed, []) :=
  C22_delete_key_values_asserts List.reverse fetchedKeyValuesCheckpoint rfl

theorem wrapInt64_add (a x : Int) : wrapInt64 (wrapInt64 a + x) = wrapInt64 (a + x) := by
  unfold wrapInt64; omega

theorem wrapInt64_of_small (x : Int) (h0 : -9223372036854775808 ≤ x)
    (h1 : x < 9223372036854775808) : wrapInt64 x = x := by
  unfold wrapInt64; omega

theorem foldl_add_size (files : List CheckpointFile) :
    ∀ total : Int,
      wrapInt64 (files.foldl (fun total file => wrapInt64 (total + file.size)) total)
        = wrapInt64 (total + (files.map (fun file => file.size)).sum) := by
  induction files with
  | nil => intro total; simp
  | cons f rest ih =>
    intro total
    rw [List.foldl_cons, ih, List.map_cons, List.sum_cons, wrapInt64_add, add_assoc]

theorem totalFetchedBytesLoop_eq (checkpoints : List CheckpointMetaData) :
    ∀ totalBytes : Int,
      (∀ c ∈ checkpoints, c.getFormat = CheckpointFormat.RocksDB →
        (getRocksCheckpoint c).isSome = true) →
      ∃ total, totalFetchedBytesLoop checkpoints totalBytes = Outcome.returned total ∧
        wrapInt64 total = wrapInt64 (totalBytes + fullDBFetchedBytes checkpoints) ∧
        (totalBytes = wrapInt64 totalBytes → total = wrapInt64 total) := by
  induction checkpoints with
  | nil =>
    intro totalBytes _
    exact ⟨totalBytes, rfl, by simp [fullDBFetchedBytes], fun h => h⟩
  | cons c rest ih =>
    intro totalBytes h
    have hrest : ∀ c' ∈ rest, c'.getFormat = CheckpointFormat.RocksDB →
        (getRocksCheckpoint c').isSome = true :=
      fun c' hc' => h c' (List.mem_cons_of_mem _ hc')
    have hfold : fullDBFetchedBytes (c :: rest)
        = (if c.getFormat = CheckpointFormat.RocksDB then fetchedSizes c else 0)
          + fullDBFetchedBytes rest := by
      unfold fullDBFetchedBytes
      by_cases hf : c.getFormat = CheckpointFormat.RocksDB <;> simp [List.filter_cons, hf]
    rw [hfold]
    cases hf : c.getFormat with
    | RocksDB =>
      have hsome := h c (List.mem_cons_self _ _) hf
      obtain ⟨rcp, hrcp⟩ := Option.isSome_iff_exists.mp hsome
      simp only [totalFetchedBytesLoop, hf, hrcp]
      obtain ⟨total, h1, h2, h3⟩ := ih
        (rcp.fetchedFiles.foldl (fun total file => wrapInt64 (total + file.size)) totalBytes)
        hrest
      refine ⟨total, h1, ?_, ?_⟩
      · have hf2 := foldl_add_size rcp.fetchedFiles totalBytes
        have hs : fetchedSizes c = (rcp.fetchedFiles.map (fun file => file.size)).sum := by
          simp [fetchedSizes, hrcp]
        rw [h2, ← wrapInt64_add, hf2, wrapInt64_add, if_pos trivial, hs, add_assoc]
      · intro hin
        apply h3
        rcases List.eq_nil_or_concat rcp.fetchedFiles with hnil | ⟨init, last, hcat⟩
        · rw [hnil]; exact hin
        · rw [hcat, List.concat_eq_append, List.foldl_append]
          simp only [List.foldl_cons, List.foldl_nil]
          unfold wrapInt64; omega
    | DataMoveRocksCF =>
      simp only [totalFetchedBytesLoop, hf]
      obtain ⟨total, h1, h2, h3⟩ := ih totalBytes hrest
      exact ⟨total, h1, by simpa using h2, h3⟩
    | InvalidFormat =>
      simp only [totalFetchedBytesLoop, hf]
      obtain ⟨total, h1, h2, h3⟩ := ih totalBytes hrest
      exact ⟨total, h1, by simpa using h2, h3⟩
    | RocksDBKeyValues =>
      simp only [totalFetchedBytesLoop, hf]
      obtain ⟨total, h1, h2, h3⟩ := ih totalBytes hrest
      exact ⟨total, h1, by simpa using h2, h3⟩

theorem getTotalFetchedBytes_eq (checkpoints : List CheckpointMetaData)
    (hdecode : ∀ c ∈ checkpoints, c.getFormat = CheckpointFormat.RocksDB →
      (getRocksCheckpoint c).isSome = true) :
    getTotalFetchedBytes checkpoints
      = Outcome.returned (wrapInt64 (fullDBFetchedBytes checkpoints)) := by
  obtain ⟨total, h1, h2, h3⟩ := totalFetchedBytesLoop_eq checkpoints 0 hdecode
  rw [zero_add] at h2
  unfold getTotalFetchedBytes
  rw [h1, h3 (by decide), h2]

/-- C30: for every list of checkpoints whose whole-database envelopes decode,
`getTotalFetchedBytes` returns the `int64_t` value of the sum of the `size`
fields of the fetched files of exactly the envelopes of format `RocksDB`: the
sum itself whenever it fits an `int64_t`.  A list without such an envelope,
whatever the files its column family and key-value envelopes record, gives
0, and so does the empty list. -/
theorem C30_total_counts_whole_database_only (checkpoints : List CheckpointMetaData)
    (hdecode : ∀ c ∈ checkpoints, c.getFormat = CheckpointFormat.RocksDB →
      (getRocksCheckpoint c).isSome = true) :
    getTotalFetchedBytes checkpoints
      = Outcome.returned (wrapInt64 (fullDBFetchedBytes checkpoints)) ∧
    (-9223372036854775808 ≤ fullDBFetchedBytes checkpoints →
      fullDBFetchedBytes checkpoints < 9223372036854775808 →
      getTotalFetchedBytes checkpoints = Outcome.returned (fullDBFetchedBytes checkpoints)) ∧
    ((∀ c ∈ checkpoints, c.getFormat ≠ CheckpointFormat.RocksDB) →
      getTotalFetchedBytes checkpoints = Outcome.returned 0) ∧
    getTotalFetchedBytes [] = Outcome.returned 0 := by
  have h := getTotalFetchedBytes_eq checkpoints hdecode
  refine ⟨h, ?_, ?_, rfl⟩
  · intro h0 h1
    rw [h, wrapInt64_of_small _ h0 h1]
  · intro hnone
    rw [h]
    have hfilter : checkpoints.filter (fun c => decide (c.getFormat = CheckpointFormat.RocksDB))
        = [] := by
      rw [List.filter_eq_nil_iff]
      intro c hc
      simpa using hnone c hc
    simp [fullDBFetchedBytes, hfilter, wrapInt64]

/-- Witness for C30: a column family envelope, a whole-database envelope with
files of 10 and 20 bytes and a key-value envelope with a file of 10 bytes
total 30; with the sizes 10, 20, -5 and 2^63 - 1 the sum does not fit and the
total wraps. -/
theorem C30_total_counts_whole_database_only_witness :
    getTotalFetchedBytes [sampleCheckpoint, sampleFullDBCheckpoint, fetchedKeyValuesCheckpoint]
      = Outcome.returned 30 ∧
    getTotalFetchedBytes [overflowingFullDBCheckpoint]
      = Outcome.returned (-9223372036854775784) ∧
    getTotalFetchedBytes [sampleCheckpoint, sampleFullDBCheckpoint, fetchedKeyValuesCheckpoint]
      = Outcome.returned (fullDBFetchedBytes
          [sampleCheckpoint, sampleFullDBCheckpoint, fetchedKeyValuesCheckpoint]) :=
  ⟨by decide, by decide,
    (C30_total_counts_whole_database_only
      [sampleCheckpoint, sampleFullDBCheckpoint, fetchedKeyValuesCheckpoint] (by decide)).2.1
      (by decide) (by decide)⟩

/-! ## The Open action and the status after a scan: claims -/

theorem actionOpen_columnFamily {σ : Type} (h : OpenHelpers σ) (checkpoint : CheckpointMetaData)
    (s : σ) (rocksCF : RocksDBColumnFamilyCheckpoint) (front : LiveFileMetaData)
    (rest : List LiveFileMetaData) (hcf : h.cfIsNull s = true)
    (hformat : checkpoint.getFormat = CheckpointFormat.DataMoveRocksCF)
    (hdec : getRocksCF checkpoint = some rocksCF) (hfiles : rocksCF.sstFiles = front :: rest) :
    actionOpen h checkpoint s =
      (if (h.tryOpenForRead (front.db_path ++ checkpointReaderSubDir) s).1.isOk = true then
        (Reply.send (), (h.tryOpenForRead (front.db_path ++ checkpointReaderSubDir) s).2)
      else if (h.importCheckpoint (front.db_path ++ checkpointReaderSubDir) checkpoint
          (h.eraseDirectoryRecursive (front.db_path ++ checkpointReaderSubDir)
            (h.tryOpenForRead (front.db_path ++ checkpointReaderSubDir) s).2)).1.isOk = true then
        (if (h.tryOpenForRead (front.db_path ++ checkpointReaderSubDir)
            (h.importCheckpoint (front.db_path ++ checkpointReaderSubDir) checkpoint
              (h.eraseDirectoryRecursive (front.db_path ++ checkpointReaderSubDir)
                (h.tryOpenForRead (front.db_path ++ checkpointReaderSubDir) s).2)).2).1.isOk
            = true then
          (Reply.send (), (h.tryOpenForRead (front.db_path ++ checkpointReaderSubDir)
            (h.importCheckpoint (front.db_path ++ checkpointReaderSubDir) checkpoint
              (h.eraseDirectoryRecursive (front.db_path ++ checkpointReaderSubDir)
                (h.tryOpenForRead (front.db_path ++ checkpointReaderSubDir) s).2)).2).2)
        else
          (Reply.sendError (statusToError (h.tryOpenForRead
              (front.db_path ++ checkpointReaderSubDir)
              (h.importCheckpoint (front.db_path ++ checkpointReaderSubDir) checkpoint
                (h.eraseDirectoryRecursive (front.db_path ++ checkpointReaderSubDir)
                  (h.tryOpenForRead (front.db_path ++ checkpointReaderSubDir) s).2)).2).1),
            (h.tryOpenForRead (front.db_path ++ checkpointReaderSubDir)
              (h.importCheckpoint (front.db_path ++ checkpointReaderSubDir) checkpoint
                (h.eraseDirectoryRecursive (front.db_path ++ checkpointReaderSubDir)
                  (h.tryOpenForRead (front.db_path ++ checkpointReaderSubDir) s).2)).2).2))
      else
        (Reply.sendError (statusToError (h.importCheckpoint
            (front.db_path ++ checkpointReaderSubDir) checkpoint
            (h.eraseDirectoryRecursive (front.db_path ++ checkpointReaderSubDir)
              (h.tryOpenForRead (front.db_path ++ checkpointReaderSubDir) s).2)).1),
          (h.importCheckpoint (front.db_path ++ checkpointReaderSubDir) checkpoint
            (h.eraseDirectoryRecursive (front.db_path ++ checkpointReaderSubDir)
              (h.tryOpenForRead (front.db_path ++ checkpointReaderSubDir) s).2)).2)) := by
  unfold actionOpen
  simp only [hcf, hformat, hdec, hfiles, not_true_eq_false, if_false, ne_eq]
  by_cases h1 : (h.tryOpenForRead (front.db_path ++ checkpointReaderSubDir) s).1.isOk = true
  · simp [h1]
  · by_cases h2 : (h.importCheckpoint (front.db_path ++ checkpointReaderSubDir) checkpoint
        (h.eraseDirectoryRecursive (front.db_path ++ checkpointReaderSubDir)
          (h.tryOpenForRead (front.db_path ++ checkpointReaderSubDir) s).2)).1.isOk = true
    · by_cases h3 : (h.tryOpenForRead (front.db_path ++ checkpointReaderSubDir)
          (h.importCheckpoint (front.db_path ++ checkpointReaderSubDir) checkpoint
            (h.eraseDirectoryRecursive (front.db_path ++ checkpointReaderSubDir)
              (h.tryOpenForRead (front.db_path ++ checkpointReaderSubDir) s).2)).2).1.isOk = true
      · simp [h1, h2, h3]
      · simp [h1, h2, h3]
    · simp [h1, h2]

/-- C24: the Open action on a column family envelope (its descriptor decodes
and has a first file, the worker's `cf` is null, as the action asserts) works
on `path = sstFiles[0].db_path + "/reader"`.  With `first` the result of the
first read-only open, `imported` that of the import after the erase, and
`second` that of the second read-only open: the action sends success exactly
when `first` is ok, or `first` fails and `imported` and `second` are ok.  When
`first` is ok the only helper call is the open; otherwise the calls are the
open, the erase and the import, followed by the second open exactly when
the import is ok.  On failure the error sent is `statusToError` of the last
failing status.  The recorded run and the plain run send the same reply and
leave the same worker state. -/
theorem C24_open_reopens_or_imports {σ : Type} (h : OpenHelpers σ)
    (checkpoint : CheckpointMetaData) (s : σ) (rocksCF : RocksDBColumnFamilyCheckpoint)
    (front : LiveFileMetaData) (rest : List LiveFileMetaData) (path : String)
    (first imported second : Status × σ)
    (hcf : h.cfIsNull s = true)
    (hformat : checkpoint.getFormat = CheckpointFormat.DataMoveRocksCF)
    (hdec : getRocksCF checkpoint = some rocksCF) (hfiles : rocksCF.sstFiles = front :: rest)
    (hpath : path = front.db_path ++ "/reader")
    (hfirst : first = h.tryOpenForRead path s)
    (himported : imported
      = h.importCheckpoint path checkpoint (h.eraseDirectoryRecursive path first.2))
    (hsecond : second = h.tryOpenForRead path imported.2) :
    ((actionOpen h checkpoint s).1 = Reply.send () ↔
      (first.1.isOk = true ∨
        (first.1.isOk = false ∧ imported.1.isOk = true ∧ second.1.isOk = true))) ∧
    (first.1.isOk = true →
      actionOpen (recordCalls h) checkpoint (s, [])
        = (Reply.send (), first.2, [OpenCall.tryOpenForRead path])) ∧
    (first.1.isOk = false → imported.1.isOk = false →
      actionOpen (recordCalls h) checkpoint (s, [])
        = (Reply.sendError (statusToError imported.1), imported.2,
            [OpenCall.tryOpenForRead path, OpenCall.eraseDirectoryRecursive path,
              OpenCall.importCheckpoint path])) ∧
    (first.1.isOk = false → imported.1.isOk = true →
      actionOpen (recordCalls h) checkpoint (s, [])
        = (if second.1.isOk = true then Reply.send ()
            else Reply.sendError (statusToError second.1),
            second.2,
            [OpenCall.tryOpenForRead path, OpenCall.eraseDirectoryRecursive path,
              OpenCall.importCheckpoint path, OpenCall.tryOpenForRead path])) ∧
    ((actionOpen (recordCalls h) checkpoint (s, [])).1,
      (actionOpen (recordCalls h) checkpoint (s, [])).2.1) = actionOpen h checkpoint s := by
  have hplain := actionOpen_columnFamily h checkpoint s rocksCF front rest hcf hformat hdec hfiles
  have hrec := actionOpen_columnFamily (recordCalls h) checkpoint (s, []) rocksCF front rest
    hcf hformat hdec hfiles
  have hsub : checkpointReaderSubDir = "/reader" := rfl
  rw [hsub, ← hpath] at hplain hrec
  simp only [recordCalls, List.nil_append, List.singleton_append, List.cons_append,
    ← hfirst] at hrec
  rw [← hfirst] at hplain
  simp only [← himported] at hrec hplain
  simp only [← hsecond] at hrec hplain
  change actionOpen (recordCalls h) checkpoint (s, []) = _ at hrec
  rw [hplain, hrec]
  cases h1 : first.1.isOk <;> cases h2 : imported.1.isOk <;> cases h3 : second.1.isOk <;> simp

/-- Witness for C24: on a worker whose reader directory is not initialised the
first open fails, the directory is erased and imported and the second open
succeeds; on a worker whose reader directory is initialised the open is the
only call and the state is unchanged. -/
theorem C24_open_reopens_or_imports_witness :
    actionOpen (recordCalls diskHelpers) sampleCheckpoint ([], [])
      = (Reply.send (), ["/remote/reader"],
          [OpenCall.tryOpenForRead "/remote/reader",
            OpenCall.eraseDirectoryRecursive "/remote/reader",
            OpenCall.importCheckpoint "/remote/reader",
            OpenCall.tryOpenForRead "/remote/reader"]) ∧
    actionOpen (recordCalls diskHelpers) sampleCheckpoint (["/remote/reader"], [])
      = (Reply.send (), ["/remote/reader"], [OpenCall.tryOpenForRead "/remote/reader"]) :=
  ⟨(C24_open_reopens_or_imports diskHelpers sampleCheckpoint [] sampleRocksCF
      { name := "/f1.sst", db_path := "/remote" } [{ name := "/f2.sst", db_path := "/remote" }]
      "/remote/reader" (Status.ioError, []) (Status.ok, ["/remote/reader"])
      (Status.ok, ["/remote/reader"]) rfl rfl rfl rfl (by decide) (by decide) (by decide)
      (by decide)).2.2.2.1 (by decide) (by decide),
    (C24_open_reopens_or_imports diskHelpers sampleCheckpoint ["/remote/reader"] sampleRocksCF
      { name := "/f1.sst", db_path := "/remote" } [{ name := "/f2.sst", db_path := "/remote" }]
      "/remote/reader" (Status.ok, ["/remote/reader"]) (Status.ok, ["/remote/reader"])
      (Status.ok, ["/remote/reader"]) rfl rfl rfl rfl (by decide) (by decide) (by decide)
      (by decide)).2.1 (by decide)⟩

/-- C25: for every `ReadRange` action with positive limits, when the status of
the engine iterator after the scan loop is not ok the action sends
`statusToError` of that status, and neither a batch nor `end_of_stream`,
whatever the loop has accumulated; when the status is ok the action sends
none of `io_error`, `transaction_too_old`, `unknown_error`. -/
theorem C25_error_status_is_translated (sz : Nat) (rowLimit byteLimit : Int)
    (hr : 0 < rowLimit) (hb : 0 < byteLimit) (it : RocksDBCheckpointIterator) :
    ((actionReadRange sz rowLimit byteLimit it).2.iterator.status.isOk = false →
      (actionReadRange sz rowLimit byteLimit it).1
          = Reply.sendError (statusToError (actionReadRange sz rowLimit byteLimit it).2.iterator.status) ∧
        (∀ batch, (actionReadRange sz rowLimit byteLimit it).1 ≠ Reply.send batch) ∧
        (actionReadRange sz rowLimit byteLimit it).1 ≠ Reply.sendError Error.end_of_stream) ∧
    ((actionReadRange sz rowLimit byteLimit it).2.iterator.status.isOk = true →
      (actionReadRange sz rowLimit byteLimit it).1 ≠ Reply.sendError Error.io_error ∧
        (actionReadRange sz rowLimit byteLimit it).1 ≠ Reply.sendError Error.transaction_too_old ∧
        (actionReadRange sz rowLimit byteLimit it).1 ≠ Reply.sendError Error.unknown_error) := by
  rw [actionReadRange_pos sz rowLimit byteLimit hr hb it]
  dsimp only
  constructor
  · intro hs
    split at hs
    · rename_i hnot
      rw [if_pos hnot]
      refine ⟨rfl, fun batch hsend => (by cases hsend), fun heos => ?_⟩
      simp only [Reply.sendError.injEq] at heos
      exact statusToError_ne_end_of_stream _ heos
    · rename_i hok
      simp only [Bool.not_eq_true, Bool.not_eq_false] at hok
      split at hs <;> simp_all
  · intro hs
    split at hs
    · rename_i hnot
      simp_all
    · rename_i hok
      rw [if_neg hok]
      split <;> simp

/-- Witness for C25: the iterator holds one pair in range and fails with an IO
error after it; the pair is accumulated, yet the action sends `io_error`. -/
theorem C25_error_status_is_translated_witness :
    (actionReadRange 32 5 1000
        (RocksDBCheckpointIterator.create [⟨[97], [49]⟩] Status.ioError ⟨[97], [122]⟩)).1
      = Reply.sendError Error.io_error ∧
    (actionReadRange 32 5 1000
        (RocksDBCheckpointIterator.create [⟨[97], [49]⟩] Status.ioError ⟨[97], [122]⟩)).1
      = Reply.sendError (statusToError (actionReadRange 32 5 1000
          (RocksDBCheckpointIterator.create [⟨[97], [49]⟩] Status.ioError
            ⟨[97], [122]⟩)).2.iterator.status) :=
  ⟨by decide,
    ((C25_error_status_is_translated 32 5 1000 (by decide) (by decide)
      (RocksDBCheckpointIterator.create [⟨[97], [49]⟩] Status.ioError ⟨[97], [122]⟩)).1
      (by decide)).1⟩

/-! ## The batch of a scan as a shortest prefix: lemmas and claim -/

theorem putsOutcome_spec (l : List (KeyValueRef × Status)) :
    ∀ totalBytes : Int,
      ((putsOutcome l totalBytes).1 = none →
        (putsOutcome l totalBytes).2
          = totalBytes + ((l.map (fun p => (p.1.expectedSize : Int))).sum)) ∧
      ∀ e, (putsOutcome l totalBytes).1 = some e → e ≠ Error.end_of_stream := by
  induction l with
  | nil => intro totalBytes; simp [putsOutcome]
  | cons p rest ih =>
    intro totalBytes
    obtain ⟨kv, status⟩ := p
    simp only [putsOutcome]
    split
    · refine ⟨fun h => (by cases h), fun e he => ?_⟩
      simp only [Option.some.injEq] at he
      rw [← he]
      exact statusToError_ne_end_of_stream _
    · obtain ⟨h1, h2⟩ := ih (totalBytes + kv.expectedSize)
      refine ⟨fun h => ?_, h2⟩
      rw [h1 h, List.map_cons, List.sum_cons]
      ring

theorem repliesOutcome_spec (streamError : Error)
    (replies : List (List (KeyValueRef × Status))) :
    ∀ totalBytes : Int,
      (repliesOutcome streamError replies totalBytes).1 = Error.end_of_stream →
      (repliesOutcome streamError replies totalBytes).2
        = totalBytes + ((replies.flatten.map (fun p => (p.1.expectedSize : Int))).sum) := by
  induction replies with
  | nil => intro totalBytes _; simp [repliesOutcome]
  | cons rep rest ih =>
    intro totalBytes h
    obtain ⟨h1, h2⟩ := putsOutcome_spec rep totalBytes
    simp only [repliesOutcome] at h ⊢
    rcases hp : putsOutcome rep totalBytes with ⟨_ | e, tb⟩
    · rw [hp] at h h1
      simp only at h ⊢
      have h1' : tb = totalBytes + (rep.map (fun p => (p.1.expectedSize : Int))).sum := h1 rfl
      rw [ih tb h, h1', List.flatten_cons, List.map_append, List.sum_append]
      ring
    · rw [hp] at h h2
      simp only at h
      exact absurd h (h2 e rfl)

theorem outcome_total (a : RangeAttemptEnv) (h : a.outcome.1 = Error.end_of_stream) :
    a.outcome.2 = (a.replies.flatten.map (fun p => (p.1.expectedSize : Int))).sum := by
  have hd := outcome_deleteFileError a h
  unfold RangeAttemptEnv.outcome at h ⊢
  rw [hd] at h ⊢
  simp only at h ⊢
  split at h
  · exact absurd h (statusToError_ne_end_of_stream _)
  · rename_i hopen
    rw [if_neg hopen, repliesOutcome_spec _ _ 0 h, zero_add]

/-- C26: take a turn of the retry loop of `fetchCheckpointRange` whose attempt
ends with `end_of_stream` after writing `totalBytes > 0` and whose writer
finishes with an ok status, in a state whose envelope decodes to `rkv` at that
moment.  After the turn the envelope decodes to `rkv` with the one record
`(localFile, range, totalBytes)` appended: the records of `rkv`, whoever
wrote them, are kept as they are, and `totalBytes` is the sum of the sizes of
the pairs of this attempt.  The call then returns when the local file exists
and takes another turn when it does not. -/
theorem C26_end_of_stream_appends_one_record (env : FetchRangeEnv) (range : KeyRange)
    (localFile : String) (ssi : StorageServerInterface) (maxRetries : Int)
    (fuel attempt : Nat) (st : FetchState) (rkv : RocksDBCheckpointKeyValues)
    (hrkv : getRocksKeyValuesCheckpoint st.metaData = some rkv)
    (heos : (env.attempts (attempt + 1)).outcome.1 = Error.end_of_stream)
    (hbytes : 0 < (env.attempts (attempt + 1)).outcome.2)
    (hfinish : (env.attempts (attempt + 1)).finishStatus.isOk = true) :
    ∃ st' : FetchState,
      getRocksKeyValuesCheckpoint st'.metaData
        = some ⟨rkv.fetchedFiles ++
            [⟨localFile, range, (env.attempts (attempt + 1)).outcome.2⟩], rkv.ranges⟩ ∧
      (env.attempts (attempt + 1)).outcome.2
        = ((env.attempts (attempt + 1)).replies.flatten.map
            (fun p => (p.1.expectedSize : Int))).sum ∧
      fetchRangeLoop env range localFile ssi maxRetries (fuel + 1) attempt st
        = (if (env.attempts (attempt + 1)).fileAfter.isNone then
            fetchRangeLoop env range localFile ssi maxRetries fuel (attempt + 1) st'
          else some (Outcome.returned (), st')) := by
  have ho := tryRangeAttempt_outcome (env.attempts (attempt + 1)) ssi
    st.metaData.checkpointID range localFile (attempt + 1) st
  have hc1 := congrArg Prod.fst ho
  have hc2 := congrArg Prod.snd ho
  simp only at hc1 hc2
  have he : (finishAttempt (env.attempts (attempt + 1)) localFile
      (tryRangeAttempt (env.attempts (attempt + 1)) ssi st.metaData.checkpointID range
        localFile (attempt + 1) st)).1 = Error.end_of_stream := by
    rw [finishAttempt_error, if_neg (fun hh => hh.2 hfinish), hc1, heos]
  have hm : getRocksKeyValuesCheckpoint (finishAttempt (env.attempts (attempt + 1)) localFile
      (tryRangeAttempt (env.attempts (attempt + 1)) ssi st.metaData.checkpointID range
        localFile (attempt + 1) st)).2.metaData = some rkv := by
    rw [finishAttempt_metaData, tryRangeAttempt_metaData, hrkv]
  obtain ⟨st', hst', hfiles, hdec⟩ := appendFetchedFile_spec _ localFile range
    (tryRangeAttempt (env.attempts (attempt + 1)) ssi st.metaData.checkpointID range
        localFile (attempt + 1) st).2.1 rkv hm
  rw [hc2, if_pos hbytes] at hdec
  refine ⟨st', hdec, outcome_total _ heos, ?_⟩
  have hfile : st'.files localFile = (env.attempts (attempt + 1)).fileAfter := by
    rw [hfiles, finishAttempt_files _ _ _ (outcome_deleteFileError _ heos)]
  simp only [fetchRangeLoop, he, ne_eq, not_true_eq_false, if_false, hst', hfile]

/-- Witness for C26: the envelope records `[a, g)`; the attempt for `[g, m)`
receives one pair of two bytes and its file is found, so the call returns
with the record `("/tmp/cp/0.sst", [g, m), 2)` appended. -/
theorem C26_end_of_stream_appends_one_record_witness :
    ∃ st' : FetchState,
      getRocksKeyValuesCheckpoint st'.metaData
        = some ⟨[⟨"/tmp/cp/9.sst", ⟨[97], [103]⟩, 10⟩, ⟨"/tmp/cp/0.sst", ⟨[103], [109]⟩, 2⟩],
            [⟨[97], [109]⟩]⟩ ∧
      (2 : Int) = ([[((⟨[104], [49]⟩ : KeyValueRef), Status.ok)]].flatten.map
          (fun p => (p.1.expectedSize : Int))).sum ∧
      fetchRangeLoop ((writingRangesEnv 1).tasks 0) ⟨[103], [109]⟩ "/tmp/cp/0.sst" ⟨⟨7, 7⟩⟩ 3
          1 0 resumedKeyValuesState
        = some (Outcome.returned (), st') :=
  C26_end_of_stream_appends_one_record ((writingRangesEnv 1).tasks 0) ⟨[103], [109]⟩
    "/tmp/cp/0.sst" ⟨⟨7, 7⟩⟩ 3 0 0 resumedKeyValuesState resumedKeyValues rfl rfl (by decide) rfl

/-! ## The assertion of a range fetch: lemmas and claims -/

theorem Key.not_lt_nil (k : Key) : ¬ k < [] := by
  intro h
  have h' : ([] : Key) ≤ k := List.nil_le
  exact absurd h (not_lt.mpr h')

theorem insert_nonempty (m : KeyRangeMap) (keys : KeyRange) (value : CheckpointFile)
    (h : ∀ e ∈ m, e.range.beginKey < e.range.endKey) :
    ∀ e ∈ m.insert keys value, e.range.beginKey < e.range.endKey := by
  intro e he
  unfold KeyRangeMap.insert at he
  split at he
  · rename_i hkeys
    rcases List.mem_append.mp he with he | he
    · rcases List.mem_append.mp he with he | he
      · rw [List.mem_filterMap] at he
        obtain ⟨e0, he0, heq⟩ := he
        split at heq
        · rename_i hlt
          simp only [Option.some.injEq] at heq
          subst heq
          exact lt_min (h e0 he0) hlt
        · cases heq
      · rw [List.mem_singleton] at he
        subst he
        exact hkeys
    · rw [List.mem_filterMap] at he
      obtain ⟨e0, he0, heq⟩ := he
      split at heq
      · rename_i hlt
        simp only [Option.some.injEq] at heq
        subst heq
        exact max_lt (h e0 he0) hlt
      · cases heq
  · exact h e he

theorem fetchedFileMap_nonempty (rkv : RocksDBCheckpointKeyValues) :
    ∀ e ∈ fetchedFileMap rkv, e.range.beginKey < e.range.endKey := by
  unfold fetchedFileMap
  have hgen : ∀ (files : List CheckpointFile) (m : KeyRangeMap),
      (∀ e ∈ m, e.range.beginKey < e.range.endKey) →
      ∀ e ∈ files.foldl (fun fileMap file => fileMap.insert file.range file) m,
        e.range.beginKey < e.range.endKey := by
    intro files
    induction files with
    | nil => intro m h; exact h
    | cons f rest ih =>
      intro m h
      exact ih _ (insert_nonempty m f.range f h)
  apply hgen
  intro e he
  rw [KeyRangeMap.new, List.mem_singleton] at he
  subst he
  decide

theorem rangesToFetch_not_intersects (rkv : RocksDBCheckpointKeyValues)
    (hvalid : ∀ f ∈ rkv.fetchedFiles, f.isValid = true)
    (hnonempty : ∀ f ∈ rkv.fetchedFiles, f.range.beginKey < f.range.endKey) :
    ∀ sub ∈ rangesToFetch rkv, ∀ f ∈ rkv.fetchedFiles, f.range.intersects sub = false := by
  obtain ⟨_, _, hV⟩ := rangeMapInv_fetchedFileMap rkv hvalid
  intro sub hsub f hf
  obtain ⟨range, _, e, he, _, hval, heq⟩ := (mem_rangesToFetch rkv sub).mp hsub
  have hseg := fetchedFileMap_nonempty rkv e he
  have hfne := hnonempty f hf
  cases hint : f.range.intersects sub with
  | false => rfl
  | true =>
    exfalso
    unfold KeyRange.intersects at hint
    simp only [Bool.and_eq_true, decide_eq_true_eq] at hint
    obtain ⟨h1, h2⟩ := hint
    rw [heq] at h1 h2
    unfold KeyRange.inter at h1 h2
    dsimp only at h1 h2
    split at h1
    · exact Key.not_lt_nil _ h1
    · rename_i hdeg
      rw [if_neg hdeg] at h2
      simp only [lt_min_iff] at h1
      simp only [max_lt_iff] at h2
      have hk : e.range.contains (max f.range.beginKey e.range.beginKey) :=
        ⟨le_max_right _ _, max_lt h1.2 hseg⟩
      have hkf : f.range.contains (max f.range.beginKey e.range.beginKey) :=
        ⟨le_max_left _ _, max_lt hfne h2.2⟩
      have hvalid' := (hV e he _ hk).mpr ⟨f, hf, hkf⟩
      rw [hval] at hvalid'
      cases hvalid'

/-- C27: for every key-value descriptor whose fetched records are as the code
writes them (they name a file and have a non-empty range), every sub-range
that `fetchCheckpointRanges` passes to `fetchCheckpointRange` shares no key
with the range of a fetched record of the envelope as it is when the calls
are made, and the test of the assertion
`ASSERT(!file.range.intersects(range))` fails for no record. -/
theorem C27_sub_ranges_pass_the_assertion (rkv : RocksDBCheckpointKeyValues)
    (hvalid : ∀ f ∈ rkv.fetchedFiles, f.isValid = true)
    (hnonempty : ∀ f ∈ rkv.fetchedFiles, f.range.beginKey < f.range.endKey) :
    ∀ sub ∈ rangesToFetch rkv,
      (∀ f ∈ rkv.fetchedFiles, ¬ sub.overlaps f.range) ∧
      rkv.fetchedFiles.any (fun file => file.range.intersects sub) = false := by
  intro sub hsub
  refine ⟨rangesToFetch_not_fetched rkv hvalid sub hsub, ?_⟩
  rw [List.any_eq_false]
  intro f hf
  rw [rangesToFetch_not_intersects rkv hvalid hnonempty sub hsub f hf]
  simp

/-- Witness for C27: with `[a, g)` fetched and `[a, m)` requested the
sub-range `[g, m)` passes the test. -/
theorem C27_sub_ranges_pass_the_assertion_witness :
    rangesToFetch resumedKeyValues = [⟨[103], [109]⟩] ∧
    ∀ sub ∈ rangesToFetch resumedKeyValues,
      (∀ f ∈ resumedKeyValues.fetchedFiles, ¬ sub.overlaps f.range) ∧
      resumedKeyValues.fetchedFiles.any (fun file => file.range.intersects sub) = false :=
  ⟨by decide, C27_sub_ranges_pass_the_assertion resumedKeyValues (by decide) (by decide)⟩

/-! ## Tenant management: claims on `createTenantTransaction` -/

/-- When the two assertions on the arguments hold, the name does not start
with the byte `0xff`, the tenant-mode check passes and the tenant map holds an
entry for the name, `createTenantTransaction` returns that existing entry
paired with `false`; it sets `RAW_ACCESS` and writes nothing. -/
theorem createTenantTransaction_existing (env : TenantEnv) (tr : TenantTransaction)
    (name : TenantName) (tenantEntry : TenantMapEntry) (clusterType : ClusterType)
    (existing : TenantMapEntry)
    (hcluster : clusterType ≠ ClusterType.METACLUSTER_MANAGEMENT ∨
      tenantEntry.assignedCluster.isSome = true)
    (hid : 0 ≤ tenantEntry.id) (hname : name.head? ≠ some 255)
    (hmode : env.checkTenantMode tr.tenantMode (getClusterType tr) clusterType = true)
    (hexisting : tr.tenantMap name = some existing) :
    createTenantTransaction env tr name tenantEntry clusterType
      = (Outcome.returned (some existing, false), { tr with rawAccess := true }) ∧
    (createTenantTransaction env tr name tenantEntry clusterType).2.writes = tr.writes := by
  have h : createTenantTransaction env tr name tenantEntry clusterType
      = (Outcome.returned (some existing, false), { tr with rawAccess := true }) := by
    unfold createTenantTransaction
    have hmode' : env.checkTenantMode tr.tenantMode
        (getClusterType { tr with rawAccess := true }) clusterType = true := hmode
    simp only [hcluster, not_true_eq_false, if_false, ge_iff_le, hid, hname,
      tryGetTenantTransaction, hexisting, hmode']
  exact ⟨h, by rw [h]⟩

/-- C23, at a failing input: the tenant map holds an entry for the name `t` and
the tenant-mode check passes; `createTenantTransaction` returns that entry
paired with `false`, not the empty optional that its comment states.  It
writes nothing. -/
theorem C23_existing_entry_not_empty_optional :
    sampleTenantTransaction.tenantMap [116] = some { id := 5, keyPrefix := [0, 0, 0, 0, 0, 0, 0, 5] } ∧
    sampleTenantEnv.checkTenantMode sampleTenantTransaction.tenantMode
        (getClusterType sampleTenantTransaction) ClusterType.STANDALONE = true ∧
    (createTenantTransaction sampleTenantEnv sampleTenantTransaction [116] { id := 7 }
        ClusterType.STANDALONE).1
      = Outcome.returned (some { id := 5, keyPrefix := [0, 0, 0, 0, 0, 0, 0, 5] }, false) ∧
    (createTenantTransaction sampleTenantEnv sampleTenantTransaction [116] { id := 7 }
        ClusterType.STANDALONE).1 ≠ Outcome.returned (none, false) ∧
    (createTenantTransaction sampleTenantEnv sampleTenantTransaction [116] { id := 7 }
        ClusterType.STANDALONE).2.writes = [] := by
  decide

/-! ## Renaming a tenant: lemmas and claims -/

end RocksDBCheckpointUtils
